import Mathlib

/-! A shallow embedding of the crash collection daemon `crashlog/crashlogd.c`.

C strings are lists of characters (no NUL inside), files are character lists,
machine integers are `Nat` / `Int` with the wrap-around written out where the
source can overflow.  Where a function is followed through its failing system
calls, their outcome comes from an explicit record; the doc comment of a
definition says which calls are taken to succeed.
-/

namespace Crashlogd

/-- A C string: the characters before the terminating NUL. -/
abbrev Str := List Char

/-! ## Constants of `crashlogd.c` -/

def MAX_DIR : Nat := 1000
def MAX_RECORDS : Nat := 5000
def SAVEDLINES : Nat := 1
def PATHMAX : Nat := 512
def FILESIZE_MAX : Nat := 10 * 1024 * 1024
def SHA1_DIGEST_LENGTH : Nat := 20

def CRASH_MODE : Nat := 0
def STATS_MODE : Nat := 1
def APLOGS_MODE : Nat := 2

def SDCARD_CRASH_DIR : Str := "/mnt/sdcard/data/logs/crashlog".toList
def EMMC_CRASH_DIR : Str := "/data/logs/crashlog".toList
def SDCARD_STATS_DIR : Str := "/mnt/sdcard/data/logs/stats".toList
def EMMC_STATS_DIR : Str := "/data/logs/stats".toList
def SDCARD_APLOGS_DIR : Str := "/mnt/sdcard/data/logs/aplogs".toList
def EMMC_APLOGS_DIR : Str := "/data/logs/aplogs".toList
def CRASH_CURRENT_LOG : Str := "/data/logs/currentcrashlog".toList
def STATS_CURRENT_LOG : Str := "/data/logs/currentstatslog".toList
def APLOGS_CURRENT_LOG : Str := "/data/logs/currentaplogslog".toList

/-- The value of `files` in `main` when no number is given: `0xFFFFFFFF`. -/
def DEFAULT_FILES : Nat := 4294967295

def INT_MAX : Int := 2147483647
def INT_MIN : Int := -2147483648

/-! ## The pieces of the C library the daemon relies on -/

/-- The decimal digit `d` (`d < 10`) as a character. -/
def digitChar (d : Nat) : Char := Char.ofNat (48 + d)

/-- Decimal digits of `n`, most significant first; `fuel` bounds the number of digits. -/
def fmt_u_fuel : Nat → Nat → Str
  | 0, _ => []
  | fuel + 1, n =>
    if n < 10 then [digitChar n] else fmt_u_fuel fuel (n / 10) ++ [digitChar (n % 10)]

/-- What printf prints for `%u` (and for `%d` of a non-negative value). -/
def fmt_u (n : Nat) : Str := fmt_u_fuel (n + 1) n

/-- What printf prints for `%d` and `%lld`. -/
def fmt_d (v : Int) : Str :=
  if v < 0 then '-' :: fmt_u v.natAbs else fmt_u v.natAbs

/-- The C locale `isspace`. -/
def isspace (c : Char) : Bool :=
  c = ' ' || c = '\t' || c = '\n' || c = '\x0b' || c = '\x0c' || c = '\r'

/-- The C locale `isdigit`. -/
def isdigit (c : Char) : Bool := 48 ≤ c.toNat && c.toNat ≤ 57

/-- Value of a run of decimal digits, read left to right starting from `acc`. -/
def digitsValue : Str → Nat → Nat
  | [], acc => acc
  | c :: cs, acc => digitsValue cs (acc * 10 + (c.toNat - 48))

/-- Outcome of one `%d` conversion of `fscanf` on the whole content of a stream. -/
inductive ScanInt where
  /-- The input ended before anything was converted: `fscanf` returns `EOF`. -/
  | eof
  /-- The next input is not a number: `fscanf` returns 0 and stores nothing. -/
  | nomatch
  /-- A number was read; the field holds its mathematical value. -/
  | val (v : Int)
  deriving DecidableEq, Repr

/-- The conversion `fscanf(fd, "%d", &i)` at the start of a stream holding `s`: white space is
skipped, an optional sign is taken, then the longest run of digits. -/
def scanf_d (s : Str) : ScanInt :=
  match s.dropWhile isspace with
  | [] => ScanInt.eof
  | c :: cs =>
    let body := if c = '-' ∨ c = '+' then cs else c :: cs
    match body.takeWhile isdigit with
    | [] => ScanInt.nomatch
    | d :: ds =>
      let v : Int := (digitsValue (d :: ds) 0 : Nat)
      ScanInt.val (if c = '-' then -v else v)

/-! ## The file system seen by the bundle allocator -/

/-- One child of a bundle directory; `removable` is false for a non-empty sub-directory, the
only kind of child `remove` cannot delete. -/
structure DirEnt where
  name : Str
  removable : Bool
  deriving DecidableEq, Repr

/-- The part of the file system the allocator touches: regular files by path, directories by
path with their children, and whether `/mnt/sdcard/data/logs` exists or can be created. -/
structure FS where
  sdcard : Bool
  files : Str → Option Str
  dirs : Str → Option (List DirEnt)

/-- The effect of `fopen(path, "w")`, one `fprintf` and `fclose`. -/
def FS.write (fs : FS) (path content : Str) : FS :=
  { fs with files := fun p => if p = path then some content else fs.files p }

/-- Replace the children of the directory at `path`. -/
def FS.setDir (fs : FS) (path : Str) (ents : List DirEnt) : FS :=
  { fs with dirs := fun p => if p = path then some ents else fs.dirs p }

/-- Outcome of the calls of one `find_dir` run that can fail for reasons outside the modelled
file system, and the indeterminate initial value of the local `i`. -/
structure Sys where
  /-- The call `stat` on the cursor file fails with an errno other than `ENOENT`. -/
  stat_err : Bool
  fopen_r_fails : Bool
  fopen_w_fails : Bool
  opendir_fails : Bool
  closedir_fails : Bool
  indet : Nat

/-- Every call succeeds. -/
def Sys.ok : Sys := ⟨false, false, false, false, false, 0⟩

/-- The roots chosen by `sdcard_exist`, as the triple `(CRASH_DIR, STATS_DIR, APLOGS_DIR)`. -/
def sdcard_exist (fs : FS) : Str × Str × Str :=
  if fs.sdcard then (SDCARD_CRASH_DIR, SDCARD_STATS_DIR, SDCARD_APLOGS_DIR)
  else (EMMC_CRASH_DIR, EMMC_STATS_DIR, EMMC_APLOGS_DIR)

/-- First `switch` of `find_dir`: the cursor file of the mode. -/
def cursor_path (mode : Nat) : Str :=
  match mode with
  | 0 => CRASH_CURRENT_LOG
  | 2 => APLOGS_CURRENT_LOG
  | _ => STATS_CURRENT_LOG

/-- Second `switch` of `find_dir`: the bundle root of the mode. -/
def bundle_root (fs : FS) (mode : Nat) : Str :=
  match mode with
  | 0 => (sdcard_exist fs).1
  | 2 => (sdcard_exist fs).2.2
  | _ => (sdcard_exist fs).2.1

/-- The value `fscanf(fd, "%d", &i)` leaves in the `unsigned int i` of `find_dir`: 0 when
`fscanf` returns `EOF`, the number read when it fits an `int`, and the indeterminate value
otherwise (nothing stored, or a conversion the C standard leaves undefined). -/
def read_cursor (sys : Sys) (content : Str) : Nat :=
  match scanf_d content with
  | ScanInt.eof => 0
  | ScanInt.nomatch => sys.indet % 2 ^ 32
  | ScanInt.val v =>
    if INT_MIN ≤ v ∧ v ≤ INT_MAX then (v % 2 ^ 32).toNat else sys.indet % 2 ^ 32

/-- Second half of `find_dir` (from the comment "we clobber the oldest one"): make the
directory of slot `oldest` exist, deleting what can be deleted in it.  After the loop `path`
names the last child, so `rmdir` only succeeds on a directory that had no child, and the
`mkdir` that follows recreates it; otherwise both calls fail and the children that could not
be removed stay.  A `mkdir` of a missing directory is taken to succeed; its result is not
looked at by the source. -/
def find_dir_clobber (sys : Sys) (mode oldest : Nat) (fs : FS) : Int × FS :=
  let path := bundle_root fs mode ++ fmt_u oldest
  match fs.dirs path with
  | none => ((oldest : Int), fs.setDir path [])
  | some ents =>
    if sys.opendir_fails then (-1, fs)
    else
      let fs1 := fs.setDir path (ents.filter fun e => !e.removable)
      if sys.closedir_fails then (-1, fs1) else ((oldest : Int), fs1)

/-- The function `find_dir(max, mode)`.  The result is the value the callers receive in their
`int dir` (`-1` is the failure value) with the file system afterwards; `none` is the trap of
the division `i % max` when `max` is 0. -/
def find_dir (sys : Sys) (max mode : Nat) (fs : FS) : Option (Int × FS) :=
  let path := cursor_path mode
  if sys.stat_err then some (-1, fs)
  else
    match fs.files path with
    | some content =>
      if sys.fopen_r_fails then some (-1, fs)
      else
        let i := read_cursor sys content % MAX_DIR
        let oldest := i
        let i := (i + 1) % 2 ^ 32
        if sys.fopen_w_fails then some (-1, fs)
        else if max = 0 then none
        else some (find_dir_clobber sys mode oldest (fs.write path (fmt_d ((i % max : Nat) : Int))))
    | none =>
      if sys.fopen_w_fails then some (-1, fs)
      else some (find_dir_clobber sys mode 0 (fs.write path (fmt_d 1)))

/-- The results of `n` successive calls of `find_dir` in one mode, every system call
succeeding, together with the final file system. -/
def find_dir_seq (max mode : Nat) : Nat → FS → Option (List Int × FS)
  | 0, fs => some ([], fs)
  | n + 1, fs =>
    match find_dir Sys.ok max mode fs with
    | none => none
    | some (r, fs1) =>
      match find_dir_seq max mode n fs1 with
      | none => none
      | some (rs, fs2) => some (r :: rs, fs2)


/-- No call of a `find_dir` run fails. -/
def Sys.succeeds (sys : Sys) : Prop :=
  sys.stat_err = false ∧ sys.fopen_r_fails = false ∧ sys.fopen_w_fails = false ∧
    sys.opendir_fails = false ∧ sys.closedir_fails = false

/-- A file system without sdcard and without bundle directory whose only file is the crash
cursor, absent for `none`. -/
def cursorOnly (content : Option Str) : FS :=
  { sdcard := false
    files := fun p => if p = CRASH_CURRENT_LOG then content else none
    dirs := fun _ => none }

/-! ## The history ledger -/

def CRASHEVENT : Str := "CRASH".toList
def STATSEVENT : Str := "STATS".toList
def STATEEVENT : Str := "STATE".toList
def APLOGEVENT : Str := "APLOG".toList
def STATSTRIGGER : Str := "STTRIG".toList
def APLOGTRIGGER : Str := "APLOGTRIG".toList
def CURRENT_UPTIME : Str := "CURRENTUPTIME".toList
def PER_UPTIME : Str := "UPTIME".toList
def SYS_REBOOT : Str := "REBOOT".toList

/-- The conversion `%-Ns`: the string, then blanks up to width `w`; nothing is cut. -/
def pad_right (w : Nat) (s : Str) : Str := s ++ List.replicate (w - s.length) ' '

/-- The conversion `%s`; for a null pointer the C library of the platform prints `(null)`. -/
def fmt_s (s : Option Str) : Str :=
  match s with
  | some t => t
  | none => "(null)".toList

/-- The conversions `%02d` and `%04d`: at least `w` characters, zeros after the sign. -/
def fmt_0d (w : Nat) (v : Int) : Str :=
  let ds := fmt_u v.natAbs
  if v < 0 then '-' :: (List.replicate (w - 1 - ds.length) '0' ++ ds)
  else List.replicate (w - ds.length) '0' ++ ds

/-- The conversion of a value to `int`: reduction into `[-2^31, 2^31)`. -/
def int32 (v : Int) : Int := (v + 2 ^ 31) % 2 ^ 32 - 2 ^ 31

/-- The uptime text computed at the head of `history_file_write` and in the uptime tick from the
nanosecond count `tm` (a `long long`): `%04d:%02d:%02d` of hours, minutes and seconds, all of
type `int` with the truncating division of C.  The text has at most 14 characters, so the
32-byte buffer it is printed into never cuts it. -/
def fmt_uptime (tm : Int) : Str :=
  let hours : Int := int32 (Int.tdiv tm 1000000000)
  let seconds := Int.tmod hours 60
  let hours := Int.tdiv hours 60
  let minutes := Int.tmod hours 60
  let hours := Int.tdiv hours 60
  fmt_0d 4 hours ++ ':' :: fmt_0d 2 minutes ++ ':' :: fmt_0d 2 seconds

/-- First header line, `"#V1.0 %-16s%-24s\n"` of `CURRENT_UPTIME` and the uptime text. -/
def header_line (uptime : Str) : Str :=
  "#V1.0 ".toList ++ pad_right 16 CURRENT_UPTIME ++ pad_right 24 uptime ++ ['\n']

/-- Second header line, the column header. -/
def column_header : Str := "#EVENT  ID                    DATE                 TYPE\n".toList

/-- The function `strstr`: the rest of `hay` from the first occurrence of `needle` on. -/
def strstr : Str → Str → Option Str
  | [], needle => if needle.isEmpty then some [] else none
  | c :: cs, needle =>
    if needle.isPrefixOf (c :: cs) then some (c :: cs) else strstr cs needle

/-- What `p = strrchr(s, c); p[0] = 0` leaves in `s`: the part before the last `c`, `none`
when `c` does not occur (`strrchr` returns null). -/
def cut_at_last (c : Char) : Str → Option Str
  | [] => none
  | x :: xs =>
    match cut_at_last c xs with
    | some r => some (x :: r)
    | none => if x = c then some [] else none

/-- The path `history_file_write` records for the bundle path `log`: the rewrite of the sdcard
root, printed into the `PATHMAX`-byte buffer `tmp`, then cut at the last slash. -/
def history_path (log : Str) : Str :=
  let tmp : Str :=
    match strstr log "/mnt/sdcard".toList, strstr log "/data/logs".toList with
    | some _, some p1 => ("/storage/sdcard0".toList ++ p1).take (PATHMAX - 1)
    | _, _ => log.take (PATHMAX - 1)
  match cut_at_last '/' tmp with
  | some r => r
  | none => tmp

/-- The first three columns of every record, `%-8s%-22s%-20s`. -/
def record_head (event key date_tmp_2 : Str) : Str :=
  pad_right 8 event ++ pad_right 22 key ++ pad_right 20 date_tmp_2

/-- What the calls of one `history_file_write` run depend on besides the ledger: the uptime
read by `get_uptime` (0 when that fails) and whether the two `fopen` calls fail. -/
structure HistSys where
  tm : Int
  creat_fails : Bool
  append_fails : Bool

/-- Both `fopen` calls succeed. -/
def HistSys.ok (tm : Int) : HistSys := ⟨tm, false, false⟩

/-- The function `history_file_write` on the content of the ledger (`none`: no file).  The
result is the ledger afterwards and, when the analyzer is spawned, the arguments
`(subtype, path, key, uptime, date)` handed to `analyze_crash`. -/
def history_file_write (sys : HistSys) (ledger : Option Str) (event : Str)
    (type subtype log lastuptime : Option Str) (key date_tmp_2 : Str) :
    Option Str × Option (Option Str × Str × Str × Str × Str) :=
  let subtype := match subtype with
    | none => type
    | some s => some s
  let uptime := fmt_uptime sys.tm
  if ledger.isNone ∧ sys.creat_fails = true then (ledger, none)
  else
    let base : Str := match ledger with
      | none => header_line uptime ++ column_header
      | some l => l
    match log with
    | some lg =>
      let tmp := history_path lg
      if sys.append_fails then (some base, none)
      else
        (some (base ++ record_head event key date_tmp_2 ++ fmt_s type ++ ' ' :: tmp ++ ['\n']),
          if event = CRASHEVENT then some (subtype, tmp, key, uptime, date_tmp_2) else none)
    | none =>
      if sys.append_fails then (some base, none)
      else
        match type with
        | some t =>
          match lastuptime with
          | some u =>
            (some (base ++ record_head event key date_tmp_2 ++ pad_right 16 t ++ ' ' :: u ++ ['\n']),
              none)
          | none => (some (base ++ record_head event key date_tmp_2 ++ pad_right 16 t ++ ['\n']), none)
        | none => (some (base ++ record_head event key date_tmp_2 ++ fmt_s lastuptime ++ ['\n']), none)

/-- The ledger written by `reset_history` (its `fopen` succeeding). -/
def reset_history : Str := header_line "0000:00:00".toList ++ column_header

/-- First loop of `del_file_more_lines`: the number of newline bytes. -/
def count_newlines : Str → Nat
  | [] => 0
  | c :: cs => if c = '\n' then count_newlines cs + 1 else count_newlines cs

/-- Second loop of `del_file_more_lines`, started at index `i` with `tmp` newlines seen: the
values of `i` and `dest` when the loop ends. -/
def scan_lines (count : Nat) : Str → Nat → Nat → Nat → Nat × Nat
  | [], i, _, dest => (i, dest)
  | c :: cs, i, tmp, dest =>
    if c = '\n' then
      if tmp + 1 ≥ count then (i, if tmp + 1 = SAVEDLINES then i else dest)
      else scan_lines count cs (i + 1) (tmp + 1) (if tmp + 1 = SAVEDLINES then i else dest)
    else scan_lines count cs (i + 1) tmp dest

/-- The arguments of the call `memcpy(&data[dest + 1], &data[i + 1], sz - i - 1)` of
`del_file_more_lines` as indices into the buffer: destination, source and number of bytes;
`none` when the ledger is below the threshold and nothing is copied. -/
def del_file_more_lines_memcpy (data : Str) : Option (Nat × Nat × Nat) :=
  let count := count_newlines data
  if count ≥ MAX_RECORDS + SAVEDLINES then
    let count := count - MAX_RECORDS / 2
    let r := scan_lines count data 0 0 0
    some (r.2 + 1, r.1 + 1, data.length - r.1 - 1)
  else none

/-- Whether the regions of `n` bytes at `dst` and at `src` overlap, in which case the
behaviour of `memcpy` is undefined. -/
def regions_overlap (dst src n : Nat) : Bool := decide (dst < src + n) && decide (src < dst + n)

/-- The function `del_file_more_lines` on the content of the ledger, every file operation
and `malloc` succeeding and the size fitting the `int sz`: the content afterwards.  The
buffer is spliced by `memcpy(&data[dest + 1], &data[i + 1], sz - i - 1)` and its first
`sz - i - 1 + dest + 1` bytes are written back.  The result is `none` when the two regions
of the `memcpy` overlap: the behaviour of the call is undefined then. -/
def del_file_more_lines (data : Str) : Option Str :=
  let count := count_newlines data
  if count ≥ MAX_RECORDS + SAVEDLINES then
    let count := count - MAX_RECORDS / 2
    let r := scan_lines count data 0 0 0
    if regions_overlap (r.2 + 1) (r.1 + 1) (data.length - r.1 - 1) then none
    else some (data.take (r.2 + 1) ++ data.drop (r.1 + 1))
  else some data

/-- The first `k` lines of a text, each with its newline. -/
def take_lines : Nat → Str → Str
  | 0, _ => []
  | _ + 1, [] => []
  | k + 1, c :: cs => c :: (if c = '\n' then take_lines k cs else take_lines (k + 1) cs)

/-- The text after its first `k` lines. -/
def drop_lines : Nat → Str → Str
  | 0, s => s
  | _ + 1, [] => []
  | k + 1, c :: cs => if c = '\n' then drop_lines k cs else drop_lines (k + 1) cs

/-- Index of the `k`-th newline of a text (`k ≥ 1`). -/
def nl_index : Nat → Str → Nat
  | _, [] => 0
  | k, c :: cs =>
    if c = '\n' then (if k ≤ 1 then 0 else nl_index (k - 1) cs + 1) else nl_index k cs + 1

/-- A record as `main` appends it for the encryption state. -/
def sample_record : Str :=
  record_head STATEEVENT "00000000000000000000".toList "2013-01-01/00:00:00  ".toList ++
    pad_right 16 "DECRYPTED".toList ++ ['\n']

/-- The text of `n` copies of `sample_record`. -/
def sample_records : Nat → Str
  | 0 => []
  | n + 1 => sample_record ++ sample_records n

/-- A ledger as `reset_history` creates it, followed by `n` records. -/
def sample_ledger (n : Nat) : Str := reset_history ++ sample_records n

/-! ## The event key

The digest comes from `sha1.h`, which is not part of the repository; the definitions from
`rotl32` to `SHA1` model it from the spec, which names it SHA-1. -/

/-- Left rotation of a 32-bit word. -/
def rotl32 (x n : Nat) : Nat := ((x <<< n) ||| (x >>> (32 - n))) % 2 ^ 32

/-- Big-endian bytes of a value, `n` of them. -/
def be_bytes : Nat → Nat → List Nat
  | 0, _ => []
  | n + 1, v => (v >>> (8 * n)) % 256 :: be_bytes n v

/-- The padded message: the bytes, 0x80, zeros up to 56 modulo 64, the bit length on 8 bytes. -/
def sha1_pad (msg : List Nat) : List Nat :=
  msg ++ 128 :: List.replicate ((119 - msg.length % 64) % 64) 0 ++ be_bytes 8 (8 * msg.length)

/-- Big-endian 32-bit words of a byte list. -/
def be_words : Nat → List Nat → List Nat
  | 0, _ => []
  | n + 1, b0 :: b1 :: b2 :: b3 :: rest =>
    (((b0 * 256 + b1) * 256 + b2) * 256 + b3) :: be_words n rest
  | _ + 1, _ => []

/-- The message schedule, newest word first; `n` more words are added. -/
def sha1_schedule : Nat → List Nat → List Nat
  | 0, w => w
  | n + 1, w =>
    sha1_schedule n
      (rotl32 (w.getD 2 0 ^^^ w.getD 7 0 ^^^ w.getD 13 0 ^^^ w.getD 15 0) 1 :: w)

/-- The five chaining words of SHA-1. -/
structure Sha1State where
  a : Nat
  b : Nat
  c : Nat
  d : Nat
  e : Nat

/-- Round `t` of the compression function on the schedule word `w`. -/
def sha1_round (t : Nat) (s : Sha1State) (w : Nat) : Sha1State :=
  let f :=
    if t < 20 then (s.b &&& s.c) ||| ((s.b ^^^ (2 ^ 32 - 1)) &&& s.d)
    else if t < 40 then s.b ^^^ s.c ^^^ s.d
    else if t < 60 then (s.b &&& s.c) ||| (s.b &&& s.d) ||| (s.c &&& s.d)
    else s.b ^^^ s.c ^^^ s.d
  let k :=
    if t < 20 then 0x5A827999 else if t < 40 then 0x6ED9EBA1
    else if t < 60 then 0x8F1BBCDC else 0xCA62C1D6
  ⟨(rotl32 s.a 5 + f + s.e + k + w) % 2 ^ 32, s.a, rotl32 s.b 30, s.c, s.d⟩

/-- The rounds from `t` on, one for each schedule word given. -/
def sha1_rounds : Nat → Sha1State → List Nat → Sha1State
  | _, s, [] => s
  | t, s, w :: ws => sha1_rounds (t + 1) (sha1_round t s w) ws

/-- The compression of one block of 64 bytes into the chaining words. -/
def sha1_block (h : Sha1State) (block : List Nat) : Sha1State :=
  let w := (sha1_schedule 64 (be_words 16 block).reverse).reverse
  let s := sha1_rounds 0 h w
  ⟨(h.a + s.a) % 2 ^ 32, (h.b + s.b) % 2 ^ 32, (h.c + s.c) % 2 ^ 32, (h.d + s.d) % 2 ^ 32,
    (h.e + s.e) % 2 ^ 32⟩

/-- The compression of the first `n` blocks of a byte list. -/
def sha1_blocks : Nat → Sha1State → List Nat → Sha1State
  | 0, h, _ => h
  | n + 1, h, bytes => sha1_blocks n (sha1_block h (bytes.take 64)) (bytes.drop 64)

/-- Modelled from the spec: the digest routines `SHA1Init`, `SHA1Update` and `SHA1Final` of
`sha1.h`, a library the daemon calls and the repository does not contain.  The spec names
them the SHA-1 digest; this is SHA-1 as published (FIPS 180), from a byte string to the 20
bytes of the digest. -/
def SHA1 (msg : Str) : List Nat :=
  let bytes := sha1_pad (msg.map fun c => c.toNat % 256)
  let h := sha1_blocks (bytes.length / 64)
    ⟨0x67452301, 0xEFCDAB89, 0x98BADCFE, 0x10325476, 0xC3D2E1F0⟩ bytes
  be_bytes 4 h.a ++ be_bytes 4 h.b ++ be_bytes 4 h.c ++ be_bytes 4 h.d ++ be_bytes 4 h.e

/-- A hexadecimal digit as `%x` prints it. -/
def xdigitChar (d : Nat) : Char := if d < 10 then Char.ofNat (48 + d) else Char.ofNat (87 + d)

/-- Hexadecimal digits of `n`, most significant first; `fuel` bounds their number. -/
def fmt_x_fuel : Nat → Nat → Str
  | 0, _ => []
  | fuel + 1, n =>
    if n < 16 then [xdigitChar n] else fmt_x_fuel fuel (n / 16) ++ [xdigitChar (n % 16)]

/-- The conversion `%02x`: the hexadecimal digits, with zeros in front up to two characters. -/
def fmt_02x (v : Nat) : Str :=
  let ds := fmt_x_fuel (v + 1) v
  List.replicate (2 - ds.length) '0' ++ ds

/-- The loop of `compute_key` over `results[0 .. n)`, one `sprintf(tmp_key, "%02x", ...)` for
each `unsigned char` of the digest. -/
def compute_key_loop : Nat → List Nat → Str
  | 0, _ => []
  | n + 1, results => fmt_02x (results.headD 0 % 256) ++ compute_key_loop n results.tail

/-- The function `compute_key(key, event, type)`: the key it leaves in `key`, from the globals
`buildVersion` and `uuid` and the uptime `time_ns` stored by `get_uptime` (0 when that
fails).  The text is printed into the 256-byte buffer `buf` by `snprintf`. -/
def compute_key (buildVersion uuid : Str) (time_ns : Int) (event : Str) (type : Option Str) :
    Str :=
  let buf := (buildVersion ++ uuid ++ event ++ fmt_s type ++ fmt_d time_ns).take 255
  compute_key_loop (SHA1_DIGEST_LENGTH / 2) (SHA1 buf)

/-- The sixteen lowercase hexadecimal digits. -/
def hex_digits : Str := "0123456789abcdef".toList

/-- Lowercase hexadecimal encoding of a list of bytes, two digits for each byte. -/
def hex_encode : List Nat → Str
  | [] => []
  | b :: bs => hex_digits.getD (b / 16) '0' :: hex_digits.getD (b % 16) '0' :: hex_encode bs

/-- The key in the words of the spec: the first 10 bytes of the SHA-1 digest of the input
string, hex-encoded. -/
def spec_key (input : Str) : Str := hex_encode ((SHA1 input).take 10)

/-- A build version of 91 characters, the longest a property value can be. -/
def long_build : Str := List.replicate 91 'b'

/-- A device identifier of 170 characters; `uuid` has room for 255. -/
def long_uuid : Str := List.replicate 170 'u'

/-! ## Copying a file -/

/-- What the calls of one `do_copy` run depend on besides the source file: whether the two
`open` calls fail, the value the `n`-th `read` and the `n`-th `write` are ready to return
(negative for a failure, otherwise the number of bytes they would transfer at most), and the
bytes found in the uninitialised array `buffer`. -/
structure CopySys where
  open_src_fails : Bool
  open_des_fails : Bool
  rd : Nat → Int
  wr : Nat → Int
  stack : Nat → Char

/-- Inner loop `while (brtr)` of `do_copy`, with `brtr` bytes still to read at offset `pos` of
the source `s`, before the `n`-th `read`.  A `read` returns at most what is asked and what
the file still holds, 0 at the end of the file.  The result is `false` for `goto out_err`,
the bytes stored from the start of `buffer`, the offset and the number of calls.  At most
`brtr` turns are needed, which is the `fuel` given by `copy_loop`. -/
def read_loop (sys : CopySys) (s : Str) : Nat → Nat → Nat → Nat → Str → Bool × Str × Nat × Nat
  | 0, _, pos, n, got => (true, got, pos, n)
  | fuel + 1, brtr, pos, n, got =>
    if brtr = 0 then (true, got, pos, n)
    else if sys.rd n < 0 then (false, got, pos, n + 1)
    else
      let rc := min (sys.rd n).toNat (min brtr (s.length - pos))
      if rc = 0 then (true, got, pos, n + 1)
      else read_loop sys s fuel (brtr - rc) (pos + rc) (n + 1) (got ++ (s.drop pos).take rc)

/-- Inner loop `while (brtw)` of `do_copy`: `data` are the bytes from `p` on still to write,
`dst` the content of the destination, `n` the number of the next `write`. -/
def write_loop (sys : CopySys) : Nat → Str → Nat → Str → Bool × Str × Nat
  | 0, _, n, dst => (true, dst, n)
  | fuel + 1, data, n, dst =>
    if data.length = 0 then (true, dst, n)
    else if sys.wr n < 0 then (false, dst, n + 1)
    else
      let rc := min (sys.wr n).toNat data.length
      if rc = 0 then (true, dst, n + 1)
      else write_loop sys fuel (data.drop rc) (n + 1) (dst ++ data.take rc)

/-- Outer loop `while (filelen)` of `do_copy` through the buffer of `4*1024` bytes.  Every
turn takes `tmp ≥ 1` bytes off `filelen`, so `filelen` turns are enough, which is the `fuel`
given by `do_copy`. -/
def copy_loop (sys : CopySys) (s : Str) :
    Nat → Nat → Nat → Str → Nat → Nat → Str → Bool × Str
  | 0, _, _, _, _, _, dst => (true, dst)
  | fuel + 1, filelen, pos, buffer, nr, nw, dst =>
    if filelen = 0 then (true, dst)
    else
      let tmp := if filelen > 4 * 1024 then 4 * 1024 else filelen
      match read_loop sys s tmp tmp pos nr [] with
      | (false, _, _, _) => (false, dst)
      | (true, got, pos1, nr1) =>
        let buffer1 := got ++ buffer.drop got.length
        match write_loop sys tmp (buffer1.take tmp) nw dst with
        | (false, dst1, _) => (false, dst1)
        | (true, dst1, nw1) => copy_loop sys s fuel (filelen - tmp) pos1 buffer1 nr1 nw1 dst1

/-- The function `do_copy(src, des, limit)` on the content of the source (`none`: `stat`
fails) and of the destination before the call, for an `int limit`: the value returned and
the destination afterwards.  The size of the source enters the `int filelen` by conversion; the result is
`none` when `filelen` is negative, a count no `read` into the buffer is defined for.  The
offset handed to `lseek` is taken to fit `off_t`. -/
def do_copy (sys : CopySys) (src des : Option Str) (limit : Int) : Option (Int × Option Str) :=
  match src with
  | none => some (-1, des)
  | some s =>
    if sys.open_src_fails then some (-1, des)
    else if sys.open_des_fails then some (-1, des)
    else
      let st_size : Int := (s.length : Int)
      let whole : Bool := decide (limit = 0 ∨ limit ≥ st_size)
      let filelen : Int := if whole then int32 st_size else limit
      let pos : Nat := if whole then 0 else (st_size - limit).toNat
      if filelen < 0 then none
      else
        match copy_loop sys s filelen.toNat filelen.toNat pos
            ((List.range (4 * 1024)).map sys.stack) 0 0 [] with
        | (false, dst) => some (-1, some dst)
        | (true, dst) => some (0, some dst)

/-- System calls that all succeed, each `read` and `write` moving at most `chunk` bytes. -/
def CopySys.chunked (chunk : Nat) : CopySys :=
  ⟨false, false, fun _ => (chunk : Int), fun _ => (chunk : Int), fun _ => 'x'⟩

/-! ## The effects of the classifier and of the boot checks -/

def KERNEL_CRASH : Str := "IPANIC".toList
def SYSSERVER_WDT : Str := "UIWDT".toList
def KERNEL_FORCE_CRASH : Str := "IPANIC_FORCED".toList
def KERNEL_FAKE_CRASH : Str := "IPANIC_FAKE".toList
def ANR_CRASH : Str := "ANR".toList
def JAVA_CRASH : Str := "JAVACRASH".toList
def TOMB_CRASH : Str := "TOMBSTONE".toList
def LOST : Str := "LOST_DROPBOX".toList
def AP_COREDUMP : Str := "APCOREDUMP".toList
def MODEM_CRASH : Str := "MPANIC".toList
def MODEM_SHUTDOWN : Str := "MSHUTDOWN".toList
def AP_INI_M_RST : Str := "APIMR".toList
def M_RST_WN_COREDUMP : Str := "MRESET".toList
def FABRIC_ERROR : Str := "FABRICERR".toList
def RECOVERY_ERROR : Str := "RECOVERY_ERROR".toList
def TIMEOUT_VALUE : Nat := 20 * 1000
def APLOG_FILE_0 : Str := "/data/logs/aplog".toList
def APLOG_TYPE : Nat := 0
def BPLOG_TYPE : Nat := 1
def HISTORY_UPTIME : Str := "/data/logs/uptime".toList
def PANIC_CONSOLE_NAME : Str := "/proc/emmc_ipanic_console".toList
def PROC_FABRIC_ERROR_NAME : Str := "/proc/ipanic_fabric_err".toList
def SAVED_CONSOLE_NAME : Str := "/data/dontpanic/emmc_ipanic_console".toList
def SAVED_THREAD_NAME : Str := "/data/dontpanic/emmc_ipanic_threads".toList
def SAVED_LOGCAT_NAME : Str := "/data/dontpanic/emmc_ipanic_logcat".toList
def SAVED_FABRIC_ERROR_NAME : Str := "/data/dontpanic/ipanic_fabric_err".toList
def CONSOLE_NAME : Str := "emmc_ipanic_console".toList
def THREAD_NAME : Str := "emmc_ipanic_threads".toList
def LOGCAT_NAME : Str := "emmc_ipanic_logcat".toList
def FABRIC_ERROR_NAME : Str := "ipanic_fabric_err".toList
def MODEM_SHUTDOWN_TRIGGER : Str := "/data/logs/modemcrash/mshutdown.txt".toList
def RECOVERY_ERROR_TRIGGER : Str := "/cache/recovery/recoveryfail".toList
def RECOVERY_ERROR_LOG : Str := "/cache/recovery/last_log".toList

def IN_CLOSE_WRITE : Nat := 0x8
def IN_MOVED_TO : Nat := 0x80
def IN_DELETE_SELF : Nat := 0x400
def IN_MOVE_SELF : Nat := 0x800

/-- One call made while an event is handled, with the arguments that tell the calls apart.
The key and the date handed to `history_file_write` are left out. -/
inductive Effect where
  | compute_key (event : Str) (type : Option Str)
  | find_dir (mode : Nat)
  | do_copy (src des : Str) (limit : Nat)
  | mv_modem_crash (spath dpath : Str)
  | backup_apcoredump (dir : Int) (name path : Str)
  | usleep (usec : Nat)
  | do_log_copy (mode : Str) (dir : Int) (type : Nat)
  | flush_aplog_atboot (mode : Str) (dir : Int)
  | history_file_write (event : Str) (type subtype log lastuptime : Option Str)
  | del_file_more_lines
  | notify_crashreport
  | restart_profile1_srv
  | restart_profile2_srv
  | remove (path : Str)
  | write_file (path value : Str)
  | system (cmd : Str)
  | sendfile (src des : Str)
  | unlink (path : Str)
  | backtrace_parse_tombstone_file (path : Str)
  deriving DecidableEq, Repr

/-- What the handling of one event reads from its surroundings. -/
structure World where
  /-- The roots left in the globals by `sdcard_exist`. -/
  CRASH_DIR : Str
  STATS_DIR : Str
  APLOGS_DIR : Str
  /-- The value returned by the `n`-th call of `find_dir` made for the event. -/
  find_dir : Nat → Int
  /-- The content of the file at a path outside the bundles; `none` when `stat` fails. -/
  file : Str → Option Str
  /-- The content found when a file put into a bundle is opened again; `none` when that
  fails. -/
  bundle_file : Str → Option Str
  /-- Whether `open` fails on a path that is to be created. -/
  open_fails : Str → Bool
  /-- The value of the property `persist.anr.userstack.disabled`, `"0"` when unset. -/
  anr_userstack : Str
  /-- The values `atoi` gives for the properties `persist.crashreport.aplogdepth` and
  `persist.crashreport.packet`. -/
  aplog_depth : Int
  nb_packet : Int
  /-- The date text in the format `TIME_FORMAT_1`. -/
  date_tmp : Str
  test_flag : Bool

/-- The test `strstr(s, sub) != NULL`. -/
def contains (s sub : Str) : Bool := (strstr s sub).isSome

/-- What `snprintf` leaves in a buffer of `PATHMAX` bytes. -/
def snp (s : Str) : Str := s.take (PATHMAX - 1)

/-- The successive results of `fgets` with a buffer of `size` bytes on a stream holding the
given text, `cur` being the part of the current line already read. -/
def fgets_all (size : Nat) : Str → Str → List Str
  | [], cur => if cur.isEmpty then [] else [cur]
  | c :: cs, cur =>
    if c = '\n' ∨ cur.length + 1 = size - 1 then (cur ++ [c]) :: fgets_all size cs []
    else fgets_all size cs (cur ++ [c])

/-- The function `process_anr_or_uiwdt(destion, dir, remove_path)`: its calls, and the text
it leaves in the caller's buffer `destion`, which loses a final `.gz`. -/
def process_anr_or_uiwdt (w : World) (destion : Str) (dir : Int) (remove_path : Int) :
    List Effect × Str :=
  let gz : Bool := destion.drop (destion.length - 3) = ".gz".toList
  let gunzip : List Effect :=
    if gz then [Effect.system (snp ("gunzip ".toList ++ destion))] else []
  let destion := if gz then destion.take (destion.length - 3) else destion
  match w.bundle_file destion with
  | none => (gunzip, destion)
  | some content =>
    match ((fgets_all PATHMAX content []).take 100).find?
        fun cmd => "Trace file:".toList.isPrefixOf cmd with
    | none => (gunzip, destion)
    | some cmd =>
      let tracefile := (cmd.drop 11).dropLast
      let dest_path := snp (w.CRASH_DIR ++ fmt_d dir ++ "/trace_all_stack.txt".toList)
      if (w.file tracefile).isNone then (gunzip, destion)
      else if w.open_fails dest_path then (gunzip, destion)
      else
        (gunzip ++ [Effect.sendfile tracefile dest_path, Effect.unlink tracefile,
          Effect.backtrace_parse_tombstone_file dest_path] ++
          (if remove_path > 0 then [Effect.unlink dest_path] else []), destion)

/-- The function `backtrace_anr_uiwdt(dest, dir)`, with the buffer `dest` afterwards. -/
def backtrace_anr_uiwdt (w : World) (dest : Str) (dir : Int) : List Effect × Str :=
  if w.anr_userstack.head? = some '1' then ([], dest) else process_anr_or_uiwdt w dest dir 0

/-- An entry of the watch table. -/
structure wd_name where
  wd : Int
  mask : Nat
  eventname : Str
  filename : Str
  cmp : Str
  deriving DecidableEq, Repr

/-- The table `wd_array` as it is initialised. -/
def wd_array : List wd_name :=
  [ ⟨0, IN_CLOSE_WRITE, CURRENT_UPTIME, "/data/logs/uptime".toList, []⟩,
    ⟨0, IN_CLOSE_WRITE ||| IN_DELETE_SELF ||| IN_MOVE_SELF, MODEM_CRASH,
      "/data/logs/modemcrash".toList, "mpanic.txt".toList⟩,
    ⟨0, IN_CLOSE_WRITE ||| IN_DELETE_SELF ||| IN_MOVE_SELF, AP_INI_M_RST,
      "/data/logs/modemcrash".toList, "apimr.txt".toList⟩,
    ⟨0, IN_CLOSE_WRITE ||| IN_DELETE_SELF ||| IN_MOVE_SELF, M_RST_WN_COREDUMP,
      "/data/logs/modemcrash".toList, "mreset.txt".toList⟩,
    ⟨0, IN_MOVED_TO ||| IN_DELETE_SELF ||| IN_MOVE_SELF, SYSSERVER_WDT,
      "/data/system/dropbox".toList, "system_server_watchdog".toList⟩,
    ⟨0, IN_MOVED_TO ||| IN_DELETE_SELF ||| IN_MOVE_SELF, ANR_CRASH,
      "/data/system/dropbox".toList, "anr".toList⟩,
    ⟨0, IN_CLOSE_WRITE ||| IN_DELETE_SELF ||| IN_MOVE_SELF, TOMB_CRASH,
      "/data/tombstones".toList, "tombstone".toList⟩,
    ⟨0, IN_MOVED_TO ||| IN_DELETE_SELF ||| IN_MOVE_SELF, JAVA_CRASH,
      "/data/system/dropbox".toList, "crash".toList⟩,
    ⟨0, IN_CLOSE_WRITE ||| IN_DELETE_SELF ||| IN_MOVE_SELF, AP_COREDUMP,
      "/data/logs/core".toList, ".core".toList⟩,
    ⟨0, IN_MOVED_TO ||| IN_CLOSE_WRITE ||| IN_DELETE_SELF ||| IN_MOVE_SELF, LOST,
      "/data/system/dropbox".toList, ".lost".toList⟩,
    ⟨0, IN_CLOSE_WRITE ||| IN_DELETE_SELF ||| IN_MOVE_SELF, STATSTRIGGER,
      "/data/logs/stats".toList, "_trigger".toList⟩,
    ⟨0, IN_CLOSE_WRITE ||| IN_DELETE_SELF ||| IN_MOVE_SELF, APLOGTRIGGER,
      "/data/logs/aplogs".toList, "_trigger".toList⟩ ]

/-- The record written when no bundle could be allocated, with what follows it in most
branches. -/
def no_dir_record (event : Str) (type subtype : Option Str) : List Effect :=
  [Effect.history_file_write event type subtype none none, Effect.del_file_more_lines,
    Effect.notify_crashreport]

/-- Branch "for modem reset" of `do_crashlogd` for the entry `e` and the file `name`. -/
def branch_modem_reset (w : World) (e : wd_name) (name : Str) : List Effect :=
  let dir := w.find_dir 0
  [Effect.compute_key CRASHEVENT (some e.eventname), Effect.find_dir CRASH_MODE] ++
  if dir = -1 then no_dir_record CRASHEVENT (some e.eventname) none
  else
    let path := snp (e.filename ++ '/' :: name)
    let copy : List Effect :=
      match w.file path with
      | some content =>
        if content.length ≠ 0 then
          [Effect.do_copy path (snp (w.CRASH_DIR ++ fmt_d dir ++ '/' :: name)) FILESIZE_MAX]
        else []
      | none => []
    copy ++
      [Effect.usleep TIMEOUT_VALUE, Effect.do_log_copy e.eventname dir APLOG_TYPE,
        Effect.do_log_copy e.eventname dir BPLOG_TYPE,
        Effect.history_file_write CRASHEVENT (some e.eventname) none
          (some (snp (w.CRASH_DIR ++ fmt_d dir ++ ['/']))) none,
        Effect.del_file_more_lines, Effect.notify_crashreport]

/-- Branch "for modem crash". -/
def branch_modem_crash (w : World) (e : wd_name) (name : Str) : List Effect :=
  let dir := w.find_dir 0
  [Effect.compute_key CRASHEVENT (some e.eventname), Effect.find_dir CRASH_MODE] ++
  if dir = -1 then no_dir_record CRASHEVENT (some e.eventname) none
  else
    [Effect.mv_modem_crash e.filename (snp (w.CRASH_DIR ++ fmt_d dir)),
      Effect.do_copy (snp (e.filename ++ '/' :: name))
        (snp (w.CRASH_DIR ++ fmt_d dir ++ '/' :: name)) 0,
      Effect.usleep TIMEOUT_VALUE, Effect.do_log_copy e.eventname dir APLOG_TYPE,
      Effect.do_log_copy e.eventname dir BPLOG_TYPE,
      Effect.history_file_write CRASHEVENT (some e.eventname) none
        (some (snp (w.CRASH_DIR ++ fmt_d dir ++ ['/']))) none,
      Effect.del_file_more_lines, Effect.notify_crashreport]

/-- The text copied into `lostevent` in the branch "for full dropbox"; `none` when the
branch is left at once. -/
def lost_event (name : Str) : Option Str :=
  if contains name "anr".toList then some ANR_CRASH
  else if contains name "crash".toList then some JAVA_CRASH
  else none

/-- Branch "for full dropbox". -/
def branch_lost (w : World) (name : Str) : List Effect :=
  match lost_event name with
  | none => []
  | some lostevent =>
    let lostevent_subtype := (LOST ++ '_' :: lostevent).take 31
    let dir := w.find_dir 0
    [Effect.compute_key CRASHEVENT (some lostevent), Effect.find_dir CRASH_MODE] ++
    if dir = -1 then no_dir_record CRASHEVENT (some lostevent) (some lostevent_subtype)
    else
      [Effect.usleep TIMEOUT_VALUE, Effect.do_log_copy lostevent dir APLOG_TYPE,
        Effect.history_file_write CRASHEVENT (some lostevent) (some lostevent_subtype)
          (some (snp (w.CRASH_DIR ++ fmt_d dir ++ ['/']))) none,
        Effect.del_file_more_lines, Effect.notify_crashreport]

/-- The text before the first occurrence of `needle`, `none` when there is none. -/
def str_before : Str → Str → Option Str
  | [], needle => if needle.isEmpty then some [] else none
  | c :: cs, needle =>
    if needle.isPrefixOf (c :: cs) then some []
    else (str_before cs needle).map fun b => c :: b

/-- The buffer `tmp` of the STATS branch after `p = strstr(tmp, "trigger")` and
`strcpy(p, "data")`. -/
def trigger_to_data (tmp : Str) : Str :=
  match str_before tmp "trigger".toList with
  | some b => b ++ "data".toList
  | none => tmp

/-- Branch "for STATS trigger"; `tmp` is a buffer of 16 bytes. -/
def branch_stats (w : World) (e : wd_name) (name : Str) : List Effect :=
  let tmp := name.take 15
  let dir := w.find_dir 0
  [Effect.find_dir STATS_MODE] ++
  if dir = -1 then
    Effect.compute_key STATSEVENT (some (trigger_to_data tmp)) ::
      no_dir_record STATSEVENT (some (trigger_to_data tmp)) none
  else
    let data : List Effect :=
      if contains tmp "trigger".toList then
        [Effect.do_copy (snp (e.filename ++ '/' :: trigger_to_data tmp))
            (snp (w.STATS_DIR ++ fmt_d dir ++ '/' :: trigger_to_data tmp)) 0,
          Effect.remove (snp (e.filename ++ '/' :: trigger_to_data tmp))]
      else []
    data ++
      [Effect.do_copy (snp (e.filename ++ '/' :: name))
          (snp (w.STATS_DIR ++ fmt_d dir ++ '/' :: name)) 0,
        Effect.remove (snp (e.filename ++ '/' :: name)),
        Effect.compute_key STATSEVENT (some (trigger_to_data tmp)),
        Effect.history_file_write STATSEVENT (some (trigger_to_data tmp)) none
          (some (snp (w.STATS_DIR ++ fmt_d dir ++ ['/']))) none,
        Effect.del_file_more_lines, Effect.notify_crashreport]

/-- Branch "for anr and UIwatchdog". -/
def branch_anr (w : World) (e : wd_name) (name : Str) : List Effect :=
  let dir := w.find_dir 0
  [Effect.compute_key CRASHEVENT (some e.eventname), Effect.find_dir CRASH_MODE] ++
  if dir = -1 then
    [Effect.del_file_more_lines,
      Effect.history_file_write CRASHEVENT (some e.eventname) none none none,
      Effect.notify_crashreport, Effect.restart_profile1_srv]
  else
    let path := snp (e.filename ++ '/' :: name)
    if (w.file path).isSome then
      let destion := snp (w.CRASH_DIR ++ fmt_d dir ++ '/' :: name)
      let bt := backtrace_anr_uiwdt w destion dir
      [Effect.do_copy path destion FILESIZE_MAX, Effect.usleep TIMEOUT_VALUE,
        Effect.do_log_copy e.eventname dir APLOG_TYPE, Effect.del_file_more_lines] ++ bt.1 ++
        [Effect.history_file_write CRASHEVENT (some e.eventname) none (some bt.2) none,
          Effect.notify_crashreport, Effect.restart_profile1_srv]
    else []

/-- Branch "for other case". -/
def branch_other (w : World) (e : wd_name) (name : Str) : List Effect :=
  let dir := w.find_dir 0
  [Effect.compute_key CRASHEVENT (some e.eventname), Effect.find_dir CRASH_MODE] ++
  if dir = -1 then no_dir_record CRASHEVENT (some e.eventname) none
  else
    let path := snp (e.filename ++ '/' :: name)
    if (w.file path).isSome then
      let copy : List Effect :=
        if contains name ".core".toList then [Effect.backup_apcoredump dir name path]
        else
          let destion := snp (w.CRASH_DIR ++ fmt_d dir ++ '/' :: name)
          Effect.do_copy path destion FILESIZE_MAX ::
            (if contains name "anr".toList ∨ contains name "system_server_watchdog".toList then
              (backtrace_anr_uiwdt w destion dir).1 ++ [Effect.restart_profile1_srv]
            else [])
      copy ++
        [Effect.usleep TIMEOUT_VALUE, Effect.do_log_copy e.eventname dir APLOG_TYPE,
          Effect.history_file_write CRASHEVENT (some e.eventname) none
            (some (snp (w.CRASH_DIR ++ fmt_d dir ++ ['/']))) none,
          Effect.del_file_more_lines, Effect.notify_crashreport]
    else []

/-- The source and the destination of the copy of log file number `j * aplogDepth + k`. -/
def aplog_paths (w : World) (j k aplogDepth : Nat) (dir : Int) : Str × Str :=
  if j = 0 ∧ k = 0 then (snp APLOG_FILE_0, snp (w.APLOGS_DIR ++ fmt_d dir ++ "/aplog".toList))
  else
    (snp (APLOG_FILE_0 ++ '.' :: fmt_u (j * aplogDepth + k)),
      snp (w.APLOGS_DIR ++ fmt_d dir ++ "/aplog.".toList ++ fmt_u (j * aplogDepth + k)))

/-- Inner loop `for (k ...)` of the aplog branch for packet `j`, from `k` on with `fuel`
turns left (`aplogDepth - k` of them): the calls made, and the values of `k`, `dir`,
`aplogIsPresent` and of the number of `find_dir` calls when the loop is left. -/
def aplog_files (w : World) (j aplogDepth : Nat) :
    Nat → Nat → Int → Bool → Nat → List Effect × Nat × Int × Bool × Nat
  | 0, k, dir, present, calls => ([], k, dir, present, calls)
  | fuel + 1, k, dir, _, calls =>
    if (w.file (aplog_paths w j k aplogDepth dir).1).isSome then
      if k = 0 then
        if w.find_dir calls = -1 then
          ([Effect.find_dir APLOGS_MODE], k, w.find_dir calls, true, calls + 1)
        else
          let r := aplog_files w j aplogDepth fuel (k + 1) (w.find_dir calls) true (calls + 1)
          (Effect.find_dir APLOGS_MODE ::
            Effect.do_copy (aplog_paths w j k aplogDepth (w.find_dir calls)).1
              (aplog_paths w j k aplogDepth (w.find_dir calls)).2 0 :: r.1, r.2)
      else
        let r := aplog_files w j aplogDepth fuel (k + 1) dir true calls
        (Effect.do_copy (aplog_paths w j k aplogDepth dir).1
          (aplog_paths w j k aplogDepth dir).2 0 :: r.1, r.2)
    else ([], k, dir, false, calls)

/-- One turn of the outer loop `for (j ...)` of the aplog branch: the calls made for packet
`j`, then `aplogIsPresent` and the number of `find_dir` calls. -/
def aplog_packet (w : World) (j aplogDepth : Nat) (present : Bool) (calls : Nat) :
    List Effect × Bool × Nat :=
  let r := aplog_files w j aplogDepth aplogDepth 0 (-1) present calls
  let k := r.2.1
  let dir := r.2.2.1
  (r.1 ++
    (if k ≠ 0 ∧ dir ≠ -1 then
      [Effect.compute_key APLOGEVENT (some APLOGTRIGGER),
        Effect.history_file_write APLOGEVENT (some APLOGTRIGGER) none
          (some (snp (w.APLOGS_DIR ++ fmt_d dir ++ ['/']))) none,
        Effect.del_file_more_lines, Effect.notify_crashreport, Effect.restart_profile2_srv]
    else []),
    r.2.2.2.1, r.2.2.2.2)

/-- The outer loop of the aplog branch from packet `j` on, with `fuel` packets left. -/
def aplog_packets (w : World) (aplogDepth : Nat) : Nat → Nat → Bool → Nat → List Effect
  | 0, _, _, _ => []
  | fuel + 1, j, present, calls =>
    let r := aplog_packet w j aplogDepth present calls
    if r.2.1 = false then r.1 else r.1 ++ aplog_packets w aplogDepth fuel (j + 1) r.2.1 r.2.2

/-- Branch "for aplog trigger"; negative property values count as 0. -/
def branch_aplog (w : World) (e : wd_name) (name : Str) : List Effect :=
  aplog_packets w w.aplog_depth.toNat w.nb_packet.toNat 0 false 0 ++
    [Effect.remove (snp (e.filename ++ '/' :: name))]

/-- The body of the loop over the watch table in `do_crashlogd` for an entry `e` whose watch
matches and an event with the file name `name` (`event->len` not 0): the calls made, and
whether the loop is left by `break`. -/
def classify (w : World) (e : wd_name) (name : Str) : List Effect × Bool :=
  if contains name e.cmp ∧
      (contains name "apimr.txt".toList ∨ contains name "mreset.txt".toList) then
    (branch_modem_reset w e name, true)
  else if contains name e.cmp ∧ contains name "mpanic.txt".toList then
    (branch_modem_crash w e name, true)
  else if contains name e.cmp ∧ contains name ".lost".toList then (branch_lost w name, true)
  else if e.eventname = APLOGTRIGGER ∧ contains name "aplog_trigger".toList then
    (branch_aplog w e name, false)
  else if e.eventname = STATSTRIGGER ∧ contains name "trigger".toList then
    (branch_stats w e name, true)
  else if contains name e.cmp ∧
      (contains name "anr".toList ∨ contains name "system_server_watchdog".toList) then
    (branch_anr w e name, true)
  else if contains name e.cmp then (branch_other w e name, true)
  else ([], false)

/-- The function `find_str_in_file(file, keyword, tail)` on the content of the file (`none`
when `stat` or `fopen` fails), read line by line into a buffer of 4096 bytes. -/
def find_str_in_file (content keyword tail : Option Str) : Int :=
  match content, keyword with
  | some text, some kw =>
    if (fgets_all 4096 text []).any fun buffer =>
        contains buffer kw &&
          (match tail with
          | none => true
          | some t =>
            decide (buffer.length > t.length) &&
              decide ((buffer.drop (buffer.length - t.length - 1)).take t.length = t))
    then 0 else -1
  | _, _ => -1

/-- The table `ft_array`: keyword, tail and name. -/
def ft_array : List (Str × Str × Str) :=
  [ ("DW0:".toList, "f501".toList, "MEMERR".toList),
    ("DW0:".toList, "f502".toList, "INSTERR".toList),
    ("DW0:".toList, "f504".toList, "SRAMECCERR".toList),
    ("DW0:".toList, "dd".toList, "HWWDTLOGERR".toList) ]

/-- The function `crashlog_check_fabric`. -/
def crashlog_check_fabric (w : World) : List Effect :=
  if (w.file PROC_FABRIC_ERROR_NAME).isSome ∨ w.test_flag = true then
    let dir := w.find_dir 0
    if dir = -1 then
      [Effect.find_dir CRASH_MODE, Effect.compute_key CRASHEVENT (some FABRIC_ERROR),
        Effect.history_file_write CRASHEVENT (some FABRIC_ERROR) none none none,
        Effect.del_file_more_lines]
    else
      let destion := snp (w.CRASH_DIR ++ fmt_d dir ++ '/' :: FABRIC_ERROR_NAME ++
        '_' :: w.date_tmp ++ ".txt".toList)
      let type : Str :=
        match ft_array.find? fun ft =>
            find_str_in_file (w.bundle_file destion) (some ft.1) (some ft.2.1) = 0 with
        | some ft => ft.2.2
        | none => FABRIC_ERROR
      [Effect.find_dir CRASH_MODE, Effect.do_copy SAVED_FABRIC_ERROR_NAME destion FILESIZE_MAX,
        Effect.compute_key CRASHEVENT (some type),
        Effect.history_file_write CRASHEVENT (some type) none
          (some (snp (w.CRASH_DIR ++ fmt_d dir ++ ['/']))) none,
        Effect.del_file_more_lines]
  else []

/-- The function `crashlog_check_panic`. -/
def crashlog_check_panic (w : World) : List Effect :=
  if (w.file PANIC_CONSOLE_NAME).isSome ∨ w.test_flag = true then
    let dir := w.find_dir 0
    if dir = -1 then
      [Effect.find_dir CRASH_MODE, Effect.compute_key CRASHEVENT (some KERNEL_CRASH),
        Effect.history_file_write CRASHEVENT (some KERNEL_CRASH) none none none,
        Effect.del_file_more_lines]
    else
      let saved (n : Str) : Str :=
        snp (w.CRASH_DIR ++ fmt_d dir ++ '/' :: n ++ '_' :: w.date_tmp ++ ".txt".toList)
      let type : Str :=
        if find_str_in_file (w.file SAVED_CONSOLE_NAME)
            (some "Kernel panic - not syncing: Kernel Watchdog".toList) none = 0 then
          KERNEL_FORCE_CRASH
        else if find_str_in_file (w.file SAVED_CONSOLE_NAME)
            (some "EIP is at panic_dbg_set".toList) none = 0 then
          KERNEL_FAKE_CRASH
        else KERNEL_CRASH
      [Effect.find_dir CRASH_MODE,
        Effect.do_copy SAVED_THREAD_NAME (saved THREAD_NAME) FILESIZE_MAX,
        Effect.do_copy SAVED_CONSOLE_NAME (saved CONSOLE_NAME) FILESIZE_MAX,
        Effect.do_copy SAVED_LOGCAT_NAME (saved LOGCAT_NAME) FILESIZE_MAX,
        Effect.write_file PANIC_CONSOLE_NAME "1".toList,
        Effect.compute_key CRASHEVENT (some type),
        Effect.history_file_write CRASHEVENT (some type) none
          (some (snp (w.CRASH_DIR ++ fmt_d dir ++ ['/']))) none,
        Effect.del_file_more_lines]
  else []

/-- The function `crashlog_check_modem_shutdown`. -/
def crashlog_check_modem_shutdown (w : World) : List Effect :=
  if (w.file MODEM_SHUTDOWN_TRIGGER).isSome then
    let dir := w.find_dir 0
    [Effect.compute_key CRASHEVENT (some MODEM_SHUTDOWN), Effect.find_dir CRASH_MODE] ++
    if dir = -1 then
      [Effect.history_file_write CRASHEVENT (some MODEM_SHUTDOWN) none none none,
        Effect.del_file_more_lines, Effect.remove MODEM_SHUTDOWN_TRIGGER]
    else
      [Effect.usleep TIMEOUT_VALUE, Effect.do_log_copy MODEM_SHUTDOWN dir APLOG_TYPE,
        Effect.history_file_write CRASHEVENT (some MODEM_SHUTDOWN) none
          (some (snp (w.CRASH_DIR ++ fmt_d dir ++ ['/']))) none,
        Effect.del_file_more_lines, Effect.remove MODEM_SHUTDOWN_TRIGGER]
  else []

/-- The function `crashlog_check_startupreason`. -/
def crashlog_check_startupreason (w : World) (reason : Str) : List Effect :=
  if contains reason "WDT_RESET".toList then
    let dir := w.find_dir 0
    [Effect.compute_key CRASHEVENT (some "WDT".toList), Effect.find_dir CRASH_MODE] ++
    if dir = -1 then
      [Effect.history_file_write CRASHEVENT (some "WDT".toList) (some reason) none none,
        Effect.del_file_more_lines]
    else
      [Effect.flush_aplog_atboot "WDT".toList dir, Effect.usleep TIMEOUT_VALUE,
        Effect.do_log_copy "WDT".toList dir APLOG_TYPE,
        Effect.history_file_write CRASHEVENT (some "WDT".toList) (some reason)
          (some (snp (w.CRASH_DIR ++ fmt_d dir ++ ['/']))) none,
        Effect.del_file_more_lines]
  else []

/-- The function `crashlog_check_recovery`. -/
def crashlog_check_recovery (w : World) : List Effect :=
  if (w.file RECOVERY_ERROR_TRIGGER).isSome then
    let dir := w.find_dir 0
    [Effect.compute_key CRASHEVENT (some RECOVERY_ERROR), Effect.find_dir CRASH_MODE] ++
    if dir = -1 then
      [Effect.history_file_write CRASHEVENT (some RECOVERY_ERROR) none none none,
        Effect.del_file_more_lines, Effect.remove RECOVERY_ERROR_TRIGGER]
    else
      [Effect.do_copy RECOVERY_ERROR_LOG
          (snp (snp (w.CRASH_DIR ++ fmt_d dir ++ ['/']) ++ "recovery_last_log".toList))
          FILESIZE_MAX,
        Effect.history_file_write CRASHEVENT (some RECOVERY_ERROR) none
          (some (snp (w.CRASH_DIR ++ fmt_d dir ++ ['/']))) none,
        Effect.del_file_more_lines, Effect.remove RECOVERY_ERROR_TRIGGER]
  else []

/-- The ledger record among the calls. -/
def Effect.is_record : Effect → Bool
  | Effect.history_file_write _ _ _ _ _ => true
  | _ => false

/-- The ledger record that carries a bundle path. -/
def Effect.has_path : Effect → Bool
  | Effect.history_file_write _ _ _ (some _) _ => true
  | _ => false

/-- A copy of an artifact into a bundle. -/
def Effect.is_copy : Effect → Bool
  | Effect.do_copy _ _ _ => true
  | Effect.mv_modem_crash _ _ => true
  | Effect.backup_apcoredump _ _ _ => true
  | Effect.sendfile _ _ => true
  | _ => false

/-- A call of `find_dir`. -/
def Effect.is_alloc : Effect → Bool
  | Effect.find_dir _ => true
  | _ => false

/-- The steps the ordering guarantee of the spec names: 0 for a copy of an artifact into the
bundle, 1 for a log snapshot, 2 for the ledger append, 3 for the notifier spawn. -/
def Effect.step : Effect → Option Nat
  | Effect.do_copy _ _ _ => some 0
  | Effect.mv_modem_crash _ _ => some 0
  | Effect.backup_apcoredump _ _ _ => some 0
  | Effect.sendfile _ _ => some 0
  | Effect.do_log_copy _ _ _ => some 1
  | Effect.history_file_write _ _ _ _ _ => some 2
  | Effect.notify_crashreport => some 3
  | _ => none

/-- The steps without the move of the trace file done by `process_anr_or_uiwdt`. -/
def Effect.step_main : Effect → Option Nat
  | Effect.sendfile _ _ => none
  | e => e.step

/-- The steps around the commit point: 1 for every copy and snapshot, 2 for the ledger
append, 3 for the notifier spawn. -/
def Effect.step_commit : Effect → Option Nat
  | Effect.do_copy _ _ _ => some 1
  | Effect.mv_modem_crash _ _ => some 1
  | Effect.backup_apcoredump _ _ _ => some 1
  | Effect.sendfile _ _ => some 1
  | Effect.do_log_copy _ _ _ => some 1
  | Effect.history_file_write _ _ _ _ _ => some 2
  | Effect.notify_crashreport => some 3
  | _ => none

/-- The steps of a sequence of calls never go back. -/
def in_order (steps : List Nat) : Prop := steps.Pairwise fun a b => a ≤ b

instance (steps : List Nat) : Decidable (in_order steps) := by
  unfold in_order
  infer_instance

/-- A world for the ANR report `system_app_anr@1357.txt` dropped into the dropbox: the copy in the bundle
names a trace file that exists, and bundles are allocated in slot 7 of `/data/logs`. -/
def anr_world : World :=
  { CRASH_DIR := EMMC_CRASH_DIR
    STATS_DIR := EMMC_STATS_DIR
    APLOGS_DIR := EMMC_APLOGS_DIR
    find_dir := fun _ => 7
    file := fun p =>
      if p = "/data/system/dropbox/system_app_anr@1357.txt".toList then some "report".toList
      else if p = "/data/anr/traces.txt".toList then some "stack".toList
      else none
    bundle_file := fun p =>
      if p = "/data/logs/crashlog7/system_app_anr@1357.txt".toList then
        some "Process: x\nTrace file:/data/anr/traces.txt\n".toList
      else none
    open_fails := fun _ => false
    anr_userstack := "0".toList
    aplog_depth := 3
    nb_packet := 1
    date_tmp := "20130101000000".toList
    test_flag := false }

/-- A world in which every allocation fails and the log file `aplog` exists. -/
def full_world : World :=
  { anr_world with
    find_dir := fun _ => -1
    file := fun p => if p = APLOG_FILE_0 then some "log".toList else none }

/-- What the spec asks of a caller whose allocation failed: exactly one ledger record, no
record with a bundle path and no copy of an artifact. -/
def one_record_without_bundle (t : List Effect) : Prop :=
  (t.filter Effect.is_record).length = 1 ∧
    t.all (fun x => !x.has_path && !x.is_copy) = true

instance (t : List Effect) : Decidable (one_record_without_bundle t) := by
  unfold one_record_without_bundle
  infer_instance

/-- The calls of the call sites of `find_dir` that hold one event: the six branches of the
classifier outside the aplog trigger, for a table entry `e` and a file name `name`, and the
five boot checks. -/
def single_event_sites (w : World) (e : wd_name) (name reason : Str) : List (List Effect) :=
  [branch_modem_reset w e name, branch_modem_crash w e name, branch_lost w name,
    branch_stats w e name, branch_anr w e name, branch_other w e name,
    crashlog_check_fabric w, crashlog_check_panic w, crashlog_check_modem_shutdown w,
    crashlog_check_startupreason w reason, crashlog_check_recovery w]


/-! ## The record of the last uptime -/

/-- The conversion `%Ns` of `fscanf`: blanks are skipped, then the characters up to the next
blank, `n` at most, are stored.  The result is the stored word and the rest of the input,
`none` when the input ends before a character is stored. -/
def scanf_s (n : Nat) (s : Str) : Option (Str × Str) :=
  let s := s.dropWhile isspace
  let word := (s.takeWhile fun c => !isspace c).take n
  if word.isEmpty then none else some (word, s.drop word.length)

/-- The call `fscanf(to, "#V1.0 %16s%24s\n", name, lastuptime)` on the content of the ledger:
the buffers `name` and `lastuptime` afterwards, given what they held before. -/
def scan_header (content name lastuptime : Str) : Str × Str :=
  if "#V1.0".toList.isPrefixOf content then
    match scanf_s 16 (content.drop 5) with
    | none => (name, lastuptime)
    | some (n, rest) =>
      match scanf_s 24 rest with
      | none => (n, lastuptime)
      | some (u, _) => (n, u)
  else (name, lastuptime)

/-- A file after `head` has been written at offset 0 of a stream opened with `r+`. -/
def overwrite (content head : Str) : Str := head ++ content.drop head.length

/-- What one run of `uptime_history` depends on besides the ledger: whether the two `fopen`
calls fail, what the buffer `name`, which is not initialised, holds at first, and the text
`strftime` gives for the current time in the format `TIME_FORMAT_2`. -/
structure UptimeSys where
  fopen_r_fails : Bool
  fopen_rw_fails : Bool
  name : Str
  date_tmp : Str

/-- The record `uptime_history` appends, `"%-8s00000000000000000000  %-20s%s\n"`. -/
def uptime_record (date_tmp lastuptime : Str) : Str :=
  pad_right 8 PER_UPTIME ++ "00000000000000000000  ".toList ++ pad_right 20 date_tmp ++
    lastuptime ++ ['\n']

/-- The function `uptime_history(lastuptime)` on the content of the ledger (`none`: no
file), `lastuptime` being what the caller's buffer holds at the call: the ledger and the
buffer afterwards. -/
def uptime_history (sys : UptimeSys) (lastuptime : Str) (ledger : Option Str) :
    Option Str × Str :=
  match ledger with
  | none => (none, lastuptime)
  | some content =>
    if sys.fopen_r_fails then (ledger, lastuptime)
    else
      let scanned := scan_header content sys.name lastuptime
      if scanned.1 = CURRENT_UPTIME then
        if sys.fopen_rw_fails then (ledger, scanned.2)
        else
          (some (overwrite content (header_line "0000:00:00".toList) ++
            uptime_record sys.date_tmp scanned.2), scanned.2)
      else (ledger, scanned.2)

/-- Whether a text follows a pattern in which `d` stands for a digit and every other
character for itself. -/
def matches_shape : Str → Str → Bool
  | [], [] => true
  | c :: cs, p :: ps => (if p = 'd' then isdigit c else c == p) && matches_shape cs ps
  | _, _ => false

/-- Whether a text is what `strftime` gives for `TIME_FORMAT_2`, `"%Y-%m-%d/%H:%M:%S  "`,
and a year of four digits. -/
def is_time_format_2 (s : Str) : Bool := matches_shape s "dddd-dd-dd/dd:dd:dd  ".toList

/-- The text `field` stands at byte offset `off` of `line`. -/
def field_at (line : Str) (off : Nat) (field : Str) : Prop := field <+: line.drop off

instance (line : Str) (off : Nat) (field : Str) : Decidable (field_at line off field) := by
  unfold field_at
  infer_instance

/-- The text in the fourth column of a record of `history_file_write`: the type when there
is a bundle path or a type, the last uptime otherwise. -/
def fourth_column (type log lastuptime : Option Str) : Str :=
  match log, type with
  | some _, _ => fmt_s type
  | none, some t => t
  | none, none => fmt_s lastuptime

/-- The part of a file that was appended to the former content `before`. -/
def appended (before : Str) (after : Option Str) : Str := (after.getD []).drop before.length

/-! ## The uptime tick -/

def UPTIME_HOUR_FREQUENCY : Int := 12

/-- The value of `hours` in the uptime tick for the nanosecond count `tm` of `get_uptime`:
`(int) (tm / 1000000000LL)` divided twice by 60, with the truncating division of C. -/
def uptime_hours (tm : Int) : Int :=
  Int.tdiv (Int.tdiv (int32 (Int.tdiv tm 1000000000)) 60) 60

/-- The test `(hours / UPTIME_HOUR_FREQUENCY) >= loop_uptime_event` of the uptime tick and
the assignment to the counter in its branch: whether the UPTIME record is appended, and the
counter afterwards. -/
def uptime_event (loop_uptime_event hours : Int) : Bool × Int :=
  if Int.tdiv hours UPTIME_HOUR_FREQUENCY ≥ loop_uptime_event then
    (true, Int.tdiv hours UPTIME_HOUR_FREQUENCY + 1)
  else (false, loop_uptime_event)

/-- Successive uptime ticks, `get_uptime` giving the listed nanosecond counts: for every
tick, whether the UPTIME record is appended. -/
def uptime_ticks : Int → List Int → List Bool
  | _, [] => []
  | loop_uptime_event, tm :: tms =>
    (uptime_event loop_uptime_event (uptime_hours tm)).1 ::
      uptime_ticks (uptime_event loop_uptime_event (uptime_hours tm)).2 tms

/-- The index of the 12-hour window of a tick: `hours / 12` rounded down. -/
def uptime_window (tm : Int) : Int := Int.fdiv (uptime_hours tm) 12

/-! ## The data file of a STATS trigger -/

/-- The table after the loop of `inotify_add_watch` calls at the start of `do_crashlogd`,
`wds` giving the watch descriptor of a watched path: entries for one path share it. -/
def watch_table (wds : Str → Int) : List wd_name :=
  wd_array.map fun e => { e with wd := wds e.filename }

/-- The loop `for (i = 0; i < WDCOUNT; i++)` of `do_crashlogd` over the entries of the table
for an event that is not on a directory, with the watch descriptor `wd` and the file name
`name` (`event->len` not 0): the calls made.  Entries with another descriptor are skipped;
the loop goes on after an entry whose body is not left by `break`, the later calls of
`find_dir` being the next ones of the world. -/
def dispatch (w : World) : List wd_name → Int → Str → List Effect
  | [], _, _ => []
  | e :: es, wd, name =>
    if wd ≠ e.wd then dispatch w es wd name
    else if (classify w e name).2 then (classify w e name).1
    else
      (classify w e name).1 ++
        dispatch
          { w with
            find_dir := fun n =>
              w.find_dir (n + ((classify w e name).1.filter Effect.is_alloc).length) }
          es wd name

/-- The event class and the type of every ledger record among the calls. -/
def record_types (t : List Effect) : List (Str × Option Str) :=
  t.filterMap fun x =>
    match x with
    | Effect.history_file_write event type _ _ _ => some (event, type)
    | _ => none

/-- The directory watched for the reports of the dropbox. -/
def DROPBOX_DIR : Str := "/data/system/dropbox".toList

/-- The type the spec gives to a file of the dropbox, `none` when it records nothing. -/
def dropbox_type (name : Str) : Option Str :=
  if contains name "system_server_watchdog".toList then some SYSSERVER_WDT
  else if contains name "anr".toList then some ANR_CRASH
  else if contains name "crash".toList then some JAVA_CRASH
  else none

/-- Watch descriptors as `inotify_add_watch` hands them out for the table: one per watched
path, numbered from 1 in the order of the first entry for the path. -/
def sample_wds (p : Str) : Int := ((wd_array.map fun e => e.filename).indexOf p : Nat) + 1

/-! ## The scan of the fabric-error buffer and of the panic console -/

/-- The lines of a text, each with its newline when it has one; `cur` is the part of the
current line already seen. -/
def text_lines : Str → Str → List Str
  | [], cur => if cur.isEmpty then [] else [cur]
  | c :: cs, cur =>
    if c = '\n' then (cur ++ [c]) :: text_lines cs [] else text_lines cs (cur ++ [c])

/-- A line without its terminator. -/
def strip_nl (l : Str) : Str := if l.getLast? = some '\n' then l.dropLast else l

/-- The event type the spec gives to a fabric-error buffer: the name of the first entry of
`ft_array` for which some line contains the keyword and ends with the tail, the line
terminator aside; `FABRICERR` when there is none. -/
def spec_fabric_type (buffer : Str) : Str :=
  match ft_array.find? fun ft =>
      (text_lines buffer []).any fun l =>
        contains (strip_nl l) ft.1 && decide (ft.2.1 <:+ strip_nl l) with
  | some ft => ft.2.2
  | none => FABRIC_ERROR

/-- The name of the first entry of `ft_array` for which one of the given lines contains the
keyword and has the tail right before its last character; `FABRICERR` when there is none. -/
def fabric_type_of (lines : List Str) : Str :=
  match ft_array.find? fun ft =>
      lines.any fun l => contains l ft.1 && decide (ft.2.1 <:+ l.dropLast) with
  | some ft => ft.2.2
  | none => FABRIC_ERROR

/-- The type the spec gives to a panic console: forced when some line contains the watchdog
message, otherwise fake when some line contains the debug message, otherwise plain. -/
def spec_panic_type (console : Str) : Str :=
  if (text_lines console []).any fun l =>
      contains (strip_nl l) "Kernel panic - not syncing: Kernel Watchdog".toList then
    KERNEL_FORCE_CRASH
  else if (text_lines console []).any fun l =>
      contains (strip_nl l) "EIP is at panic_dbg_set".toList then
    KERNEL_FAKE_CRASH
  else KERNEL_CRASH

/-- The same choice over given lines, terminators included. -/
def panic_type_of (lines : List Str) : Str :=
  if lines.any fun l => contains l "Kernel panic - not syncing: Kernel Watchdog".toList then
    KERNEL_FORCE_CRASH
  else if lines.any fun l => contains l "EIP is at panic_dbg_set".toList then
    KERNEL_FAKE_CRASH
  else KERNEL_CRASH

/-- A world after a fabric error: the proc file exists, bundles are allocated in slot 7 of
`/data/logs` and the copy of the saved buffer holds `buffer`. -/
def fabric_world (buffer : Str) : World :=
  { anr_world with
    file := fun p => if p = PROC_FABRIC_ERROR_NAME then some [] else none
    bundle_file := fun _ => some buffer }

/-- A world after a kernel panic: the proc file exists, bundles are allocated in slot 7 of
`/data/logs` and the saved console holds `console`. -/
def panic_world (console : Str) : World :=
  { anr_world with
    file := fun p =>
      if p = PANIC_CONSOLE_NAME then some []
      else if p = SAVED_CONSOLE_NAME then some console
      else none }

/-- A console of one line of 4134 bytes in which the watchdog message starts at byte 4090. -/
def long_console : Str :=
  List.replicate 4090 'x' ++ "Kernel panic - not syncing: Kernel Watchdog\n".toList

/-! ## The startup reason -/

def STARTUP_STR : Str := "androidboot.wakesrc=".toList
def STARTUP_STR_OLD : Str := "androidboot.mode=".toList

/-- The table `bootmode_reason` of `read_startupreason`. -/
def bootmode_reason : List Str :=
  [ "BATT_INSERT".toList, "PWR_BUTTON_PRESS".toList, "RTC_TIMER".toList,
    "USB_CHRG_INSERT".toList, "Reserved".toList, "COLD_RESET".toList, "COLD_BOOT".toList,
    "UNKNOWN".toList, "SWWDT_RESET".toList, "HWWDT_RESET".toList ]

/-- What one run of `read_startupreason` depends on: the content of `/proc/cmdline` (`none`
when `stat` fails), whether `fopen` fails, and the value `atoi` gives for a number that does
not fit an `int`, which the C standard leaves undefined. -/
structure CmdlineSys where
  cmdline : Option Str
  fopen_fails : Bool
  indet : Int

/-- The number a text starts with, as `atoi` reads it: white space is skipped, an optional
sign is taken, then the longest run of digits, none giving 0. -/
def atoi_value (s : Str) : Int :=
  match s.dropWhile isspace with
  | [] => 0
  | c :: cs =>
    if c = '-' then -((digitsValue (cs.takeWhile isdigit) 0 : Nat) : Int)
    else if c = '+' then (digitsValue (cs.takeWhile isdigit) 0 : Nat)
    else (digitsValue ((c :: cs).takeWhile isdigit) 0 : Nat)

/-- The function `atoi`: the number read when it fits an `int`, the indeterminate value
otherwise. -/
def atoi (indet : Int) (s : Str) : Int :=
  if INT_MIN ≤ atoi_value s ∧ atoi_value s ≤ INT_MAX then atoi_value s else int32 indet

/-- The call `strcpy(dest, s)` for a buffer `dest` of `size` bytes: the text in `dest`
afterwards, `none` when the text and its terminator do not fit, where the call writes past
the end of the buffer. -/
def strcpy_into (size : Nat) (s : Str) : Option Str :=
  if s.length < size then some s else none

/-- The assignment `reason = atoi(p + strlen(key))` to the `unsigned int reason` and the copy
of the table entry that follows; `current` is the text the buffer holds before. -/
def copy_reason (size : Nat) (indet : Int) (tail current : Str) : Option Str :=
  let reason : Nat := (atoi indet tail % 2 ^ 32).toNat
  if reason < bootmode_reason.length then strcpy_into size (bootmode_reason.getD reason [])
  else some current

/-- The function `read_startupreason(startupreason)` for a buffer of `size` bytes: the text
in the buffer afterwards, `none` when a copy writes past its end.  The command line is read
into a buffer of 512 bytes, 511 bytes at most. -/
def read_startupreason (size : Nat) (sys : CmdlineSys) : Option Str :=
  match strcpy_into size (bootmode_reason.getD 7 []) with
  | none => none
  | some startupreason =>
    match sys.cmdline with
    | none => some startupreason
    | some text =>
      if sys.fopen_fails then some startupreason
      else
        let cmdline := text.take 511
        match strstr cmdline STARTUP_STR with
        | some p => copy_reason size sys.indet (p.drop STARTUP_STR.length) startupreason
        | none =>
          match strstr cmdline STARTUP_STR_OLD with
          | some p => copy_reason size sys.indet (p.drop STARTUP_STR_OLD.length) startupreason
          | none => some startupreason

/-- The number `read_startupreason` takes from a command line, as it is converted to
`unsigned int`: what `atoi` gives for the text after the first `androidboot.wakesrc=` within
the first 511 bytes or, when that key is not there, after the first `androidboot.mode=`;
`none` when neither key is there. -/
def startup_number (indet : Int) (text : Str) : Option Nat :=
  match strstr (text.take 511) STARTUP_STR with
  | some p => some (atoi indet (p.drop STARTUP_STR.length) % 2 ^ 32).toNat
  | none =>
    match strstr (text.take 511) STARTUP_STR_OLD with
    | some p => some (atoi indet (p.drop STARTUP_STR_OLD.length) % 2 ^ 32).toNat
    | none => none

/-- The entry of the table for a number, `UNKNOWN` for none and outside the table. -/
def startup_symbol (number : Option Nat) : Str :=
  match number with
  | some n => if n < 10 then bootmode_reason.getD n [] else "UNKNOWN".toList
  | none => "UNKNOWN".toList

/-- The startup reason the spec gives to a command line: the entry of the table for the
decimal integer after the first `androidboot.wakesrc=` or, only when that key is absent,
after the first `androidboot.mode=`; `UNKNOWN` when neither key is present or the integer is
outside the table. -/
def spec_startupreason (text : Str) : Str :=
  let number : Option Int :=
    match strstr text STARTUP_STR with
    | some p => some (atoi_value (p.drop STARTUP_STR.length))
    | none =>
      match strstr text STARTUP_STR_OLD with
      | some p => some (atoi_value (p.drop STARTUP_STR_OLD.length))
      | none => none
  match number with
  | some n => if 0 ≤ n ∧ n < 10 then bootmode_reason.getD n.toNat [] else "UNKNOWN".toList
  | none => "UNKNOWN".toList

/-- A command line of 532 bytes in which `androidboot.wakesrc=8` follows 511 blanks. -/
def long_cmdline : Str := List.replicate 511 ' ' ++ "androidboot.wakesrc=8".toList

/-! ## The command line of `main` -/

/-- The value of a character as a digit of `strtoul`, letters counting from 10. -/
def digit_of (c : Char) : Option Nat :=
  if isdigit c then some (c.toNat - 48)
  else if 'a'.toNat ≤ c.toNat ∧ c.toNat ≤ 'z'.toNat then some (c.toNat - 87)
  else if 'A'.toNat ≤ c.toNat ∧ c.toNat ≤ 'Z'.toNat then some (c.toNat - 55)
  else none

/-- The value of the longest run of digits of the base at the head of a text, from `acc`. -/
def strtoul_digits (base : Nat) : Str → Nat → Nat
  | [], acc => acc
  | c :: cs, acc =>
    match digit_of c with
    | some d => if d < base then strtoul_digits base cs (acc * base + d) else acc
    | none => acc

/-- The function `strtoul(s, 0, 0)` of the C library for an `unsigned long` of `bits` bits:
white space is skipped, a sign is taken, `0x` announces base 16 and a leading `0` base 8;
the result is the value, negated in the unsigned type after a minus sign, and whether
`errno` is set, which happens when the value does not fit (the result is then the largest
value).  Without digits the result is 0 and `errno` is left alone. -/
def strtoul (bits : Nat) (s : Str) : Nat × Bool :=
  let s := s.dropWhile isspace
  let neg : Bool := s.head? = some '-'
  let s := if s.head? = some '-' ∨ s.head? = some '+' then s.drop 1 else s
  let hex : Bool :=
    ("0x".toList.isPrefixOf s || "0X".toList.isPrefixOf s) &&
      (match (s.drop 2).head? with
      | some c => (match digit_of c with
        | some d => decide (d < 16)
        | none => false)
      | none => false)
  let v : Nat :=
    if hex then strtoul_digits 16 (s.drop 2) 0
    else if s.head? = some '0' then strtoul_digits 8 s 0
    else strtoul_digits 10 s 0
  if v ≥ 2 ^ bits then (2 ^ bits - 1, true)
  else (if neg then (2 ^ bits - v) % 2 ^ bits else v, false)

/-- The value `main` leaves in `files`, the rotation modulus it hands to `find_dir`, for its
argument (`none`: no argument); `none` when `main` reports an error and returns -1. -/
def main_files (bits : Nat) (arg : Option Str) : Option Nat :=
  match arg with
  | none => some DEFAULT_FILES
  | some a =>
    if "-modem".toList.isPrefixOf a then some DEFAULT_FILES
    else if "-test".toList.isPrefixOf a then some DEFAULT_FILES
    else if (strtoul bits a).2 then none
    else some ((strtoul bits a).1 % 2 ^ 32)

/-! ## The attachments of a kernel event -/

/-- The attachment types the source names, `other` standing for every further value. -/
inductive ct_attchmt_type where
  | CT_ATTCHMT_DATA0
  | CT_ATTCHMT_DATA1
  | CT_ATTCHMT_DATA2
  | CT_ATTCHMT_DATA3
  | CT_ATTCHMT_DATA4
  | CT_ATTCHMT_DATA5
  | CT_ATTCHMT_BINARY
  | other (n : Nat)
  deriving DecidableEq, Repr

/-- An attachment: its type and its data as `%s` prints them. -/
structure ct_attchmt where
  type : ct_attchmt_type
  data : Str
  deriving DecidableEq, Repr

/-- The line `dump_data_in_file` prints for an attachment. -/
def data_line (att : ct_attchmt) : Str :=
  match att.type with
  | ct_attchmt_type.CT_ATTCHMT_DATA0 => "DATA0=".toList ++ att.data ++ ['\n']
  | ct_attchmt_type.CT_ATTCHMT_DATA1 => "DATA1=".toList ++ att.data ++ ['\n']
  | ct_attchmt_type.CT_ATTCHMT_DATA2 => "DATA2=".toList ++ att.data ++ ['\n']
  | ct_attchmt_type.CT_ATTCHMT_DATA3 => "DATA3=".toList ++ att.data ++ ['\n']
  | ct_attchmt_type.CT_ATTCHMT_DATA4 => "DATA4=".toList ++ att.data ++ ['\n']
  | ct_attchmt_type.CT_ATTCHMT_DATA5 => "DATA5=".toList ++ att.data ++ ['\n']
  | _ => []

/-- The function `dump_data_in_file(ev, file_path)` on the attachments of the event in their
order: the value returned and the content of the file, `none` when `fopen` fails. -/
def dump_data_in_file (fopen_fails : Bool) (atts : List ct_attchmt) : Int × Option Str :=
  if fopen_fails then (-1, none) else (0, some (atts.flatMap data_line))

/-- What the spec has in the trigger file: the attachments `DATA0`, `DATA1` and `DATA2`. -/
def spec_data_file (atts : List ct_attchmt) : Str :=
  (atts.filter fun att =>
    att.type = ct_attchmt_type.CT_ATTCHMT_DATA0 ∨ att.type = ct_attchmt_type.CT_ATTCHMT_DATA1 ∨
      att.type = ct_attchmt_type.CT_ATTCHMT_DATA2).flatMap data_line

/-- The size `(at->size+2)*4/3` that `dump_binary_attchmts_in_file` hands to `calloc` and to
`b64_ntop` for the base64 text of an attachment of `size` bytes. -/
def b64_alloc (size : Nat) : Nat := (size + 2) * 4 / 3

/-- The bytes the base64 text of `n` bytes takes with its terminating NUL, as the spec
counts them: `4 * ceil(n / 3) + 1`. -/
def spec_b64_size (n : Nat) : Nat := 4 * ((n + 2) / 3) + 1

/-! ## The build identifier and the start of `main` -/

def PROPERTY_VALUE_MAX : Nat := 92

/-- What one run of `swupdated` depends on besides the build-id file: whether the two
`fopen` calls fail, and what the buffer `currentbuild`, which is not initialised, holds. -/
structure BuildSys where
  fopen_r_fails : Bool
  fopen_w_fails : Bool
  currentbuild : Str

/-- Both `fopen` calls succeed. -/
def BuildSys.ok : BuildSys := ⟨false, false, []⟩

/-- The end of `swupdated` once `currentbuild` is read: the comparison with the build name
and the rewrite of the file. -/
def swupdated_compare (sys : BuildSys) (currentbuild buildname : Str) (file : Option Str) :
    Option (Int × Option Str) :=
  if currentbuild ≠ buildname then
    if sys.fopen_w_fails then some (0, file) else some (1, some buildname)
  else some (0, file)

/-- The function `swupdated(buildname)` on the content of the build-id file (`none` when
`stat` fails): the value returned and the file afterwards; `none` when the word read by
`fscanf(fd, "%s", currentbuild)` does not fit the `PROPERTY_VALUE_MAX` bytes of the
buffer. -/
def swupdated (sys : BuildSys) (buildname : Str) (file : Option Str) :
    Option (Int × Option Str) :=
  match file with
  | some content =>
    if sys.fopen_r_fails then some (0, file)
    else
      match scanf_s content.length content with
      | some (word, _) =>
        if PROPERTY_VALUE_MAX ≤ word.length then none
        else swupdated_compare sys word buildname file
      | none => swupdated_compare sys sys.currentbuild buildname file
  | none => if sys.fopen_w_fails then some (0, none) else some (1, some buildname)

/-- Where the startup decision of `main` leads: to the label `next2`, past the REBOOT and
STATE records, or to the label `next` with the buffers `startupreason` (`none` after a copy
past its end), `lastuptime` and `encryptstate` and with the ledger as they are then. -/
inductive Startup where
  | next2 (encryptstate : Str)
  | next (startupreason : Option Str) (lastuptime : Str) (encryptstate : Str)
      (ledger : Option Str)
  deriving DecidableEq, Repr

/-- The two branches of `main` that call `swupdated`, given whether it returned non-zero;
the `fopen` of `reset_history` is taken to succeed. -/
def seed_start (updated : Bool) (csys : CmdlineSys) (usys : UptimeSys) (lastuptime : Str)
    (ledger : Option Str) (encryptstate : Str) : Startup :=
  if updated then
    Startup.next (strcpy_into 16 "SWUPDATE".toList) "0000:00:00".toList encryptstate
      (some reset_history)
  else
    Startup.next (read_startupreason 16 csys) (uptime_history usys lastuptime ledger).2
      encryptstate (uptime_history usys lastuptime ledger).1

/-- The startup decision of `main` for the values of the properties `ro.crypto.state`,
`vold.encrypt_progress` and `vold.decrypt`; `lastuptime` is what the buffer of that name,
which is not initialised, holds, while `startupreason` is initialised to the empty text. -/
def main_startup (crypt_state encrypt_progress decrypt : Str) (updated : Bool)
    (csys : CmdlineSys) (usys : UptimeSys) (lastuptime : Str) (ledger : Option Str) :
    Startup :=
  if crypt_state = "unencrypted".toList ∧ encrypt_progress = [] then
    seed_start updated csys usys lastuptime ledger "DECRYPTED".toList
  else if encrypt_progress ≠ [] then Startup.next2 "DECRYPTED".toList
  else if crypt_state = "encrypted".toList ∧ decrypt ≠ "trigger_post_fs_data".toList then
    Startup.next2 "ENCRYPTED".toList
  else if decrypt = "trigger_post_fs_data".toList then
    seed_start updated csys usys lastuptime ledger "ENCRYPTED".toList
  else Startup.next (some []) lastuptime "DECRYPTED".toList ledger

/-- The call of `history_file_write` for the REBOOT record in `main`. -/
def main_reboot (sys : HistSys) (ledger : Option Str) (startupreason lastuptime key date : Str) :
    Option Str :=
  (history_file_write sys ledger SYS_REBOOT (some startupreason) none none (some lastuptime)
    key date).1

/-! ## The reports lost by a full dropbox -/

/-- The event class, the type and the subtype of every ledger record among the calls. -/
def record_subtypes (t : List Effect) : List (Str × Option Str × Option Str) :=
  t.filterMap fun x =>
    match x with
    | Effect.history_file_write event type subtype _ _ => some (event, type, subtype)
    | _ => none

/-! ## The header line rewritten by the uptime tick -/

/-- The text `"#V1.0 %-16s%-24s"` that the uptime tick prints into `destion` for the entry
of the watch table with the event name `eventname` and the nanosecond count `tm`. -/
def uptime_tick_header (eventname : Str) (tm : Int) : Str :=
  "#V1.0 ".toList ++ pad_right 16 eventname ++ pad_right 24 (fmt_uptime tm)

/-- The write of the uptime tick: `open(HISTORY_FILE, O_RDWR)`, which does not create the
file, and `write` of the text at offset 0; the ledger afterwards. -/
def uptime_tick_write (open_fails : Bool) (tm : Int) (ledger : Option Str) : Option Str :=
  match ledger with
  | none => none
  | some content =>
    if open_fails then ledger else some (overwrite content (uptime_tick_header CURRENT_UPTIME tm))

/-- The uptime tick up to the test on the counter, `tm` being what `get_uptime` gives
(`none` when it fails): the ledger after the write in place, whether the UPTIME record is
to be appended, and the counter `loop_uptime_event` afterwards. -/
def uptime_tick (open_fails : Bool) (loop_uptime_event : Int) (tm : Option Int)
    (ledger : Option Str) : Option Str × Bool × Int :=
  match tm with
  | none => (ledger, false, loop_uptime_event)
  | some tm =>
    (uptime_tick_write open_fails tm ledger, uptime_event loop_uptime_event (uptime_hours tm))

/-! ## The bundles of an aplog trigger -/

/-- The log file number `n` of the series `aplog`, `aplog.1`, `aplog.2`, ... -/
def aplog_src (n : Nat) : Str :=
  if n = 0 then snp APLOG_FILE_0 else snp (APLOG_FILE_0 ++ '.' :: fmt_u n)

/-- The copy of log file number `n` in the bundle of slot `dir`, under its own name. -/
def aplog_dst (w : World) (dir : Int) (n : Nat) : Str :=
  if n = 0 then snp (w.APLOGS_DIR ++ fmt_d dir ++ "/aplog".toList)
  else snp (w.APLOGS_DIR ++ fmt_d dir ++ "/aplog.".toList ++ fmt_u n)

/-- The calls that make bundle `j` of an aplog trigger with depth `D` when the first `m` log
files exist: the allocation, the copies of the existing files among the numbers
`j * D, ..., j * D + D - 1`, and the record with what follows it. -/
def aplog_bundle (w : World) (D m j : Nat) (dir : Int) : List Effect :=
  Effect.find_dir APLOGS_MODE ::
    ((List.range' (j * D) (min D (m - j * D))).map fun n =>
      Effect.do_copy (aplog_src n) (aplog_dst w dir n) 0) ++
    [Effect.compute_key APLOGEVENT (some APLOGTRIGGER),
      Effect.history_file_write APLOGEVENT (some APLOGTRIGGER) none
        (some (snp (w.APLOGS_DIR ++ fmt_d dir ++ ['/']))) none,
      Effect.del_file_more_lines, Effect.notify_crashreport, Effect.restart_profile2_srv]

/-- The bundles `j`, `j + 1`, ... of an aplog trigger, `fuel` at most: one for every packet
whose first file exists, bundle `j` being allocated by the call number `j`. -/
def aplog_bundles (w : World) (D m : Nat) : Nat → Nat → List Effect
  | 0, _ => []
  | fuel + 1, j =>
    if j * D < m then aplog_bundle w D m j (w.find_dir j) ++ aplog_bundles w D m fuel (j + 1)
    else []

/-- A world for an aplog trigger with depth 2 and 2 packets in which the log files `aplog`,
`aplog.1` and `aplog.2` exist and bundles are allocated in slot 7 of `/data/logs`. -/
def aplog_world : World :=
  { anr_world with
    file := fun p =>
      if p = "/data/logs/aplog".toList ∨ p = "/data/logs/aplog.1".toList ∨
          p = "/data/logs/aplog.2".toList then some "log".toList
      else none
    aplog_depth := 2
    nb_packet := 2 }
/-! ## Lemmas on printing and reading back a cursor -/

theorem digitChar_toNat (d : Nat) (h : d < 10) : (digitChar d).toNat = 48 + d := by
  interval_cases d <;> rfl

theorem isdigit_digitChar (d : Nat) (h : d < 10) : isdigit (digitChar d) = true := by
  interval_cases d <;> rfl

theorem isspace_digitChar (d : Nat) (h : d < 10) : isspace (digitChar d) = false := by
  interval_cases d <;> rfl

theorem digitChar_ne_sign (d : Nat) (h : d < 10) : ¬ (digitChar d = '-' ∨ digitChar d = '+') := by
  interval_cases d <;> decide

theorem digitsValue_append (a b : Str) (acc : Nat) :
    digitsValue (a ++ b) acc = digitsValue b (digitsValue a acc) := by
  induction a generalizing acc with
  | nil => rfl
  | cons c cs ih => simp [digitsValue, ih]

/-- The digits printed for `n` are all digits, start with a digit of `n`, and read back as
`n`. -/
theorem fmt_u_fuel_spec (fuel n : Nat) (h : n < fuel) :
    (∀ c ∈ fmt_u_fuel fuel n, isdigit c = true) ∧
    (∃ d cs, d < 10 ∧ fmt_u_fuel fuel n = digitChar d :: cs) ∧
    digitsValue (fmt_u_fuel fuel n) 0 = n := by
  induction fuel generalizing n with
  | zero => omega
  | succ fuel ih =>
    unfold fmt_u_fuel
    by_cases hn : n < 10
    · simp only [hn, if_true]
      refine ⟨?_, ⟨n, [], hn, rfl⟩, ?_⟩
      · intro c hc
        simp only [List.mem_singleton] at hc
        subst hc
        exact isdigit_digitChar n hn
      · simp [digitsValue, digitChar_toNat n hn]
    · simp only [hn, if_false]
      have hlt : n / 10 < fuel := by omega
      obtain ⟨h1, ⟨d, cs, hd, hcs⟩, h3⟩ := ih (n / 10) hlt
      have hm : n % 10 < 10 := Nat.mod_lt _ (by decide)
      refine ⟨?_, ⟨d, cs ++ [digitChar (n % 10)], hd, by rw [hcs]; rfl⟩, ?_⟩
      · intro c hc
        rcases List.mem_append.mp hc with hc | hc
        · exact h1 c hc
        · simp only [List.mem_singleton] at hc
          subst hc
          exact isdigit_digitChar _ hm
      · rw [digitsValue_append, h3]
        simp only [digitsValue, digitChar_toNat _ hm]
        omega

theorem takeWhile_eq_self_of_all (p : Char → Bool) (l : Str) (h : ∀ c ∈ l, p c = true) :
    l.takeWhile p = l := by
  induction l with
  | nil => rfl
  | cons c cs ih =>
    have hc : p c = true := h c (List.mem_cons_self _ _)
    rw [List.takeWhile_cons, hc]
    simp only [if_true]
    rw [ih (fun x hx => h x (List.mem_cons_of_mem _ hx))]

/-- Reading back what `%d` printed for a natural number gives that number. -/
theorem scanf_d_fmt_u (n : Nat) : scanf_d (fmt_u n) = ScanInt.val (n : Int) := by
  obtain ⟨h1, ⟨d, cs, hd, hcs⟩, h3⟩ := fmt_u_fuel_spec (n + 1) n (Nat.lt_succ_self n)
  have htw : (digitChar d :: cs).takeWhile isdigit = digitChar d :: cs :=
    takeWhile_eq_self_of_all isdigit _ (by rw [← hcs]; exact h1)
  have hv : digitsValue (digitChar d :: cs) 0 = n := by rw [← hcs]; exact h3
  have hminus : digitChar d ≠ '-' := fun h => digitChar_ne_sign d hd (Or.inl h)
  have hplus : digitChar d ≠ '+' := fun h => digitChar_ne_sign d hd (Or.inr h)
  unfold scanf_d fmt_u
  rw [hcs, List.dropWhile_cons, isspace_digitChar d hd]
  simp only [Bool.false_eq_true, if_false, hminus, hplus, or_self, htw, hv]

theorem fmt_d_ofNat (n : Nat) : fmt_d (n : Int) = fmt_u n := by
  unfold fmt_d
  have : ¬ ((n : Int) < 0) := by omega
  simp [this]

/-- A cursor printed by `find_dir` is read back unchanged as long as it fits an `int`. -/
theorem read_cursor_fmt_d (sys : Sys) (n : Nat) (h : n ≤ MAX_DIR) :
    read_cursor sys (fmt_d (n : Int)) = n := by
  have h1 : INT_MIN ≤ (n : Int) ∧ (n : Int) ≤ INT_MAX := by
    unfold MAX_DIR at h
    unfold INT_MIN INT_MAX
    omega
  unfold read_cursor
  rw [fmt_d_ofNat, scanf_d_fmt_u]
  simp only [h1, and_self, if_true]
  have h2 : ((n : Int) % 2 ^ 32) = (n : Int) := by
    unfold MAX_DIR at h
    omega
  rw [h2]
  simp


/-! ## The bundle allocator -/

theorem find_dir_clobber_ok (sys : Sys) (mode oldest : Nat) (fs : FS)
    (ho : sys.opendir_fails = false) (hc : sys.closedir_fails = false) :
    (find_dir_clobber sys mode oldest fs).1 = (oldest : Int) ∧
      (find_dir_clobber sys mode oldest fs).2.files = fs.files := by
  cases hd : fs.dirs (bundle_root fs mode ++ fmt_u oldest) with
  | none => simp [find_dir_clobber, hd, FS.setDir]
  | some ents => simp [find_dir_clobber, hd, ho, hc, FS.setDir]

/-- One successful call on a present cursor file: the slot is the cursor reduced modulo
`MAX_DIR`, the new cursor is the successor of the slot reduced modulo `max`. -/
theorem find_dir_present (sys : Sys) (max mode : Nat) (fs : FS) (content : Str)
    (hs : sys.succeeds) (hmax : 0 < max) (hfile : fs.files (cursor_path mode) = some content) :
    ∃ fs1, find_dir sys max mode fs =
        some (((read_cursor sys content % MAX_DIR : Nat) : Int), fs1) ∧
      fs1.files (cursor_path mode) =
        some (fmt_d (((read_cursor sys content % MAX_DIR + 1) % max : Nat) : Int)) := by
  obtain ⟨h1, h2, h3, h4, h5⟩ := hs
  have hlt : read_cursor sys content % MAX_DIR < 1000 := Nat.mod_lt _ (by decide)
  have hw : (read_cursor sys content % MAX_DIR + 1) % 2 ^ 32 =
      read_cursor sys content % MAX_DIR + 1 := Nat.mod_eq_of_lt (by omega)
  have hm : max ≠ 0 := by omega
  obtain ⟨hr, hf⟩ := find_dir_clobber_ok sys mode (read_cursor sys content % MAX_DIR)
    (fs.write (cursor_path mode)
      (fmt_d (((read_cursor sys content % MAX_DIR + 1) % max : Nat) : Int))) h4 h5
  refine ⟨(find_dir_clobber sys mode (read_cursor sys content % MAX_DIR)
    (fs.write (cursor_path mode)
      (fmt_d (((read_cursor sys content % MAX_DIR + 1) % max : Nat) : Int)))).2, ?_, ?_⟩
  · unfold find_dir
    simp only [h1, h2, h3, hfile, hw, hm, Bool.false_eq_true, if_false]
    rw [← hr]
  · rw [hf]
    simp [FS.write]

/-- One successful call on an absent cursor file returns slot 0 and stores cursor 1. -/
theorem find_dir_absent (sys : Sys) (max mode : Nat) (fs : FS)
    (hs : sys.succeeds) (hfile : fs.files (cursor_path mode) = none) :
    ∃ fs1, find_dir sys max mode fs = some (0, fs1) ∧
      fs1.files (cursor_path mode) = some (fmt_d 1) := by
  obtain ⟨h1, h2, h3, h4, h5⟩ := hs
  obtain ⟨hr, hf⟩ := find_dir_clobber_ok sys mode 0
    (fs.write (cursor_path mode) (fmt_d 1)) h4 h5
  refine ⟨(find_dir_clobber sys mode 0 (fs.write (cursor_path mode) (fmt_d 1))).2, ?_, ?_⟩
  · unfold find_dir
    simp only [h1, h3, hfile, Bool.false_eq_true, if_false]
    rw [show ((0 : Int), (find_dir_clobber sys mode 0 (fs.write (cursor_path mode) (fmt_d 1))).2)
      = find_dir_clobber sys mode 0 (fs.write (cursor_path mode) (fmt_d 1)) from by
        rw [Prod.ext_iff]; exact ⟨by rw [hr]; rfl, rfl⟩]
  · rw [hf]
    simp [FS.write]

theorem Sys.ok_succeeds : Sys.ok.succeeds := ⟨rfl, rfl, rfl, rfl, rfl⟩

theorem find_dir_seq_succ (max mode n : Nat) (fs fs1 : FS) (r : Int)
    (h : find_dir Sys.ok max mode fs = some (r, fs1)) :
    (find_dir_seq max mode (n + 1) fs).map Prod.fst =
      ((find_dir_seq max mode n fs1).map Prod.fst).map (fun rs => r :: rs) := by
  rw [find_dir_seq, h]
  simp only []
  cases hseq : find_dir_seq max mode n fs1 with
  | none => simp
  | some p => simp

/-- With the default modulus, a run of calls that starts on a stored cursor `c ≤ MAX_DIR`
hands out the slots `c, c + 1, ...` reduced modulo `MAX_DIR`. -/
theorem find_dir_seq_from (mode n : Nat) :
    ∀ (fs : FS) (c : Nat), c ≤ MAX_DIR →
      fs.files (cursor_path mode) = some (fmt_d (c : Int)) →
      (find_dir_seq DEFAULT_FILES mode n fs).map Prod.fst =
        some ((List.range n).map fun j => (((c + j) % MAX_DIR : Nat) : Int)) := by
  induction n with
  | zero => intro fs c _ _; rfl
  | succ n ih =>
    intro fs c hc hfile
    obtain ⟨fs1, hcall, hcur⟩ :=
      find_dir_present Sys.ok DEFAULT_FILES mode fs _ Sys.ok_succeeds (by decide) hfile
    rw [read_cursor_fmt_d Sys.ok c hc] at hcall hcur
    have hlt : c % MAX_DIR < 1000 := Nat.mod_lt _ (by decide)
    have hmod : (c % MAX_DIR + 1) % DEFAULT_FILES = c % MAX_DIR + 1 :=
      Nat.mod_eq_of_lt (by unfold DEFAULT_FILES; omega)
    rw [hmod] at hcur
    have hnext := ih fs1 (c % MAX_DIR + 1) (by unfold MAX_DIR; omega) hcur
    rw [find_dir_seq_succ _ _ _ _ _ _ hcall, hnext, Option.map_some', List.range_succ_eq_map,
      List.map_cons, List.map_map]
    congr 2
    apply List.map_congr_left
    intro j _
    simp only [Function.comp]
    congr 1
    unfold MAX_DIR
    omega

/-- C1: with the default rotation modulus and a cursor file that is absent at first, M calls
of find_dir in one mode (M > MAX_DIR, every system call succeeding) return the slots
0, 1, ..., MAX_DIR-1, 0, 1, ...: the k-th call returns k mod MAX_DIR. -/
theorem find_dir_wraparound (mode M : Nat) (fs : FS) (hM : MAX_DIR < M)
    (habsent : fs.files (cursor_path mode) = none) :
    (find_dir_seq DEFAULT_FILES mode M fs).map Prod.fst =
      some ((List.range M).map fun k => ((k % MAX_DIR : Nat) : Int)) := by
  cases M with
  | zero => exact absurd hM (by decide)
  | succ n =>
    obtain ⟨fs1, hcall, hcur⟩ :=
      find_dir_absent Sys.ok DEFAULT_FILES mode fs Sys.ok_succeeds habsent
    have hnext := find_dir_seq_from mode n fs1 1 (by decide) hcur
    rw [find_dir_seq_succ _ _ _ _ _ _ hcall, hnext, Option.map_some', List.range_succ_eq_map,
      List.map_cons, List.map_map]
    congr 2
    apply List.map_congr_left
    intro j _
    simp only [Function.comp]
    congr 2
    omega

/-- Witness of C1: 1001 allocations in crash mode on a file system without cursor file. -/
theorem find_dir_wraparound_witness :
    MAX_DIR < 1001 ∧
      (find_dir_seq DEFAULT_FILES CRASH_MODE 1001 (cursorOnly none)).map Prod.fst =
        some ((List.range 1001).map fun k => ((k % MAX_DIR : Nat) : Int)) :=
  ⟨by decide, find_dir_wraparound CRASH_MODE 1001 (cursorOnly none) (by decide) rfl⟩

theorem read_cursor_of_val (sys : Sys) (content : Str) (c : Int)
    (hparse : scanf_d content = ScanInt.val c) (h0 : 0 ≤ c) (h1 : c ≤ INT_MAX) :
    read_cursor sys content = c.toNat := by
  have hmin : INT_MIN ≤ c := le_trans (by decide) h0
  unfold read_cursor
  rw [hparse]
  simp only [hmin, h1, and_self, if_true]
  have h2 : c % 2 ^ 32 = c := by
    unfold INT_MAX at h1
    omega
  rw [h2]

/-- C2 as stated fails: on the stored cursor 999 and the default modulus, find_dir returns
slot 999 and writes back 1000, which is neither (999 + 1) mod MAX_DIR = 0 nor below
MAX_DIR. -/
theorem find_dir_cursor_counterexample :
    scanf_d "999".toList = ScanInt.val 999 ∧
      (find_dir Sys.ok DEFAULT_FILES CRASH_MODE (cursorOnly (some "999".toList))).map
          (fun p => (p.1, p.2.files CRASH_CURRENT_LOG)) = some (999, some "1000".toList) ∧
      "1000".toList ≠ fmt_d (((999 + 1) % MAX_DIR : Nat) : Int) ∧
      scanf_d "1000".toList = ScanInt.val 1000 ∧ ¬ (1000 < MAX_DIR) := by
  refine ⟨by decide, ?_, by decide, by decide, by decide⟩
  decide

/-- C2, amended: for a cursor file whose content parses as a non-negative int c, a non-zero
rotation modulus max and no failing file operation, find_dir returns slot c mod MAX_DIR and
writes back ((c mod MAX_DIR) + 1) mod max; the persisted cursor is at most MAX_DIR (it is
MAX_DIR itself after slot MAX_DIR - 1 when max exceeds MAX_DIR, as with the default). -/
theorem find_dir_cursor_update (sys : Sys) (max mode : Nat) (fs : FS) (content : Str) (c : Int)
    (hs : sys.succeeds) (hmax : 0 < max)
    (hfile : fs.files (cursor_path mode) = some content)
    (hparse : scanf_d content = ScanInt.val c) (h0 : 0 ≤ c) (h1 : c ≤ INT_MAX) :
    (find_dir sys max mode fs).map (fun p => (p.1, p.2.files (cursor_path mode))) =
        some (((c.toNat % MAX_DIR : Nat) : Int),
          some (fmt_d (((c.toNat % MAX_DIR + 1) % max : Nat) : Int))) ∧
      (c.toNat % MAX_DIR + 1) % max ≤ MAX_DIR := by
  obtain ⟨fs1, hcall, hcur⟩ := find_dir_present sys max mode fs content hs hmax hfile
  rw [read_cursor_of_val sys content c hparse h0 h1] at hcall hcur
  refine ⟨by rw [hcall, Option.map_some', hcur], ?_⟩
  have hlt : c.toNat % MAX_DIR < MAX_DIR := Nat.mod_lt _ (by decide)
  exact le_trans (Nat.mod_le _ _) hlt

/-- Witness of the amended C2: the stored cursor 999 with the default modulus. -/
theorem find_dir_cursor_update_witness :
    (find_dir Sys.ok DEFAULT_FILES CRASH_MODE (cursorOnly (some "999".toList))).map
          (fun p => (p.1, p.2.files (cursor_path CRASH_MODE))) =
        some ((((999 : Int).toNat % MAX_DIR : Nat) : Int),
          some (fmt_d ((((999 : Int).toNat % MAX_DIR + 1) % DEFAULT_FILES : Nat) : Int))) ∧
      ((999 : Int).toNat % MAX_DIR + 1) % DEFAULT_FILES ≤ MAX_DIR :=
  find_dir_cursor_update Sys.ok DEFAULT_FILES CRASH_MODE (cursorOnly (some "999".toList))
    "999".toList 999 Sys.ok_succeeds (by decide) rfl (by decide) (by decide) (by decide)

/-! ## Truncation of the ledger -/

theorem count_newlines_append (a b : Str) :
    count_newlines (a ++ b) = count_newlines a + count_newlines b := by
  induction a with
  | nil => simp [count_newlines]
  | cons c cs ih =>
    by_cases hc : c = '\n'
    · simp only [List.cons_append, List.append_eq, count_newlines, hc, if_true, ih]; omega
    · simp only [List.cons_append, List.append_eq, count_newlines, hc, if_false, ih]

/-- The second loop stops on the newline number `count`, and `dest` is the index of the
first newline. -/
theorem scan_lines_spec (count : Nat) (data : Str) :
    ∀ (i tmp dest : Nat), tmp < count → count - tmp ≤ count_newlines data →
      scan_lines count data i tmp dest =
        (i + nl_index (count - tmp) data, if tmp = 0 then i + nl_index 1 data else dest) := by
  induction data with
  | nil =>
    intro i tmp dest h1 h2
    simp only [count_newlines] at h2
    omega
  | cons c cs ih =>
    intro i tmp dest h1 h2
    by_cases hc : c = '\n'
    · simp only [count_newlines, hc, if_true] at h2
      simp only [scan_lines, nl_index, hc, if_true, SAVEDLINES]
      by_cases hlast : tmp + 1 ≥ count
      · have hk : count - tmp ≤ 1 := by omega
        simp only [hlast, hk, if_true, le_refl]
        by_cases ht : tmp = 0
        · simp [ht]
        · have : ¬ (tmp + 1 = 1) := by omega
          simp [ht, this]
      · have hk : ¬ (count - tmp ≤ 1) := by omega
        simp only [hlast, hk, if_false, le_refl, if_true]
        rw [ih (i + 1) (tmp + 1) _ (by omega) (by omega)]
        have h3 : count - (tmp + 1) = count - tmp - 1 := by omega
        by_cases ht : tmp = 0
        · subst ht
          simp only [h3, Nat.add_eq_zero, one_ne_zero, and_false, if_false, if_true, zero_add]
          rw [Prod.mk.injEq]
          exact ⟨by omega, by omega⟩
        · have : ¬ (tmp + 1 = 1) := by omega
          simp only [h3, Nat.add_eq_zero, one_ne_zero, and_false, if_false, this, ht]
          rw [Prod.mk.injEq]
          exact ⟨by omega, rfl⟩
    · simp only [count_newlines, hc, if_false] at h2
      simp only [scan_lines, nl_index, hc, if_false]
      rw [ih (i + 1) tmp dest h1 h2]
      rw [Prod.mk.injEq]
      refine ⟨by omega, ?_⟩
      by_cases ht : tmp = 0
      · simp only [ht, if_true]; omega
      · simp only [ht, if_false]

theorem drop_nl_index (data : Str) :
    ∀ k, 1 ≤ k → k ≤ count_newlines data →
      data.drop (nl_index k data + 1) = drop_lines k data := by
  induction data with
  | nil => intro k h1 h2; simp only [count_newlines] at h2; omega
  | cons c cs ih =>
    intro k h1 h2
    obtain ⟨j, rfl⟩ : ∃ j, k = j + 1 := ⟨k - 1, by omega⟩
    by_cases hc : c = '\n'
    · simp only [count_newlines, hc, if_true] at h2
      simp only [nl_index, drop_lines, hc, if_true]
      by_cases hj : j = 0
      · subst hj
        simp [drop_lines]
      · have : ¬ (j + 1 ≤ 1) := by omega
        simp only [this, if_false, List.drop_succ_cons, Nat.add_sub_cancel]
        exact ih j (by omega) (by omega)
    · simp only [count_newlines, hc, if_false] at h2
      simp only [nl_index, drop_lines, hc, if_false, List.drop_succ_cons]
      exact ih (j + 1) h1 h2

theorem take_nl_index (data : Str) :
    ∀ k, 1 ≤ k → k ≤ count_newlines data →
      data.take (nl_index k data + 1) = take_lines k data := by
  induction data with
  | nil => intro k h1 h2; simp only [count_newlines] at h2; omega
  | cons c cs ih =>
    intro k h1 h2
    obtain ⟨j, rfl⟩ : ∃ j, k = j + 1 := ⟨k - 1, by omega⟩
    by_cases hc : c = '\n'
    · simp only [count_newlines, hc, if_true] at h2
      simp only [nl_index, take_lines, hc, if_true]
      by_cases hj : j = 0
      · subst hj
        simp [take_lines]
      · have : ¬ (j + 1 ≤ 1) := by omega
        simp only [this, if_false, List.take_succ_cons, Nat.add_sub_cancel]
        rw [ih j (by omega) (by omega)]
    · simp only [count_newlines, hc, if_false] at h2
      simp only [nl_index, take_lines, hc, if_false, List.take_succ_cons]
      rw [ih (j + 1) h1 h2]

/-- The result of the truncation in terms of the arguments of its `memcpy`. -/
theorem del_file_more_lines_of_memcpy (data : Str) (dst src n : Nat)
    (hm : del_file_more_lines_memcpy data = some (dst, src, n)) :
    del_file_more_lines data =
      if regions_overlap dst src n then none else some (data.take dst ++ data.drop src) := by
  unfold del_file_more_lines_memcpy at hm
  unfold del_file_more_lines
  by_cases hge : count_newlines data ≥ MAX_RECORDS + SAVEDLINES
  · simp only [hge, if_true, Option.some.injEq, Prod.mk.injEq] at hm ⊢
    obtain ⟨rfl, rfl, rfl⟩ := hm
    rfl
  · simp only [hge, if_false] at hm
    exact absurd hm (by simp)

/-- A ledger below the threshold is left as it is. -/
theorem del_file_more_lines_below (data : Str)
    (h : count_newlines data < MAX_RECORDS + SAVEDLINES) :
    del_file_more_lines data = some data := by
  unfold del_file_more_lines
  simp only [ge_iff_le, not_le.mpr h, if_false]

theorem nl_index_lt (data : Str) :
    ∀ k, 1 ≤ k → k ≤ count_newlines data → nl_index k data < data.length := by
  induction data with
  | nil => intro k _ h2; simp only [count_newlines] at h2; omega
  | cons c cs ih =>
    intro k h1 h2
    by_cases hc : c = '\n'
    · simp only [nl_index, hc, if_true, List.length_cons]
      split
      · omega
      · simp only [count_newlines, hc, if_true] at h2
        have := ih (k - 1) (by omega) (by omega)
        omega
    · simp only [nl_index, hc, if_false, List.length_cons]
      simp only [count_newlines, hc, if_false] at h2
      have := ih k h1 h2
      omega

/-- The arguments of `memcpy` in terms of lines: the copy moves what follows the first
`count - MAX_RECORDS / 2` lines to the end of the first line. -/
theorem del_file_more_lines_memcpy_eq (data : Str)
    (h : MAX_RECORDS + SAVEDLINES ≤ count_newlines data) :
    del_file_more_lines_memcpy data =
      some ((take_lines SAVEDLINES data).length,
        data.length - (drop_lines (count_newlines data - MAX_RECORDS / 2) data).length,
        (drop_lines (count_newlines data - MAX_RECORDS / 2) data).length) := by
  have hge : count_newlines data ≥ MAX_RECORDS + SAVEDLINES := h
  unfold MAX_RECORDS SAVEDLINES at h
  have hpos : 0 < count_newlines data - MAX_RECORDS / 2 := by
    unfold MAX_RECORDS; omega
  have hk : count_newlines data - MAX_RECORDS / 2 ≤ count_newlines data := by omega
  have hle : count_newlines data - MAX_RECORDS / 2 - 0 ≤ count_newlines data := by omega
  have hi := nl_index_lt data _ hpos hk
  have h1 := nl_index_lt data 1 (le_refl 1) (by omega)
  have hd := congrArg List.length (drop_nl_index data _ hpos hk)
  have ht := congrArg List.length (take_nl_index data 1 (le_refl 1) (by omega))
  simp only [List.length_drop, List.length_take] at hd ht
  unfold del_file_more_lines_memcpy
  simp only [hge, if_true]
  rw [scan_lines_spec _ data 0 0 0 hpos hle]
  simp only [if_true, zero_add, Nat.sub_zero]
  have e1 : nl_index 1 data + 1 = (take_lines SAVEDLINES data).length := by
    unfold SAVEDLINES
    omega
  rw [e1, ← hd]
  simp only [Option.some.injEq, Prod.mk.injEq, true_and]
  constructor <;> omega

/-- What the truncation keeps when the regions of its `memcpy` do not overlap: the first
line and everything after the newline number `count - MAX_RECORDS / 2`. -/
theorem del_file_more_lines_eq (data : Str) (dst src n : Nat)
    (h : MAX_RECORDS + SAVEDLINES ≤ count_newlines data)
    (hm : del_file_more_lines_memcpy data = some (dst, src, n))
    (hno : regions_overlap dst src n = false) :
    del_file_more_lines data =
      some (take_lines SAVEDLINES data ++
        drop_lines (count_newlines data - MAX_RECORDS / 2) data) := by
  have hge : count_newlines data ≥ MAX_RECORDS + SAVEDLINES := h
  rw [del_file_more_lines_of_memcpy data dst src n hm]
  simp only [hno, Bool.false_eq_true, if_false]
  unfold MAX_RECORDS SAVEDLINES at h
  have hpos : 0 < count_newlines data - MAX_RECORDS / 2 := by
    unfold MAX_RECORDS; omega
  have hle : count_newlines data - MAX_RECORDS / 2 - 0 ≤ count_newlines data := by omega
  have key : del_file_more_lines_memcpy data = some (nl_index 1 data + 1,
      nl_index (count_newlines data - MAX_RECORDS / 2) data + 1,
      data.length - nl_index (count_newlines data - MAX_RECORDS / 2) data - 1) := by
    unfold del_file_more_lines_memcpy
    simp only [hge, if_true]
    rw [scan_lines_spec _ data 0 0 0 hpos hle]
    simp only [if_true, zero_add, Nat.sub_zero]
  rw [key] at hm
  injection hm with hm
  injection hm with h1 h23
  injection h23 with h2 h3
  subst h1 h2
  rw [drop_nl_index data _ hpos (by omega), take_nl_index data 1 (le_refl 1) (by omega)]
  rfl

theorem count_newlines_take_lines (data : Str) :
    ∀ k, count_newlines (take_lines k data) = min k (count_newlines data) := by
  induction data with
  | nil => intro k; cases k <;> simp [take_lines, count_newlines]
  | cons c cs ih =>
    intro k
    cases k with
    | zero => simp [take_lines, count_newlines]
    | succ j =>
      by_cases hc : c = '\n'
      · simp only [take_lines, count_newlines, hc, if_true, ih j]; omega
      · simp only [take_lines, count_newlines, hc, if_false, ih (j + 1)]

theorem count_newlines_drop_lines (data : Str) :
    ∀ k, count_newlines (drop_lines k data) = count_newlines data - k := by
  induction data with
  | nil => intro k; cases k <;> simp [drop_lines, count_newlines]
  | cons c cs ih =>
    intro k
    cases k with
    | zero => simp [drop_lines]
    | succ j =>
      by_cases hc : c = '\n'
      · simp only [drop_lines, count_newlines, hc, if_true, ih j]; omega
      · simp only [drop_lines, count_newlines, hc, if_false, ih (j + 1)]

theorem take_lines_append_of_le (a b : Str) :
    ∀ k, k ≤ count_newlines a → take_lines k (a ++ b) = take_lines k a := by
  induction a with
  | nil => intro k hk; simp only [count_newlines] at hk; simp [Nat.le_zero.mp hk, take_lines]
  | cons c cs ih =>
    intro k hk
    cases k with
    | zero => simp [take_lines]
    | succ j =>
      by_cases hc : c = '\n'
      · simp only [count_newlines, hc, if_true] at hk
        simp only [List.cons_append, List.append_eq, take_lines, hc, if_true, ih j (by omega)]
      · simp only [count_newlines, hc, if_false] at hk
        simp only [List.cons_append, List.append_eq, take_lines, hc, if_false, ih (j + 1) hk]

theorem take_lines_idem (data : Str) :
    ∀ k, take_lines k (take_lines k data) = take_lines k data := by
  induction data with
  | nil => intro k; cases k <;> simp [take_lines]
  | cons c cs ih =>
    intro k
    cases k with
    | zero => simp [take_lines]
    | succ j =>
      by_cases hc : c = '\n'
      · simp only [take_lines, hc, if_true, ih j]
      · simp only [take_lines, hc, if_false, ih (j + 1)]

theorem drop_lines_take_lines_append (a b : Str) :
    ∀ k, k ≤ count_newlines a → drop_lines k (take_lines k a ++ b) = b := by
  induction a with
  | nil => intro k hk; simp only [count_newlines] at hk; simp [Nat.le_zero.mp hk, take_lines, drop_lines]
  | cons c cs ih =>
    intro k hk
    cases k with
    | zero => simp [take_lines, drop_lines]
    | succ j =>
      by_cases hc : c = '\n'
      · simp only [count_newlines, hc, if_true] at hk
        simp only [take_lines, List.cons_append, List.append_eq, drop_lines, hc, if_true, ih j (by omega)]
      · simp only [count_newlines, hc, if_false] at hk
        simp only [take_lines, List.cons_append, List.append_eq, drop_lines, hc, if_false, ih (j + 1) hk]

theorem drop_lines_add (data : Str) :
    ∀ m k, drop_lines (m + k) data = drop_lines k (drop_lines m data) := by
  induction data with
  | nil => intro m k; cases m <;> cases k <;> simp [drop_lines]
  | cons c cs ih =>
    intro m k
    cases m with
    | zero => simp [drop_lines]
    | succ j =>
      by_cases hc : c = '\n'
      · rw [show j + 1 + k = (j + k) + 1 from by omega]
        simp only [drop_lines, hc, if_true, ih j k]
      · rw [show j + 1 + k = (j + k) + 1 from by omega]
        simp only [drop_lines, hc, if_false]
        rw [show j + k + 1 = (j + 1) + k from by omega, ih (j + 1) k]

/-- Dropping the lines of a text made of whole lines leaves what follows it. -/
theorem drop_lines_whole_append (a b : Str) (k : Nat) (hk : k = count_newlines a)
    (hwhole : take_lines k a = a) : drop_lines k (a ++ b) = b := by
  have h := drop_lines_take_lines_append a b k (by omega)
  rwa [hwhole] at h

theorem count_newlines_sample_record : count_newlines sample_record = 1 := by decide

theorem take_lines_sample_record : take_lines 1 sample_record = sample_record := by decide

theorem count_newlines_sample_records (n : Nat) : count_newlines (sample_records n) = n := by
  induction n with
  | zero => rfl
  | succ n ih =>
    rw [sample_records, count_newlines_append, ih, count_newlines_sample_record]
    omega

theorem count_newlines_reset_history : count_newlines reset_history = 2 := by decide

theorem take_lines_reset_history : take_lines 2 reset_history = reset_history := by decide

theorem count_newlines_sample_ledger (n : Nat) : count_newlines (sample_ledger n) = n + 2 := by
  rw [sample_ledger, count_newlines_append, count_newlines_sample_records,
    count_newlines_reset_history]
  omega

theorem drop_lines_sample_records (m : Nat) :
    ∀ n, drop_lines n (sample_records (n + m)) = sample_records m := by
  intro n
  induction n with
  | zero => simp [drop_lines]
  | succ n ih =>
    rw [show n + 1 + m = (n + m) + 1 from by omega, sample_records,
      show n + 1 = 1 + n from by omega, drop_lines_add,
      drop_lines_whole_append sample_record _ 1 count_newlines_sample_record.symm
        take_lines_sample_record, ih]

theorem length_sample_records (n : Nat) : (sample_records n).length = n * 68 := by
  induction n with
  | zero => rfl
  | succ n ih =>
    rw [sample_records, List.length_append, ih]
    have : sample_record.length = 68 := by decide
    omega

theorem length_sample_ledger (n : Nat) : (sample_ledger n).length = 103 + n * 68 := by
  rw [sample_ledger, List.length_append, length_sample_records]
  rfl

/-- The lines the truncation keeps have `MAX_RECORDS / 2 + SAVEDLINES` newlines. -/
theorem count_newlines_kept (data : Str)
    (h : MAX_RECORDS + SAVEDLINES ≤ count_newlines data) :
    count_newlines (take_lines SAVEDLINES data ++
      drop_lines (count_newlines data - MAX_RECORDS / 2) data) = MAX_RECORDS / 2 + SAVEDLINES := by
  rw [count_newlines_append, count_newlines_take_lines, count_newlines_drop_lines]
  unfold MAX_RECORDS SAVEDLINES at *
  omega

/-- The first line of a ledger of two header lines and records. -/
theorem take_lines_sample_ledger (n : Nat) :
    take_lines SAVEDLINES (sample_ledger n) = header_line "0000:00:00".toList := by
  rw [sample_ledger, take_lines_append_of_le _ _ _ (by decide)]
  decide

/-- The newest 2500 records of a ledger of two header lines and at least 2500 records. -/
theorem drop_lines_sample_ledger (k : Nat) :
    drop_lines (count_newlines (sample_ledger (k + 2500)) - MAX_RECORDS / 2)
      (sample_ledger (k + 2500)) = sample_records 2500 := by
  rw [count_newlines_sample_ledger,
    show k + 2500 + 2 - MAX_RECORDS / 2 = 2 + k from by unfold MAX_RECORDS; omega,
    drop_lines_add, sample_ledger,
    drop_lines_whole_append reset_history _ 2 count_newlines_reset_history.symm
      take_lines_reset_history]
  exact drop_lines_sample_records 2500 k

/-- The `memcpy` of the truncation on a ledger of two header lines and `k + 2500` records,
once the threshold is reached: 170000 bytes from index `103 + k * 68` to index 47. -/
theorem sample_ledger_memcpy (k : Nat) (hk : 2499 ≤ k) :
    del_file_more_lines_memcpy (sample_ledger (k + 2500)) =
      some (47, 103 + k * 68, 170000) := by
  have hth : MAX_RECORDS + SAVEDLINES ≤ count_newlines (sample_ledger (k + 2500)) := by
    rw [count_newlines_sample_ledger]
    unfold MAX_RECORDS SAVEDLINES
    omega
  have h47 : (header_line "0000:00:00".toList).length = 47 := by decide
  rw [del_file_more_lines_memcpy_eq _ hth, take_lines_sample_ledger, drop_lines_sample_ledger,
    length_sample_records, length_sample_ledger, h47]
  simp only [Option.some.injEq, Prod.mk.injEq, true_and]
  exact ⟨by omega, trivial⟩

/-- A ledger of two header lines and at least 5000 records after truncation: the regions of
the copy do not overlap, and the result is the first header line followed by the newest 2500
records. -/
theorem del_file_more_lines_sample (k : Nat) (hk : 2500 ≤ k) :
    del_file_more_lines (sample_ledger (k + 2500)) =
      some (header_line "0000:00:00".toList ++ sample_records 2500) := by
  have hth : MAX_RECORDS + SAVEDLINES ≤ count_newlines (sample_ledger (k + 2500)) := by
    rw [count_newlines_sample_ledger]
    unfold MAX_RECORDS SAVEDLINES
    omega
  have hno : regions_overlap 47 (103 + k * 68) 170000 = false := by
    unfold regions_overlap
    have : ¬ 103 + k * 68 < 47 + 170000 := by omega
    simp only [this, decide_False, Bool.and_false]
  rw [del_file_more_lines_eq _ _ _ _ hth (sample_ledger_memcpy k (by omega)) hno,
    take_lines_sample_ledger, drop_lines_sample_ledger]

/-- C3 as stated fails: a ledger made of the two header lines and 5000 records has reached
MAX_RECORDS + SAVEDLINES newlines, the regions of the copy in del_file_more_lines do not
overlap, and in the file it produces the lines behind the first two are 2499 and the lines
behind the first one are 2500, not MAX_RECORDS/2 + SAVEDLINES = 2501. -/
theorem del_file_more_lines_body_counterexample :
    MAX_RECORDS + SAVEDLINES ≤ count_newlines (sample_ledger 5000) ∧
      del_file_more_lines_memcpy (sample_ledger 5000) = some (47, 170103, 170000) ∧
      regions_overlap 47 170103 170000 = false ∧
      del_file_more_lines (sample_ledger 5000) =
        some (header_line "0000:00:00".toList ++ sample_records 2500) ∧
      count_newlines
        (drop_lines 2 (header_line "0000:00:00".toList ++ sample_records 2500)) = 2499 ∧
      count_newlines
        (drop_lines 1 (header_line "0000:00:00".toList ++ sample_records 2500)) = 2500 ∧
      MAX_RECORDS / 2 + SAVEDLINES = 2501 := by
  refine ⟨?_, sample_ledger_memcpy 2500 (by decide), by decide,
    del_file_more_lines_sample 2500 (le_refl _), ?_, ?_, by decide⟩
  · rw [count_newlines_sample_ledger]
    decide
  · rw [count_newlines_drop_lines, count_newlines_append, count_newlines_sample_records]
    decide
  · rw [count_newlines_drop_lines, count_newlines_append, count_newlines_sample_records]
    decide

/-- C3, amended: for every ledger whose newline count has reached MAX_RECORDS + SAVEDLINES
and on which the two regions of the memcpy call of del_file_more_lines do not overlap, the
file produced by del_file_more_lines has exactly MAX_RECORDS/2 + SAVEDLINES lines in all,
its first SAVEDLINES lines are byte for byte the first SAVEDLINES lines of the input file,
and what follows them is the input after its first (count - MAX_RECORDS/2) lines, i.e. its
newest MAX_RECORDS/2 lines. -/
theorem del_file_more_lines_keeps (data : Str) (dst src n : Nat)
    (h : MAX_RECORDS + SAVEDLINES ≤ count_newlines data)
    (hm : del_file_more_lines_memcpy data = some (dst, src, n))
    (hno : regions_overlap dst src n = false) :
    (del_file_more_lines data).map count_newlines = some (MAX_RECORDS / 2 + SAVEDLINES) ∧
      (del_file_more_lines data).map (take_lines SAVEDLINES) =
        some (take_lines SAVEDLINES data) ∧
      (del_file_more_lines data).map (drop_lines SAVEDLINES) =
        some (drop_lines (count_newlines data - MAX_RECORDS / 2) data) ∧
      count_newlines (drop_lines (count_newlines data - MAX_RECORDS / 2) data) =
        MAX_RECORDS / 2 := by
  have hs : SAVEDLINES ≤ count_newlines data := le_trans (Nat.le_add_left _ _) h
  have hk : SAVEDLINES ≤ count_newlines (take_lines SAVEDLINES data) := by
    rw [count_newlines_take_lines]
    exact le_min (le_refl _) hs
  rw [del_file_more_lines_eq data dst src n h hm hno]
  simp only [Option.map_some']
  refine ⟨?_, ?_, ?_, ?_⟩
  · rw [count_newlines_kept data h]
  · rw [take_lines_append_of_le _ _ _ hk, take_lines_idem]
  · rw [drop_lines_take_lines_append data _ SAVEDLINES hs]
  · rw [count_newlines_drop_lines]
    unfold MAX_RECORDS SAVEDLINES at *
    omega

/-- Witness of the amended C3: the ledger of two header lines and 5000 records, on which
the copy moves 170000 bytes from index 170103 to index 47. -/
theorem del_file_more_lines_keeps_witness :
    (del_file_more_lines (sample_ledger 5000)).map count_newlines =
        some (MAX_RECORDS / 2 + SAVEDLINES) ∧
      (del_file_more_lines (sample_ledger 5000)).map (take_lines SAVEDLINES) =
        some (take_lines SAVEDLINES (sample_ledger 5000)) ∧
      (del_file_more_lines (sample_ledger 5000)).map (drop_lines SAVEDLINES) =
        some (drop_lines (count_newlines (sample_ledger 5000) - MAX_RECORDS / 2)
          (sample_ledger 5000)) ∧
      count_newlines
          (drop_lines (count_newlines (sample_ledger 5000) - MAX_RECORDS / 2)
            (sample_ledger 5000)) = MAX_RECORDS / 2 :=
  del_file_more_lines_keeps (sample_ledger 5000) 47 170103 170000
    (by rw [count_newlines_sample_ledger]; decide) (sample_ledger_memcpy 2500 (by decide))
    (by decide)

/-- C4, at the failing input: the ledger of 5000 records starts with the two header lines as
reset_history wrote them; del_file_more_lines, whose copy is between regions that do not
overlap there, produces a file whose first line is still the CURRENTUPTIME line, but whose
second line is a record and no longer the column header. -/
theorem del_file_more_lines_loses_column_header :
    take_lines 2 (sample_ledger 5000) = header_line "0000:00:00".toList ++ column_header ∧
      (del_file_more_lines (sample_ledger 5000)).map (take_lines 2) =
        some (header_line "0000:00:00".toList ++ sample_record) ∧
      sample_record ≠ column_header := by
  refine ⟨?_, ?_, by decide⟩
  · rw [sample_ledger, take_lines_append_of_le _ _ _ (by decide)]
    decide
  · rw [del_file_more_lines_sample 2500 (le_refl _), Option.map_some',
      show (2500 : Nat) = 2499 + 1 from rfl, sample_records,
      ← List.append_assoc, take_lines_append_of_le _ _ _ (by decide), Option.some.injEq]
    decide

/-! ## The bundle path written into a record -/

theorem be_bytes_length (n v : Nat) : (be_bytes n v).length = n := by
  induction n with
  | zero => rfl
  | succ n ih => simp [be_bytes, ih]

theorem be_bytes_lt (n v : Nat) : ∀ b ∈ be_bytes n v, b < 256 := by
  induction n with
  | zero => intro b hb; simp [be_bytes] at hb
  | succ n ih =>
    intro b hb
    simp only [be_bytes, List.mem_cons] at hb
    rcases hb with rfl | hb
    · exact Nat.mod_lt _ (by decide)
    · exact ih b hb

set_option maxRecDepth 100000 in
/-- The model of the digest gives the published test value for the text `abc`. -/
theorem SHA1_abc :
    SHA1 "abc".toList =
      [0xa9, 0x99, 0x3e, 0x36, 0x47, 0x06, 0x81, 0x6a, 0xba, 0x3e, 0x25, 0x71, 0x78, 0x50, 0xc2,
        0x6c, 0x9c, 0xd0, 0xd8, 0x9d] := by
  decide

/-- The digest has `SHA1_DIGEST_LENGTH` bytes. -/
theorem SHA1_length (msg : Str) : (SHA1 msg).length = SHA1_DIGEST_LENGTH := by
  simp [SHA1, be_bytes_length, SHA1_DIGEST_LENGTH]

theorem SHA1_lt (msg : Str) : ∀ b ∈ SHA1 msg, b < 256 := by
  intro b hb
  simp only [SHA1, List.mem_append] at hb
  rcases hb with (((hb | hb) | hb) | hb) | hb <;> exact be_bytes_lt _ _ b hb

set_option maxRecDepth 100000 in
/-- On a byte, `%02x` prints the two lowercase hexadecimal digits of the byte. -/
theorem fmt_02x_byte : ∀ b, b < 256 →
    fmt_02x b = [hex_digits.getD (b / 16) '0', hex_digits.getD (b % 16) '0'] := by
  decide

theorem hex_digit_mem : ∀ i, i < 16 → hex_digits.getD i '0' ∈ hex_digits := by
  decide

/-- The loop of `compute_key` is the hexadecimal encoding of the first `n` bytes. -/
theorem compute_key_loop_eq (n : Nat) :
    ∀ results : List Nat, n ≤ results.length → (∀ b ∈ results, b < 256) →
      compute_key_loop n results = hex_encode (results.take n) := by
  induction n with
  | zero => intro results _ _; rfl
  | succ n ih =>
    intro results hlen hlt
    match results, hlen, hlt with
    | [], hlen, _ => simp at hlen
    | r :: rs, hlen, hlt =>
      have hr : r < 256 := hlt r (List.mem_cons_self _ _)
      have hrs : ∀ b ∈ rs, b < 256 := fun b hb => hlt b (List.mem_cons_of_mem _ hb)
      simp only [compute_key_loop, List.headD_cons, List.tail_cons, List.take_succ_cons,
        hex_encode, Nat.mod_eq_of_lt hr, fmt_02x_byte r hr]
      rw [ih rs (by simpa using hlen) hrs]
      rfl

theorem hex_encode_length (bs : List Nat) : (hex_encode bs).length = 2 * bs.length := by
  induction bs with
  | nil => rfl
  | cons b bs ih => simp only [hex_encode, List.length_cons, ih]; omega

theorem hex_encode_mem (bs : List Nat) (h : ∀ b ∈ bs, b < 256) :
    ∀ c ∈ hex_encode bs, c ∈ hex_digits := by
  induction bs with
  | nil => intro c hc; simp [hex_encode] at hc
  | cons b bs ih =>
    intro c hc
    have hb : b < 256 := h b (List.mem_cons_self _ _)
    simp only [hex_encode, List.mem_cons] at hc
    rcases hc with rfl | rfl | hc
    · exact hex_digit_mem _ (by omega)
    · exact hex_digit_mem _ (Nat.mod_lt _ (by decide))
    · exact ih (fun x hx => h x (List.mem_cons_of_mem _ hx)) c hc

/-- The key is the encoding, in the words of the spec, of the text in `buf`. -/
theorem compute_key_eq (buildVersion uuid event : Str) (type : Option Str) (time_ns : Int) :
    compute_key buildVersion uuid time_ns event type =
      spec_key ((buildVersion ++ uuid ++ event ++ fmt_s type ++ fmt_d time_ns).take 255) := by
  unfold compute_key spec_key
  exact compute_key_loop_eq _ _ (by rw [SHA1_length]; decide) (SHA1_lt _)

set_option maxRecDepth 1000000 in
/-- C7 as stated fails: for a build version of 91 characters and a uuid of 170, the key of a
CRASH/ANR event at uptime 123456789 is not the encoding of the digest of the full
concatenation, which has 278 characters. -/
theorem compute_key_counterexample :
    compute_key long_build long_uuid 123456789 CRASHEVENT (some "ANR".toList) ≠
      spec_key (long_build ++ long_uuid ++ CRASHEVENT ++ "ANR".toList ++ fmt_d 123456789) := by
  decide

/-- C7, amended: for every build version, uuid, event class, event type and uptime value the
key computed by compute_key is the lowercase hexadecimal encoding of the first 10 bytes of
the SHA-1 digest of the first 255 characters of build_version || uuid || event_class ||
event_type || decimal(uptime_ns), the part that fits the 256-byte buffer; it is the digest
of the full concatenation whenever that is shorter than 256 characters. -/
theorem compute_key_spec (buildVersion uuid event : Str) (type : Option Str) (time_ns : Int) :
    compute_key buildVersion uuid time_ns event type =
        spec_key ((buildVersion ++ uuid ++ event ++ fmt_s type ++ fmt_d time_ns).take 255) ∧
      ((buildVersion ++ uuid ++ event ++ fmt_s type ++ fmt_d time_ns).length < 256 →
        compute_key buildVersion uuid time_ns event type =
          spec_key (buildVersion ++ uuid ++ event ++ fmt_s type ++ fmt_d time_ns)) := by
  refine ⟨compute_key_eq _ _ _ _ _, fun h => ?_⟩
  rw [compute_key_eq, List.take_of_length_le (by omega)]

/-- Witness of the amended C7: a short build version and the fallback uuid. -/
theorem compute_key_spec_witness :
    compute_key "b1".toList "Medfield".toList 123456789 CRASHEVENT (some "ANR".toList) =
      spec_key ("b1".toList ++ "Medfield".toList ++ CRASHEVENT ++ fmt_s (some "ANR".toList) ++
        fmt_d 123456789) :=
  (compute_key_spec "b1".toList "Medfield".toList CRASHEVENT (some "ANR".toList) 123456789).2
    (by decide)

/-- C8: compute_key is a function of build version, uuid, event class, event type and uptime
only, so equal inputs give equal keys, and every key has exactly 20 characters, each a
lowercase hexadecimal digit; in particular it is not empty. -/
theorem compute_key_deterministic_hex (b1 u1 e1 : Str) (ty1 : Option Str) (t1 : Int)
    (b2 u2 e2 : Str) (ty2 : Option Str) (t2 : Int)
    (h : (b1, u1, e1, ty1, t1) = (b2, u2, e2, ty2, t2)) :
    compute_key b1 u1 t1 e1 ty1 = compute_key b2 u2 t2 e2 ty2 ∧
      (compute_key b1 u1 t1 e1 ty1).length = 20 ∧
      (∀ c ∈ compute_key b1 u1 t1 e1 ty1, c ∈ hex_digits) ∧
      compute_key b1 u1 t1 e1 ty1 ≠ [] := by
  have hlen : (compute_key b1 u1 t1 e1 ty1).length = 20 := by
    rw [compute_key_eq, spec_key, hex_encode_length, List.length_take, SHA1_length]
    decide
  refine ⟨?_, hlen, ?_, ?_⟩
  · simp only [Prod.mk.injEq] at h
    obtain ⟨rfl, rfl, rfl, rfl, rfl⟩ := h
    rfl
  · rw [compute_key_eq, spec_key]
    exact hex_encode_mem _ (fun x hx => SHA1_lt _ x (List.mem_of_mem_take hx))
  · intro hnil
    rw [hnil] at hlen
    simp at hlen

/-- Witness of C8: two runs for the same CRASH/ANR event. -/
theorem compute_key_deterministic_hex_witness :
    compute_key "b1".toList "Medfield".toList 123456789 CRASHEVENT (some "ANR".toList) =
        compute_key "b1".toList "Medfield".toList 123456789 CRASHEVENT (some "ANR".toList) ∧
      (compute_key "b1".toList "Medfield".toList 123456789 CRASHEVENT
        (some "ANR".toList)).length = 20 ∧
      (∀ c ∈ compute_key "b1".toList "Medfield".toList 123456789 CRASHEVENT (some "ANR".toList),
        c ∈ hex_digits) ∧
      compute_key "b1".toList "Medfield".toList 123456789 CRASHEVENT (some "ANR".toList) ≠ [] :=
  compute_key_deterministic_hex "b1".toList "Medfield".toList CRASHEVENT (some "ANR".toList)
    123456789 "b1".toList "Medfield".toList CRASHEVENT (some "ANR".toList) 123456789 rfl

/-! ## Copying a file -/

/-- With reads that return something, the inner read loop fills the buffer with the `brtr`
bytes at `pos`. -/
theorem read_loop_complete (sys : CopySys) (s : Str) (hrd : ∀ n, 0 < sys.rd n) (fuel : Nat) :
    ∀ (brtr pos n : Nat) (got : Str), brtr ≤ fuel → pos + brtr ≤ s.length →
      ∃ n1, read_loop sys s fuel brtr pos n got =
        (true, got ++ (s.drop pos).take brtr, pos + brtr, n1) := by
  induction fuel with
  | zero =>
    intro brtr pos n got hf _
    have h0 : brtr = 0 := by omega
    subst h0
    exact ⟨n, by simp [read_loop]⟩
  | succ fuel ih =>
    intro brtr pos n got hf hlen
    by_cases h0 : brtr = 0
    · subst h0
      exact ⟨n, by simp [read_loop]⟩
    · have hpos := hrd n
      have hneg : ¬ (sys.rd n < 0) := by omega
      have hrc1 : 1 ≤ min (sys.rd n).toNat (min brtr (s.length - pos)) := by
        have : 1 ≤ (sys.rd n).toNat := by omega
        omega
      have hrc2 : min (sys.rd n).toNat (min brtr (s.length - pos)) ≤ brtr := by omega
      have hne : ¬ (min (sys.rd n).toNat (min brtr (s.length - pos)) = 0) := by omega
      obtain ⟨n1, h1⟩ := ih (brtr - min (sys.rd n).toNat (min brtr (s.length - pos)))
        (pos + min (sys.rd n).toNat (min brtr (s.length - pos))) (n + 1)
        (got ++ (s.drop pos).take (min (sys.rd n).toNat (min brtr (s.length - pos))))
        (by omega) (by omega)
      refine ⟨n1, ?_⟩
      rw [read_loop]
      simp only [h0, hneg, hne, if_false]
      rw [h1, List.append_assoc, ← List.drop_drop, ← List.take_add]
      congr 3
      · congr 1; omega
      · omega

/-- With writes that take something, the inner write loop appends all of `data`. -/
theorem write_loop_complete (sys : CopySys) (hwr : ∀ n, 0 < sys.wr n) (fuel : Nat) :
    ∀ (data : Str) (n : Nat) (dst : Str), data.length ≤ fuel →
      ∃ n1, write_loop sys fuel data n dst = (true, dst ++ data, n1) := by
  induction fuel with
  | zero =>
    intro data n dst hf
    have h0 : data = [] := List.length_eq_zero.mp (by omega)
    subst h0
    exact ⟨n, by simp [write_loop]⟩
  | succ fuel ih =>
    intro data n dst hf
    by_cases h0 : data.length = 0
    · have h1 : data = [] := List.length_eq_zero.mp h0
      subst h1
      exact ⟨n, by simp [write_loop]⟩
    · have hpos := hwr n
      have hneg : ¬ (sys.wr n < 0) := by omega
      have hrc1 : 1 ≤ min (sys.wr n).toNat data.length := by
        have : 1 ≤ (sys.wr n).toNat := by omega
        omega
      have hne : ¬ (min (sys.wr n).toNat data.length = 0) := by omega
      obtain ⟨n1, h1⟩ := ih (data.drop (min (sys.wr n).toNat data.length)) (n + 1)
        (dst ++ data.take (min (sys.wr n).toNat data.length))
        (by rw [List.length_drop]; omega)
      refine ⟨n1, ?_⟩
      rw [write_loop]
      simp only [h0, hneg, hne, if_false]
      rw [h1, List.append_assoc, List.take_append_drop]

/-- The outer loop copies the `filelen` bytes at `pos`. -/
theorem copy_loop_complete (sys : CopySys) (s : Str) (hrd : ∀ n, 0 < sys.rd n)
    (hwr : ∀ n, 0 < sys.wr n) (fuel : Nat) :
    ∀ (filelen pos : Nat) (buffer : Str) (nr nw : Nat) (dst : Str), filelen ≤ fuel →
      pos + filelen ≤ s.length →
      copy_loop sys s fuel filelen pos buffer nr nw dst =
        (true, dst ++ (s.drop pos).take filelen) := by
  induction fuel with
  | zero =>
    intro filelen pos buffer nr nw dst hf _
    have h0 : filelen = 0 := by omega
    subst h0
    simp [copy_loop]
  | succ fuel ih =>
    intro filelen pos buffer nr nw dst hf hlen
    by_cases h0 : filelen = 0
    · subst h0
      simp [copy_loop]
    · rw [copy_loop]
      simp only [h0, if_false]
      generalize htmp : (if filelen > 4 * 1024 then 4 * 1024 else filelen) = tmp
      have ht1 : 1 ≤ tmp := by rw [← htmp]; split <;> omega
      have ht2 : tmp ≤ filelen := by rw [← htmp]; split <;> omega
      obtain ⟨nr1, hr⟩ := read_loop_complete sys s hrd tmp tmp pos nr [] (le_refl _) (by omega)
      rw [hr]
      simp only [List.nil_append]
      have hgot : ((s.drop pos).take tmp).length = tmp := by
        rw [List.length_take, List.length_drop]; omega
      have hdata : ((s.drop pos).take tmp ++ buffer.drop ((s.drop pos).take tmp).length).take tmp =
          (s.drop pos).take tmp := by
        rw [List.take_append_eq_append_take, List.take_of_length_le (by omega), hgot]
        simp
      rw [hdata]
      obtain ⟨nw1, hw⟩ := write_loop_complete sys hwr tmp ((s.drop pos).take tmp) nw dst
        (by omega)
      rw [hw]
      simp only []
      rw [ih (filelen - tmp) (pos + tmp) _ nr1 nw1 _ (by omega) (by omega), List.append_assoc,
        ← List.drop_drop, ← List.take_add]
      congr 3
      omega

theorem int32_of_lt (v : Int) (h0 : 0 ≤ v) (h1 : v < 2 ^ 31) : int32 v = v := by
  unfold int32
  omega

theorem chunked_pos (chunk : Nat) (h : 0 < chunk) :
    ∀ n, 0 < (CopySys.chunked chunk).rd n ∧ 0 < (CopySys.chunked chunk).wr n :=
  fun _ => ⟨Int.natCast_pos.mpr h, Int.natCast_pos.mpr h⟩

/-- A source of exactly 2^32 bytes copied with limit 0: `filelen` becomes 0 and the loop is
not entered. -/
theorem do_copy_wrapped (sys : CopySys) (s : Str) (des : Option Str)
    (hsrc : sys.open_src_fails = false) (hdes : sys.open_des_fails = false)
    (hlen : s.length = 2 ^ 32) : do_copy sys (some s) des 0 = some (0, some []) := by
  have h32 : int32 ((s.length : Nat) : Int) = 0 := by
    rw [hlen]
    decide
  unfold do_copy
  simp only [hsrc, hdes, Bool.false_eq_true, if_false, true_or, decide_True, if_true, h32,
    lt_self_iff_false, Int.toNat_zero]
  rfl

/-- C10 as stated fails: a source of 2^32 bytes copied with limit 0, every call succeeding
and every read and write moving up to 4096 bytes, leaves an empty destination and reports
success, because the size does not fit the int filelen. -/
theorem do_copy_counterexample :
    (∀ n, 0 < (CopySys.chunked 4096).rd n ∧ 0 < (CopySys.chunked 4096).wr n) ∧
      do_copy (CopySys.chunked 4096) (some (List.replicate (2 ^ 32) 'a')) none 0 =
        some (0, some []) ∧
      List.replicate (2 ^ 32) 'a' ≠ [] := by
  refine ⟨chunked_pos 4096 (by decide), ?_, ?_⟩
  · exact do_copy_wrapped _ _ _ rfl rfl (List.length_replicate _ _)
  · intro h
    have hlen := congrArg List.length h
    rw [List.length_replicate, List.length_nil] at hlen
    exact absurd hlen (by decide)

/-- C10, amended: for every source content s shorter than 2^31 bytes (the size is kept in an
int) and every limit L ≥ 0, when both files open and no read or write fails or returns 0,
do_copy returns 0 and leaves the destination holding all of s if L = 0 or L ≥ |s|, and
exactly the last L bytes of s otherwise, whatever positive chunk sizes the individual read
and write calls return. -/
theorem do_copy_tail (sys : CopySys) (s : Str) (des : Option Str) (L : Int)
    (hL : 0 ≤ L) (hsize : s.length < 2 ^ 31)
    (hsrc : sys.open_src_fails = false) (hdes : sys.open_des_fails = false)
    (hrd : ∀ n, 0 < sys.rd n) (hwr : ∀ n, 0 < sys.wr n) :
    do_copy sys (some s) des L =
      some (0, some (if L = 0 ∨ L ≥ (s.length : Int) then s
        else s.drop (s.length - L.toNat))) := by
  have hsz : ((s.length : Nat) : Int) < 2 ^ 31 := by exact_mod_cast hsize
  by_cases hw : L = 0 ∨ L ≥ (s.length : Int)
  · have h32 : int32 (s.length : Int) = (s.length : Int) :=
      int32_of_lt _ (Int.natCast_nonneg _) hsz
    have hnn : ¬ ((s.length : Int) < 0) := by omega
    simp only [do_copy, hsrc, hdes, hw, Bool.false_eq_true, if_false, decide_True, if_true, h32,
      hnn, Int.toNat_ofNat]
    rw [copy_loop_complete sys s hrd hwr s.length s.length 0 _ 0 0 [] (le_refl _) (by omega)]
    simp
  · have hlt : L < (s.length : Int) := by omega
    have hnn : ¬ (L < 0) := by omega
    have hpos : ((s.length : Int) - L).toNat = s.length - L.toNat := by omega
    simp only [do_copy, hsrc, hdes, hw, Bool.false_eq_true, if_false, decide_False, hnn, hpos]
    rw [copy_loop_complete sys s hrd hwr L.toNat L.toNat (s.length - L.toNat) _ 0 0 []
      (le_refl _) (by omega)]
    have hall : (s.drop (s.length - L.toNat)).take L.toNat = s.drop (s.length - L.toNat) :=
      List.take_of_length_le (by rw [List.length_drop]; omega)
    simp [hall]

/-- Witness of the amended C10: the last 4 bytes of a short text, read and written 3 bytes
at a time. -/
theorem do_copy_tail_witness :
    do_copy (CopySys.chunked 3) (some "hello world".toList) none 4 =
      some (0, some (if (4 : Int) = 0 ∨ (4 : Int) ≥ ("hello world".toList.length : Int)
        then "hello world".toList
        else "hello world".toList.drop ("hello world".toList.length - (4 : Int).toNat))) :=
  do_copy_tail (CopySys.chunked 3) "hello world".toList none 4 (by decide) (by decide) rfl rfl
    (fun n => (chunked_pos 3 (by decide) n).1) (fun n => (chunked_pos 3 (by decide) n).2)

/-! ## Failed allocations and the order of the calls -/

/-- Every call site that holds one event appends one record without bundle path and copies
nothing when its allocation fails. -/
theorem single_event_sites_no_dir (w : World) (e : wd_name) (name reason : Str)
    (h : w.find_dir 0 = -1) :
    ∀ t ∈ single_event_sites w e name reason,
      t.any Effect.is_alloc = true → one_record_without_bundle t := by
  intro t ht
  simp only [single_event_sites, List.mem_cons, List.mem_singleton, List.not_mem_nil,
    or_false] at ht
  rcases ht with rfl | rfl | rfl | rfl | rfl | rfl | rfl | rfl | rfl | rfl | rfl
  · intro _
    simp [branch_modem_reset, h, no_dir_record, one_record_without_bundle, Effect.is_record,
      Effect.has_path, Effect.is_copy]
  · intro _
    simp [branch_modem_crash, h, no_dir_record, one_record_without_bundle, Effect.is_record,
      Effect.has_path, Effect.is_copy]
  · unfold branch_lost
    cases hl : lost_event name with
    | none => simp
    | some lostevent =>
      intro _
      simp [h, no_dir_record, one_record_without_bundle, Effect.is_record, Effect.has_path,
        Effect.is_copy]
  · intro _
    simp [branch_stats, h, no_dir_record, one_record_without_bundle, Effect.is_record,
      Effect.has_path, Effect.is_copy]
  · intro _
    simp [branch_anr, h, no_dir_record, one_record_without_bundle, Effect.is_record,
      Effect.has_path, Effect.is_copy]
  · intro _
    simp [branch_other, h, no_dir_record, one_record_without_bundle, Effect.is_record,
      Effect.has_path, Effect.is_copy]
  · unfold crashlog_check_fabric
    split
    · intro _
      simp [h, one_record_without_bundle, Effect.is_record, Effect.has_path, Effect.is_copy]
    · simp
  · unfold crashlog_check_panic
    split
    · intro _
      simp [h, one_record_without_bundle, Effect.is_record, Effect.has_path, Effect.is_copy]
    · simp
  · unfold crashlog_check_modem_shutdown
    split
    · intro _
      simp [h, one_record_without_bundle, Effect.is_record, Effect.has_path, Effect.is_copy]
    · simp
  · unfold crashlog_check_startupreason
    split
    · intro _
      simp [h, one_record_without_bundle, Effect.is_record, Effect.has_path, Effect.is_copy]
    · simp
  · unfold crashlog_check_recovery
    split
    · intro _
      simp [h, one_record_without_bundle, Effect.is_record, Effect.has_path, Effect.is_copy]
    · simp

/-- A packet of the aplog trigger whose allocation fails appends no record and copies
nothing. -/
theorem aplog_packet_no_dir (w : World) (j aplogDepth : Nat) (present : Bool) (calls : Nat)
    (h : w.find_dir calls = -1) :
    (aplog_packet w j aplogDepth present calls).1.all
      (fun x => !x.is_record && !x.is_copy) = true := by
  cases aplogDepth with
  | zero => simp [aplog_packet, aplog_files]
  | succ n =>
    by_cases hf : (w.file (aplog_paths w j 0 (n + 1) (-1)).1).isSome = true
    · simp [aplog_packet, aplog_files, hf, h, Effect.is_record, Effect.is_copy]
    · simp [aplog_packet, aplog_files, hf]

/-- C5 as stated fails at the aplog trigger: when find_dir returns -1 for a packet whose
first log file exists, the branch calls find_dir and appends no ledger record at all. -/
theorem find_dir_failure_counterexample :
    full_world.find_dir 0 = -1 ∧
      (classify full_world ⟨0, 0, APLOGTRIGGER, "/data/logs/aplogs".toList, "_trigger".toList⟩
        "aplog_trigger".toList).1 =
        [Effect.find_dir APLOGS_MODE,
          Effect.remove "/data/logs/aplogs/aplog_trigger".toList] ∧
      ¬ one_record_without_bundle
        (classify full_world ⟨0, 0, APLOGTRIGGER, "/data/logs/aplogs".toList, "_trigger".toList⟩
          "aplog_trigger".toList).1 := by
  decide

/-- C5, amended: at every call site of find_dir other than the aplog trigger (the six other
classifier branches and the five boot checks), when the allocator returns -1 the caller
appends exactly one ledger record, which carries no bundle path, and copies no artifact; in
the aplog-trigger branch a packet whose allocation returns -1 appends no record and copies
nothing. -/
theorem find_dir_failure_sites (w : World) (e : wd_name) (name reason : Str) :
    (w.find_dir 0 = -1 →
      ∀ t ∈ single_event_sites w e name reason,
        t.any Effect.is_alloc = true → one_record_without_bundle t) ∧
    (∀ (j aplogDepth : Nat) (present : Bool) (calls : Nat), w.find_dir calls = -1 →
      (aplog_packet w j aplogDepth present calls).1.all
        (fun x => !x.is_record && !x.is_copy) = true) :=
  ⟨single_event_sites_no_dir w e name reason,
    fun j aplogDepth present calls h => aplog_packet_no_dir w j aplogDepth present calls h⟩

/-- Witness of the amended C5: the ANR entry of the watch table and the first aplog packet
in a world where every allocation fails. -/
theorem find_dir_failure_sites_witness :
    one_record_without_bundle
        (branch_anr full_world ⟨0, 0, ANR_CRASH, "/data/system/dropbox".toList, "anr".toList⟩
          "system_app_anr@1357.txt".toList) ∧
      (aplog_packet full_world 0 3 false 0).1.all
        (fun x => !x.is_record && !x.is_copy) = true :=
  ⟨(find_dir_failure_sites full_world
      ⟨0, 0, ANR_CRASH, "/data/system/dropbox".toList, "anr".toList⟩ "system_app_anr@1357.txt".toList
      "COLD_BOOT".toList).1 rfl _ (by simp [single_event_sites]) (by decide),
    (find_dir_failure_sites full_world
      ⟨0, 0, ANR_CRASH, "/data/system/dropbox".toList, "anr".toList⟩ "system_app_anr@1357.txt".toList
      "COLD_BOOT".toList).2 0 3 false 0 rfl⟩

theorem in_order_zeros_append (n : Nat) (l : List Nat) :
    in_order (List.replicate n 0 ++ l) ↔ in_order l := by
  unfold in_order
  rw [List.pairwise_append]
  constructor
  · intro h; exact h.2.1
  · intro h
    refine ⟨?_, h, ?_⟩
    · induction n with
      | zero => simp
      | succ n ih =>
        rw [List.replicate_succ, List.pairwise_cons]
        exact ⟨fun b _ => Nat.zero_le b, ih⟩
    · intro a ha b _
      rw [List.eq_of_mem_replicate ha]
      exact Nat.zero_le b

/-- The calls of `backtrace_anr_uiwdt` hold at most one copy, the move of the trace file,
and no other step. -/
theorem backtrace_steps (w : World) (dest : Str) (dir : Int) :
    ((backtrace_anr_uiwdt w dest dir).1.filterMap Effect.step = [] ∨
      (backtrace_anr_uiwdt w dest dir).1.filterMap Effect.step = [0]) ∧
    (backtrace_anr_uiwdt w dest dir).1.filterMap Effect.step_main = [] ∧
    ((backtrace_anr_uiwdt w dest dir).1.filterMap Effect.step_commit = [] ∨
      (backtrace_anr_uiwdt w dest dir).1.filterMap Effect.step_commit = [1]) := by
  unfold backtrace_anr_uiwdt process_anr_or_uiwdt
  split
  · simp
  · simp only []
    split
    · split <;> simp [Effect.step, Effect.step_main, Effect.step_commit]
    · split
      · split <;> simp [Effect.step, Effect.step_main, Effect.step_commit]
      · split
        · split <;> simp [Effect.step, Effect.step_main, Effect.step_commit]
        · split
          · split <;> simp [Effect.step, Effect.step_main, Effect.step_commit]
          · split <;> simp [Effect.step, Effect.step_main, Effect.step_commit]

/-- The inner loop of the aplog branch only allocates and copies. -/
theorem aplog_files_steps (w : World) (j aplogDepth : Nat) (fuel : Nat) :
    ∀ (k : Nat) (dir : Int) (present : Bool) (calls : Nat),
      ∃ n, (aplog_files w j aplogDepth fuel k dir present calls).1.filterMap Effect.step =
        List.replicate n 0 := by
  induction fuel with
  | zero => intro k dir present calls; exact ⟨0, by simp [aplog_files]⟩
  | succ fuel ih =>
    intro k dir present calls
    unfold aplog_files
    split
    · split
      · split
        · exact ⟨0, by simp [Effect.step]⟩
        · obtain ⟨n, hn⟩ := ih (k + 1) (w.find_dir calls) true (calls + 1)
          exact ⟨n + 1, by simp [Effect.step, hn, List.replicate_succ]⟩
      · obtain ⟨n, hn⟩ := ih (k + 1) dir true calls
        exact ⟨n + 1, by simp [Effect.step, hn, List.replicate_succ]⟩
    · exact ⟨0, by simp⟩

/-- A packet of the aplog trigger: copies, then the ledger append, then the notifier. -/
theorem aplog_packet_order (w : World) (j aplogDepth : Nat) (present : Bool) (calls : Nat) :
    in_order ((aplog_packet w j aplogDepth present calls).1.filterMap Effect.step) := by
  obtain ⟨n, hn⟩ := aplog_files_steps w j aplogDepth aplogDepth 0 (-1) present calls
  unfold aplog_packet
  simp only [List.filterMap_append, hn]
  rw [in_order_zeros_append]
  split <;> simp [Effect.step, in_order]

/-- The branch for ANR and UI watchdog: everything but the move of the trace file is in the
order of the spec, and every copy and snapshot comes before the ledger append. -/
theorem branch_anr_order (w : World) (e : wd_name) (name : Str) :
    in_order ((branch_anr w e name).filterMap Effect.step_main) ∧
      in_order ((branch_anr w e name).filterMap Effect.step_commit) := by
  obtain ⟨_, h2, h3⟩ := backtrace_steps w
    (snp (w.CRASH_DIR ++ fmt_d (w.find_dir 0) ++ '/' :: name)) (w.find_dir 0)
  unfold branch_anr
  by_cases hd : w.find_dir 0 = -1
  · simp [hd, Effect.step, Effect.step_main, Effect.step_commit, in_order]
  · by_cases hf : (w.file (snp (e.filename ++ '/' :: name))).isSome = true
    · simp only [hd, hf, if_false, if_true, List.filterMap_append, h2]
      refine ⟨by simp [Effect.step, Effect.step_main, in_order], ?_⟩
      rcases h3 with h3 | h3 <;> rw [h3] <;> simp [Effect.step_commit, in_order]
    · simp [hd, hf, Effect.step, Effect.step_main, Effect.step_commit, in_order]

theorem branch_other_order (w : World) (e : wd_name) (name : Str) :
    in_order ((branch_other w e name).filterMap Effect.step) := by
  obtain ⟨h1, _, _⟩ := backtrace_steps w
    (snp (w.CRASH_DIR ++ fmt_d (w.find_dir 0) ++ '/' :: name)) (w.find_dir 0)
  unfold branch_other
  simp only []
  split
  · simp [no_dir_record, Effect.step, in_order]
  · split
    · split
      · simp [Effect.step, in_order]
      · split
        · simp only [List.filterMap_append, List.filterMap_cons, Effect.step]
          rcases h1 with h1 | h1 <;> rw [h1] <;> simp [Effect.step, in_order]
        · simp [Effect.step, in_order]
    · simp [Effect.step, in_order]

/-- C9 as stated fails in the branch for ANR and UI watchdog: for the dropped report
system_app_anr@1357.txt that names a trace file, the trace file is copied into the bundle
(sendfile in process_anr_or_uiwdt) after the log snapshot. -/
theorem classifier_order_counterexample :
    (classify anr_world ⟨0, 0, ANR_CRASH, "/data/system/dropbox".toList, "anr".toList⟩
        "system_app_anr@1357.txt".toList).1.filterMap Effect.step = [0, 1, 0, 2, 3] ∧
      (classify anr_world ⟨0, 0, ANR_CRASH, "/data/system/dropbox".toList, "anr".toList⟩
        "system_app_anr@1357.txt".toList).1.filter (fun x => x.is_copy || x.has_path) =
        [Effect.do_copy "/data/system/dropbox/system_app_anr@1357.txt".toList
            "/data/logs/crashlog7/system_app_anr@1357.txt".toList FILESIZE_MAX,
          Effect.sendfile "/data/anr/traces.txt".toList
            "/data/logs/crashlog7/trace_all_stack.txt".toList,
          Effect.history_file_write CRASHEVENT (some ANR_CRASH) none
            (some "/data/logs/crashlog7/system_app_anr@1357.txt".toList) none] ∧
      ¬ in_order
        ((classify anr_world ⟨0, 0, ANR_CRASH, "/data/system/dropbox".toList, "anr".toList⟩
          "system_app_anr@1357.txt".toList).1.filterMap Effect.step) := by
  decide

/-- C9, amended: in every classifier branch of do_crashlogd that records an event with a
bundle, every copy of an artifact into the bundle and every log snapshot come before the
ledger append, and the ledger append before the notifier spawn; the copies also come before
every snapshot, except that in the branch for ANR and UI watchdog the trace file named by
the report is moved into the bundle (backtrace_anr_uiwdt) after the snapshot.  For an aplog
trigger this order holds within each packet, every packet having its own bundle, record and
notifier spawn. -/
theorem classifier_order (w : World) (e : wd_name) (name : Str) :
    (∀ t ∈ [branch_modem_reset w e name, branch_modem_crash w e name, branch_lost w name,
        branch_stats w e name, branch_other w e name],
      in_order (t.filterMap Effect.step)) ∧
    in_order ((branch_anr w e name).filterMap Effect.step_main) ∧
    in_order ((branch_anr w e name).filterMap Effect.step_commit) ∧
    (∀ (j aplogDepth : Nat) (present : Bool) (calls : Nat),
      in_order ((aplog_packet w j aplogDepth present calls).1.filterMap Effect.step)) := by
  refine ⟨?_, (branch_anr_order w e name).1, (branch_anr_order w e name).2,
    aplog_packet_order w⟩
  intro t ht
  simp only [List.mem_cons, List.mem_singleton, List.not_mem_nil, or_false] at ht
  rcases ht with rfl | rfl | rfl | rfl | rfl
  · unfold branch_modem_reset
    simp only []
    split
    · simp [no_dir_record, Effect.step, in_order]
    · split
      · split <;> simp [Effect.step, in_order]
      · simp [Effect.step, in_order]
  · unfold branch_modem_crash
    simp only []
    split
    · simp [no_dir_record, Effect.step, in_order]
    · simp [Effect.step, in_order]
  · unfold branch_lost
    split
    · simp [in_order]
    · simp only []
      split
      · simp [no_dir_record, Effect.step, in_order]
      · simp [Effect.step, in_order]
  · unfold branch_stats
    simp only []
    split
    · simp [no_dir_record, Effect.step, in_order]
    · split <;> simp [Effect.step, in_order]
  · exact branch_other_order w e name

/-! ## The rotation modulus of the command line -/

/-- With a modulus `N ≥ 1`, a run of calls that starts on a stored cursor `c < N`,
`c ≤ MAX_DIR`, hands out slots below `min N MAX_DIR` only. -/
theorem find_dir_seq_below (N mode n : Nat) (hN : 1 ≤ N) :
    ∀ (fs : FS) (c : Nat), c < N → c ≤ MAX_DIR →
      fs.files (cursor_path mode) = some (fmt_d (c : Int)) →
      ∃ rs, (find_dir_seq N mode n fs).map Prod.fst = some rs ∧
        ∀ r ∈ rs, 0 ≤ r ∧ r < ((min N MAX_DIR : Nat) : Int) := by
  induction n with
  | zero => intro fs c _ _ _; exact ⟨[], rfl, by simp⟩
  | succ n ih =>
    intro fs c hcN hc hfile
    obtain ⟨fs1, hcall, hcur⟩ :=
      find_dir_present Sys.ok N mode fs _ Sys.ok_succeeds (by omega) hfile
    rw [read_cursor_fmt_d Sys.ok c hc] at hcall hcur
    have hlt : c % MAX_DIR < 1000 := Nat.mod_lt _ (by decide)
    have hle : c % MAX_DIR ≤ c := Nat.mod_le _ _
    have hnew : (c % MAX_DIR + 1) % N < N := Nat.mod_lt _ (by omega)
    have hnew2 : (c % MAX_DIR + 1) % N ≤ MAX_DIR :=
      le_trans (Nat.mod_le _ _) (by unfold MAX_DIR; omega)
    obtain ⟨rs, hrs, hall⟩ := ih fs1 _ hnew hnew2 hcur
    refine ⟨((c % MAX_DIR : Nat) : Int) :: rs, ?_, ?_⟩
    · rw [find_dir_seq_succ _ _ _ _ _ _ hcall, hrs, Option.map_some']
    · intro r hr
      rcases List.mem_cons.mp hr with h | h
      · subst h
        refine ⟨Int.natCast_nonneg _, ?_⟩
        have : c % MAX_DIR < min N MAX_DIR := by
          unfold MAX_DIR at *
          omega
        exact_mod_cast this
      · exact hall r h

/-- With a modulus `N ≥ 2`, every run of calls that starts without cursor file hands out
slots below `min N MAX_DIR` only. -/
theorem find_dir_seq_absent_below (N mode n : Nat) (hN : 2 ≤ N) (fs : FS)
    (habsent : fs.files (cursor_path mode) = none) :
    ∃ rs, (find_dir_seq N mode n fs).map Prod.fst = some rs ∧
      ∀ r ∈ rs, 0 ≤ r ∧ r < ((min N MAX_DIR : Nat) : Int) := by
  cases n with
  | zero => exact ⟨[], rfl, by simp⟩
  | succ n =>
    obtain ⟨fs1, hcall, hcur⟩ := find_dir_absent Sys.ok N mode fs Sys.ok_succeeds habsent
    obtain ⟨rs, hrs, hall⟩ :=
      find_dir_seq_below N mode n (by omega) fs1 1 (by omega) (by decide) hcur
    refine ⟨0 :: rs, ?_, ?_⟩
    · rw [find_dir_seq_succ _ _ _ _ _ _ hcall, hrs, Option.map_some']
    · intro r hr
      rcases List.mem_cons.mp hr with h | h
      · subst h
        refine ⟨le_refl _, ?_⟩
        have : 0 < min N MAX_DIR := by
          unfold MAX_DIR
          omega
        exact_mod_cast this
      · exact hall r h

/-- C11: with the command-line argument 1 and no cursor file, the second allocation in crash
mode returns slot 1, which is not below min(1, MAX_DIR) = 1: the branch for an absent cursor
file stores the cursor 1 without reducing it modulo the argument. -/
theorem find_dir_modulus_one :
    (find_dir_seq 1 CRASH_MODE 3 (cursorOnly none)).map Prod.fst = some [0, 1, 0] ∧
      ¬ ((1 : Int) < ((min 1 MAX_DIR : Nat) : Int)) := by
  decide

/-- C13: when stat on the cursor file fails with an error other than ENOENT, find_dir
returns -1, whatever the modulus, the mode and the other faults are, and the file system it
leaves is the one it was called on: the cursor files and the bundle directories are
unmodified. -/
theorem find_dir_stat_error (sys : Sys) (max mode : Nat) (fs : FS)
    (herr : sys.stat_err = true) :
    find_dir sys max mode fs = some (-1, fs) := by
  unfold find_dir
  simp [herr]

/-- Witness of C13: a failing stat on a file system whose crash cursor holds 5. -/
theorem find_dir_stat_error_witness :
    find_dir { Sys.ok with stat_err := true } DEFAULT_FILES CRASH_MODE
        (cursorOnly (some "5".toList)) = some (-1, cursorOnly (some "5".toList)) :=
  find_dir_stat_error { Sys.ok with stat_err := true } DEFAULT_FILES CRASH_MODE
    (cursorOnly (some "5".toList)) rfl

/-! ## The pause before the log snapshot -/

theorem usleep_not_mem_backtrace (w : World) (dest : Str) (dir : Int) (u : Nat) :
    Effect.usleep u ∉ (backtrace_anr_uiwdt w dest dir).1 := by
  unfold backtrace_anr_uiwdt process_anr_or_uiwdt
  simp only []
  repeat' split
  all_goals simp

theorem usleep_sites (w : World) (e : wd_name) (name reason : Str) :
    ∀ t ∈ single_event_sites w e name reason, ∀ u, Effect.usleep u ∈ t → u = TIMEOUT_VALUE := by
  intro t ht
  simp only [single_event_sites, List.mem_cons, List.mem_singleton, List.not_mem_nil,
    or_false] at ht
  rcases ht with h | h | h | h | h | h | h | h | h | h | h <;> subst h
  · unfold branch_modem_reset no_dir_record; simp only []; repeat' split
    all_goals simp
  · unfold branch_modem_crash no_dir_record; simp only []; repeat' split
    all_goals simp
  · unfold branch_lost no_dir_record; simp only []; repeat' split
    all_goals simp
  · unfold branch_stats no_dir_record; simp only []; repeat' split
    all_goals simp
  · unfold branch_anr; simp only []; repeat' split
    all_goals simp [usleep_not_mem_backtrace]
  · unfold branch_other no_dir_record; simp only []; repeat' split
    all_goals simp [usleep_not_mem_backtrace]
  · unfold crashlog_check_fabric; simp only []; repeat' split
    all_goals simp
  · unfold crashlog_check_panic; simp only []; repeat' split
    all_goals simp
  · unfold crashlog_check_modem_shutdown; simp only []; repeat' split
    all_goals simp
  · unfold crashlog_check_startupreason; simp only []; repeat' split
    all_goals simp
  · unfold crashlog_check_recovery; simp only []; repeat' split
    all_goals simp

/-- C14 as stated fails: the argument of usleep in the ANR branch is TIMEOUT_VALUE, which is
20 * 1000 = 20 000 microseconds and not 20 000 000. -/
theorem usleep_timeout_counterexample :
    Effect.usleep TIMEOUT_VALUE ∈
        branch_anr anr_world ⟨0, 0, ANR_CRASH, "/data/system/dropbox".toList, "anr".toList⟩
          "system_app_anr@1357.txt".toList ∧
      TIMEOUT_VALUE = 20000 ∧ TIMEOUT_VALUE ≠ 20000000 := by
  decide

/-- C14, amended: in every classifier branch and boot check that holds one event, every call
of usleep gets TIMEOUT_VALUE, which is 20 000 microseconds: the pause between artifact copy
and log snapshot lasts 20 milliseconds. -/
theorem usleep_timeout (w : World) (e : wd_name) (name reason : Str) (t : List Effect)
    (ht : t ∈ single_event_sites w e name reason) (u : Nat) (hu : Effect.usleep u ∈ t) :
    u = TIMEOUT_VALUE ∧ TIMEOUT_VALUE = 20000 ∧ 1000 * TIMEOUT_VALUE = 20 * 1000000 :=
  ⟨usleep_sites w e name reason t ht u hu, rfl, rfl⟩

/-- Witness of the amended C14: the pause of the ANR branch for a dropped report. -/
theorem usleep_timeout_witness :
    (20000 : Nat) = TIMEOUT_VALUE ∧ TIMEOUT_VALUE = 20000 ∧
      1000 * TIMEOUT_VALUE = 20 * 1000000 :=
  usleep_timeout anr_world ⟨0, 0, ANR_CRASH, "/data/system/dropbox".toList, "anr".toList⟩
    "system_app_anr@1357.txt".toList "COLD_BOOT".toList
    (branch_anr anr_world ⟨0, 0, ANR_CRASH, "/data/system/dropbox".toList, "anr".toList⟩
      "system_app_anr@1357.txt".toList)
    (by simp [single_event_sites]) 20000 (by decide)


theorem matches_shape_length : ∀ (s p : Str), matches_shape s p = true → s.length = p.length
  | [], [], _ => rfl
  | [], _ :: _, h => by simp [matches_shape] at h
  | _ :: _, [], h => by simp [matches_shape] at h
  | c :: cs, p :: ps, h => by
    simp only [matches_shape, Bool.and_eq_true] at h
    simp [matches_shape_length cs ps h.2]

theorem pad_right_length (w : Nat) (s : Str) (h : s.length ≤ w) :
    (pad_right w s).length = w := by
  simp [pad_right]
  omega

theorem pad_right_of_le (w : Nat) (s : Str) (h : w ≤ s.length) : pad_right w s = s := by
  simp [pad_right, Nat.sub_eq_zero_of_le h]

theorem field_at_append (a field rest : Str) (off : Nat) (h : a.length = off) :
    field_at (a ++ (field ++ rest)) off field := by
  unfold field_at
  rw [← h, List.drop_left]
  exact List.prefix_append _ _

/-- The three columns of a line that starts with the head of a record. -/
theorem record_head_columns (event key date rest fourth tail : Str)
    (he : event.length ≤ 7) (hk : key.length = 20) (hd : is_time_format_2 date = true)
    (hrest : rest = fourth ++ tail) :
    field_at (record_head event key date ++ rest) 8 key ∧
      field_at (record_head event key date ++ rest) 30 date ∧
      field_at (record_head event key date ++ rest) 51 fourth := by
  have hdl : date.length = 21 := matches_shape_length _ _ hd
  have h8 : (pad_right 8 event).length = 8 := pad_right_length 8 event (by omega)
  have h22 : (pad_right 22 key).length = 22 := pad_right_length 22 key (by omega)
  have hdate : pad_right 20 date = date := pad_right_of_le 20 date (by omega)
  subst hrest
  unfold record_head
  rw [hdate]
  refine ⟨?_, ?_, ?_⟩
  · have := field_at_append (pad_right 8 event) key
      (List.replicate (22 - key.length) ' ' ++ date ++ (fourth ++ tail)) 8 h8
    simpa [pad_right, List.append_assoc] using this
  · have := field_at_append (pad_right 8 event ++ pad_right 22 key) date (fourth ++ tail) 30
      (by simp [h8, h22])
    simpa [List.append_assoc] using this
  · have := field_at_append (pad_right 8 event ++ pad_right 22 key ++ date) fourth tail 51
      (by simp [h8, h22, hdl])
    simpa [List.append_assoc] using this


theorem appended_append (base line : Str) : appended base (some (base ++ line)) = line := by
  simp [appended]

/-- Every shape of record of `history_file_write` is the head, the fourth column and a tail. -/
theorem history_file_write_line (sys : HistSys) (ledger : Option Str) (event : Str)
    (type subtype log lastuptime : Option Str) (key date : Str)
    (hc : sys.creat_fails = false) (ha : sys.append_fails = false) :
    ∃ tail, (history_file_write sys ledger event type subtype log lastuptime key date).1 =
      some (ledger.getD (header_line (fmt_uptime sys.tm) ++ column_header) ++
        (record_head event key date ++ (fourth_column type log lastuptime ++ tail))) := by
  unfold history_file_write fourth_column
  cases log with
  | some lg =>
    exact ⟨' ' :: history_path lg ++ ['\n'], by cases ledger <;> simp [hc, ha]⟩
  | none =>
    cases type with
    | none => exact ⟨['\n'], by cases ledger <;> simp [hc, ha]⟩
    | some t =>
      cases lastuptime with
      | none =>
        exact ⟨List.replicate (16 - t.length) ' ' ++ ['\n'], by
          cases ledger <;> simp [hc, ha, pad_right]⟩
      | some u =>
        exact ⟨List.replicate (16 - t.length) ' ' ++ ' ' :: u ++ ['\n'], by
          cases ledger <;> simp [hc, ha, pad_right]⟩

/-- C12: every record line appended to the ledger by history_file_write (with a bundle path,
with a type only, with the last uptime only) or by uptime_history, for an event class of at
most 7 characters, a key of 20 characters and a timestamp of the shape
dddd-dd-dd/dd:dd:dd followed by two blanks, has its key at byte offset 8, its timestamp at
offset 30 and its type or uptime at offset 51; the labels ID, DATE and TYPE of the column
header stand at the offsets 8, 30 and 51. -/
theorem record_columns (sys : HistSys) (ledger : Option Str) (event : Str)
    (type subtype log lastuptime : Option Str) (key date : Str)
    (usys : UptimeSys) (content last : Str)
    (hc : sys.creat_fails = false) (ha : sys.append_fails = false)
    (he : event.length ≤ 7) (hk : key.length = 20) (hd : is_time_format_2 date = true)
    (hr : usys.fopen_r_fails = false) (hrw : usys.fopen_rw_fails = false)
    (hname : (scan_header content usys.name last).1 = CURRENT_UPTIME)
    (hud : is_time_format_2 usys.date_tmp = true) :
    ((history_file_write sys ledger event type subtype log lastuptime key date).1 =
        some (ledger.getD (header_line (fmt_uptime sys.tm) ++ column_header) ++
          appended (ledger.getD (header_line (fmt_uptime sys.tm) ++ column_header))
            (history_file_write sys ledger event type subtype log lastuptime key date).1) ∧
      field_at (appended (ledger.getD (header_line (fmt_uptime sys.tm) ++ column_header))
        (history_file_write sys ledger event type subtype log lastuptime key date).1) 8 key ∧
      field_at (appended (ledger.getD (header_line (fmt_uptime sys.tm) ++ column_header))
        (history_file_write sys ledger event type subtype log lastuptime key date).1) 30 date ∧
      field_at (appended (ledger.getD (header_line (fmt_uptime sys.tm) ++ column_header))
        (history_file_write sys ledger event type subtype log lastuptime key date).1) 51
        (fourth_column type log lastuptime)) ∧
    ((uptime_history usys last (some content)).1 =
        some (overwrite content (header_line "0000:00:00".toList) ++
          appended (overwrite content (header_line "0000:00:00".toList))
            (uptime_history usys last (some content)).1) ∧
      field_at (appended (overwrite content (header_line "0000:00:00".toList))
        (uptime_history usys last (some content)).1) 8 (List.replicate 20 '0') ∧
      field_at (appended (overwrite content (header_line "0000:00:00".toList))
        (uptime_history usys last (some content)).1) 30 usys.date_tmp ∧
      field_at (appended (overwrite content (header_line "0000:00:00".toList))
        (uptime_history usys last (some content)).1) 51
        (uptime_history usys last (some content)).2) ∧
    field_at column_header 8 "ID".toList ∧ field_at column_header 30 "DATE".toList ∧
      field_at column_header 51 "TYPE".toList := by
  refine ⟨?_, ?_, by decide, by decide, by decide⟩
  · obtain ⟨tail, h⟩ :=
      history_file_write_line sys ledger event type subtype log lastuptime key date hc ha
    rw [h, appended_append]
    exact ⟨rfl, record_head_columns event key date _ _ tail he hk hd rfl⟩
  · have hu : uptime_history usys last (some content) =
        (some (overwrite content (header_line "0000:00:00".toList) ++
          (record_head PER_UPTIME (List.replicate 20 '0') usys.date_tmp ++
            ((scan_header content usys.name last).2 ++ ['\n']))),
          (scan_header content usys.name last).2) := by
      simp [uptime_history, hr, hrw, hname, uptime_record, record_head, pad_right,
        List.append_assoc]
    rw [hu]
    simp only [appended_append]
    exact ⟨trivial, record_head_columns PER_UPTIME (List.replicate 20 '0') usys.date_tmp _ _
      ['\n'] (by decide) (by decide) hud rfl⟩

/-- Witness of C12: a crash record with a bundle path appended to a fresh ledger, and the
record of the last uptime that uptime_history appends to a fresh ledger. -/
theorem record_columns_witness :
    field_at (appended reset_history
        (history_file_write (HistSys.ok 0) (some reset_history) CRASHEVENT (some ANR_CRASH)
          none (some "/data/logs/crashlog7/".toList) none "0123456789abcdef0123".toList
          "2013-01-01/00:00:00  ".toList).1) 51 ANR_CRASH ∧
      (uptime_history ⟨false, false, [], "2013-01-01/00:00:00  ".toList⟩ []
          (some reset_history)).1 =
        some (reset_history ++
          "UPTIME  00000000000000000000  2013-01-01/00:00:00  0000:00:00\n".toList) ∧
      field_at "UPTIME  00000000000000000000  2013-01-01/00:00:00  0000:00:00\n".toList 51
        "0000:00:00".toList :=
  ⟨(record_columns (HistSys.ok 0) (some reset_history) CRASHEVENT (some ANR_CRASH) none
      (some "/data/logs/crashlog7/".toList) none "0123456789abcdef0123".toList
      "2013-01-01/00:00:00  ".toList ⟨false, false, [], "2013-01-01/00:00:00  ".toList⟩
      reset_history [] rfl rfl (by decide) (by decide) (by decide) rfl rfl (by decide)
      (by decide)).1.2.2.2,
    (record_columns (HistSys.ok 0) (some reset_history) CRASHEVENT (some ANR_CRASH) none
      (some "/data/logs/crashlog7/".toList) none "0123456789abcdef0123".toList
      "2013-01-01/00:00:00  ".toList ⟨false, false, [], "2013-01-01/00:00:00  ".toList⟩
      reset_history [] rfl rfl (by decide) (by decide) (by decide) rfl rfl (by decide)
      (by decide)).2.1.1,
    (record_columns (HistSys.ok 0) (some reset_history) CRASHEVENT (some ANR_CRASH) none
      (some "/data/logs/crashlog7/".toList) none "0123456789abcdef0123".toList
      "2013-01-01/00:00:00  ".toList ⟨false, false, [], "2013-01-01/00:00:00  ".toList⟩
      reset_history [] rfl rfl (by decide) (by decide) (by decide) rfl rfl (by decide)
      (by decide)).2.1.2.2.2⟩

theorem tdiv_twelve (x : Int) :
    Int.tdiv x 12 = if 0 ≤ x then x / 12 else -((-x) / 12) := by
  split
  · exact Int.tdiv_eq_ediv (by assumption) (by decide)
  · have h : Int.tdiv (-(-x)) 12 = -(Int.tdiv (-x) 12) := Int.neg_tdiv _ _
    rw [neg_neg] at h
    rw [h, Int.tdiv_eq_ediv (by omega) (by decide)]

theorem fdiv_twelve (x : Int) : Int.fdiv x 12 = x / 12 := Int.fdiv_eq_ediv x (by decide)

/-- A tick appends the record exactly when its window, as the code computes it, reaches the
counter the run started with and exceeds the window of every earlier tick. -/
theorem uptime_ticks_spec : ∀ (tms : List Int) (loop : Int) (i : Nat), i < tms.length →
    ((uptime_ticks loop tms).getD i false = true ↔
      loop ≤ Int.tdiv (uptime_hours (tms.getD i 0)) 12 ∧
        ∀ j, j < i → Int.tdiv (uptime_hours (tms.getD j 0)) 12 <
          Int.tdiv (uptime_hours (tms.getD i 0)) 12)
  | [], _, i, h => by simp at h
  | tm :: tms, loop, 0, _ => by
    simp only [uptime_ticks, uptime_event, UPTIME_HOUR_FREQUENCY, List.getD_cons_zero]
    split <;> simp [*]
  | tm :: tms, loop, i + 1, h => by
    have hi : i < tms.length := by simpa using h
    simp only [uptime_ticks, List.getD_cons_succ]
    rw [uptime_ticks_spec tms _ i hi]
    unfold uptime_event UPTIME_HOUR_FREQUENCY
    constructor
    · rintro ⟨h1, h2⟩
      split at h1
      · simp only at h1
        refine ⟨by omega, ?_⟩
        intro j hj
        cases j with
        | zero => simp only [List.getD_cons_zero]; omega
        | succ j => simp only [List.getD_cons_succ]; exact h2 j (by omega)
      · simp only at h1
        refine ⟨h1, ?_⟩
        intro j hj
        cases j with
        | zero => simp only [List.getD_cons_zero]; omega
        | succ j => simp only [List.getD_cons_succ]; exact h2 j (by omega)
    · rintro ⟨h1, h2⟩
      have h0 := h2 0 (by omega)
      simp only [List.getD_cons_zero] at h0
      refine ⟨?_, fun j hj => ?_⟩
      · split
        · simp only; omega
        · simp only; exact h1
      · have := h2 (j + 1) (by omega)
        simpa only [List.getD_cons_succ] using this

theorem window_ge_one (a : Int) : 1 ≤ Int.tdiv a 12 ↔ 1 ≤ Int.fdiv a 12 := by
  rw [tdiv_twelve, fdiv_twelve]
  split <;> omega

theorem window_ge_one_iff (a : Int) : 1 ≤ Int.tdiv a 12 ↔ 12 ≤ a := by
  rw [tdiv_twelve]
  split <;> omega

theorem window_lt (a b : Int) (h : 1 ≤ Int.tdiv a 12) :
    Int.tdiv b 12 < Int.tdiv a 12 ↔ Int.fdiv b 12 < Int.fdiv a 12 := by
  rw [tdiv_twelve] at h
  rw [tdiv_twelve, tdiv_twelve, fdiv_twelve, fdiv_twelve]
  split at h <;> split <;> omega

/-- Below 2^31 seconds of uptime the tick computes the whole hours of the uptime. -/
theorem uptime_hours_eq (tm : Int) (h0 : 0 ≤ tm) (h1 : tm < 2 ^ 31 * 1000000000) :
    uptime_hours tm = tm / 3600000000000 := by
  unfold uptime_hours
  have hs : Int.tdiv tm 1000000000 = tm / 1000000000 := Int.tdiv_eq_ediv h0 (by decide)
  have hs0 : 0 ≤ tm / 1000000000 := by omega
  have hs1 : tm / 1000000000 < 2 ^ 31 := by omega
  rw [hs, int32_of_lt _ hs0 hs1, Int.tdiv_eq_ediv hs0 (by decide),
    Int.tdiv_eq_ediv (by omega) (by decide)]
  omega

/-- C15: the uptime tick as a step on the counter loop_uptime_event, 1 at first.  For every
sequence of ticks, non-decreasing or not, the UPTIME record is appended at a tick if and
only if the window index of the tick, its hours divided by 12 and rounded down, is at least
1 and greater than the window index of every earlier tick; a tick that appends the record
has at least 12 hours of uptime, and two ticks that append it lie in different windows. -/
theorem uptime_record_windows (tms : List Int) (i : Nat) (hi : i < tms.length) :
    ((uptime_ticks 1 tms).getD i false = true ↔
      1 ≤ uptime_window (tms.getD i 0) ∧
        ∀ j, j < i → uptime_window (tms.getD j 0) < uptime_window (tms.getD i 0)) ∧
    ((uptime_ticks 1 tms).getD i false = true → 12 ≤ uptime_hours (tms.getD i 0)) ∧
    (∀ j, j < i → (uptime_ticks 1 tms).getD j false = true →
      (uptime_ticks 1 tms).getD i false = true →
      uptime_window (tms.getD j 0) ≠ uptime_window (tms.getD i 0)) := by
  have hspec := uptime_ticks_spec tms 1 i hi
  have hiff : (uptime_ticks 1 tms).getD i false = true ↔
      1 ≤ uptime_window (tms.getD i 0) ∧
        ∀ j, j < i → uptime_window (tms.getD j 0) < uptime_window (tms.getD i 0) := by
    rw [hspec]
    unfold uptime_window
    constructor
    · rintro ⟨h1, h2⟩
      exact ⟨(window_ge_one _).mp h1, fun j hj => (window_lt _ _ h1).mp (h2 j hj)⟩
    · rintro ⟨h1, h2⟩
      have h1t := (window_ge_one _).mpr h1
      exact ⟨h1t, fun j hj => (window_lt _ _ h1t).mpr (h2 j hj)⟩
  refine ⟨hiff, fun h => (window_ge_one_iff _).mp (hspec.mp h).1, fun j hj _ h => ?_⟩
  exact ne_of_lt ((hiff.mp h).2 j hj)

/-- Witness of C15: ticks at 11 h, 12 h, 13 h and 24 h of uptime; the record is appended at
the second and at the fourth. -/
theorem uptime_record_windows_witness :
    uptime_ticks 1 [39600000000000, 43200000000000, 46800000000000, 86400000000000] =
        [false, true, false, true] ∧
      12 ≤ uptime_hours 86400000000000 ∧
      uptime_window 43200000000000 ≠ uptime_window 86400000000000 :=
  ⟨by decide,
    (uptime_record_windows
      [39600000000000, 43200000000000, 46800000000000, 86400000000000] 3 (by decide)).2.1
      (by decide),
    (uptime_record_windows
      [39600000000000, 43200000000000, 46800000000000, 86400000000000] 3 (by decide)).2.2
      1 (by decide) (by decide) (by decide)⟩

theorem record_types_append (a b : List Effect) :
    record_types (a ++ b) = record_types a ++ record_types b := by
  simp [record_types, List.filterMap_append]

theorem record_types_backtrace (w : World) (dest : Str) (dir : Int) :
    record_types (backtrace_anr_uiwdt w dest dir).1 = [] := by
  unfold backtrace_anr_uiwdt process_anr_or_uiwdt
  simp only []
  repeat' split
  all_goals simp [record_types, List.filterMap_append]

theorem record_types_modem_reset (w : World) (e : wd_name) (name : Str) :
    record_types (branch_modem_reset w e name) = [(CRASHEVENT, some e.eventname)] := by
  unfold branch_modem_reset no_dir_record
  simp only []
  repeat' split
  all_goals simp [record_types]

theorem record_types_modem_crash (w : World) (e : wd_name) (name : Str) :
    record_types (branch_modem_crash w e name) = [(CRASHEVENT, some e.eventname)] := by
  unfold branch_modem_crash no_dir_record
  simp only []
  repeat' split
  all_goals simp [record_types]

theorem record_types_anr (w : World) (e : wd_name) (name : Str)
    (hf : (w.file (snp (e.filename ++ '/' :: name))).isSome = true) :
    record_types (branch_anr w e name) = [(CRASHEVENT, some e.eventname)] := by
  unfold branch_anr
  simp only [hf, if_true]
  split
  · simp [record_types]
  · rw [record_types_append, record_types_append, record_types_append,
      record_types_backtrace]
    simp [record_types]

theorem record_types_other (w : World) (e : wd_name) (name : Str)
    (hf : (w.file (snp (e.filename ++ '/' :: name))).isSome = true) :
    record_types (branch_other w e name) = [(CRASHEVENT, some e.eventname)] := by
  have hb : ∀ d dir, List.filterMap (fun x =>
      match x with
      | Effect.history_file_write event type _ _ _ => some (event, type)
      | _ => none) (backtrace_anr_uiwdt w d dir).1 = [] :=
    fun d dir => record_types_backtrace w d dir
  unfold branch_other no_dir_record
  simp only [hf, if_true]
  repeat' split
  all_goals simp [record_types, List.filterMap_append, hb]

/-- The body of the loop for an entry that is neither for the STATS nor for the aplog
triggers, a file name without `.lost` and a file that is still there: one CRASH record of
the type of the entry and `break` when the name contains the pattern of the entry, nothing
otherwise. -/
theorem classify_entry (w : World) (e : wd_name) (name : Str)
    (hA : e.eventname ≠ APLOGTRIGGER) (hS : e.eventname ≠ STATSTRIGGER)
    (hl : contains name ".lost".toList = false)
    (hf : (w.file (snp (e.filename ++ '/' :: name))).isSome = true) :
    (contains name e.cmp = true →
      record_types (classify w e name).1 = [(CRASHEVENT, some e.eventname)] ∧
        (classify w e name).2 = true) ∧
    (contains name e.cmp = false → classify w e name = ([], false)) := by
  constructor
  · intro hc
    unfold classify
    simp only [hc, hl, hA, hS, true_and, and_false, false_and, Bool.false_eq_true, if_false]
    split
    · exact ⟨record_types_modem_reset w e name, rfl⟩
    · split
      · exact ⟨record_types_modem_crash w e name, rfl⟩
      · split
        · exact ⟨record_types_anr w e name hf, rfl⟩
        · exact ⟨record_types_other w e name hf, rfl⟩
  · intro hc
    unfold classify
    simp [hc, hA, hS]

theorem dispatch_skip (w : World) (e : wd_name) (es : List wd_name) (wd : Int) (name : Str)
    (h : e.wd ≠ wd) : dispatch w (e :: es) wd name = dispatch w es wd name := by
  rw [dispatch]
  simp [Ne.symm h]

theorem dispatch_break (w : World) (e : wd_name) (es : List wd_name) (wd : Int) (name : Str)
    (hwd : e.wd = wd) (h : (classify w e name).2 = true) :
    dispatch w (e :: es) wd name = (classify w e name).1 := by
  rw [dispatch]
  simp [h, hwd]

theorem dispatch_pass (w : World) (e : wd_name) (es : List wd_name) (wd : Int) (name : Str)
    (hwd : e.wd = wd) (h : classify w e name = ([], false)) :
    dispatch w (e :: es) wd name = dispatch w es wd name := by
  rw [dispatch]
  simp [h, hwd]

theorem watch_table_eq (wds : Str → Int) :
    watch_table wds =
      [ ⟨wds "/data/logs/uptime".toList, IN_CLOSE_WRITE, CURRENT_UPTIME,
          "/data/logs/uptime".toList, []⟩,
        ⟨wds "/data/logs/modemcrash".toList, IN_CLOSE_WRITE ||| IN_DELETE_SELF ||| IN_MOVE_SELF,
          MODEM_CRASH, "/data/logs/modemcrash".toList, "mpanic.txt".toList⟩,
        ⟨wds "/data/logs/modemcrash".toList, IN_CLOSE_WRITE ||| IN_DELETE_SELF ||| IN_MOVE_SELF,
          AP_INI_M_RST, "/data/logs/modemcrash".toList, "apimr.txt".toList⟩,
        ⟨wds "/data/logs/modemcrash".toList, IN_CLOSE_WRITE ||| IN_DELETE_SELF ||| IN_MOVE_SELF,
          M_RST_WN_COREDUMP, "/data/logs/modemcrash".toList, "mreset.txt".toList⟩,
        ⟨wds DROPBOX_DIR, IN_MOVED_TO ||| IN_DELETE_SELF ||| IN_MOVE_SELF, SYSSERVER_WDT,
          DROPBOX_DIR, "system_server_watchdog".toList⟩,
        ⟨wds DROPBOX_DIR, IN_MOVED_TO ||| IN_DELETE_SELF ||| IN_MOVE_SELF, ANR_CRASH,
          DROPBOX_DIR, "anr".toList⟩,
        ⟨wds "/data/tombstones".toList, IN_CLOSE_WRITE ||| IN_DELETE_SELF ||| IN_MOVE_SELF,
          TOMB_CRASH, "/data/tombstones".toList, "tombstone".toList⟩,
        ⟨wds DROPBOX_DIR, IN_MOVED_TO ||| IN_DELETE_SELF ||| IN_MOVE_SELF, JAVA_CRASH,
          DROPBOX_DIR, "crash".toList⟩,
        ⟨wds "/data/logs/core".toList, IN_CLOSE_WRITE ||| IN_DELETE_SELF ||| IN_MOVE_SELF,
          AP_COREDUMP, "/data/logs/core".toList, ".core".toList⟩,
        ⟨wds DROPBOX_DIR, IN_MOVED_TO ||| IN_CLOSE_WRITE ||| IN_DELETE_SELF ||| IN_MOVE_SELF,
          LOST, DROPBOX_DIR, ".lost".toList⟩,
        ⟨wds "/data/logs/stats".toList, IN_CLOSE_WRITE ||| IN_DELETE_SELF ||| IN_MOVE_SELF,
          STATSTRIGGER, "/data/logs/stats".toList, "_trigger".toList⟩,
        ⟨wds "/data/logs/aplogs".toList, IN_CLOSE_WRITE ||| IN_DELETE_SELF ||| IN_MOVE_SELF,
          APLOGTRIGGER, "/data/logs/aplogs".toList, "_trigger".toList⟩ ] :=
  rfl

/-- C19: for every file notified in the dropbox directory whose name does not contain .lost
and that is still there when the classifier looks at it, the loop over the watch table, in
which the four dropbox entries share one watch descriptor that no other entry has, records
exactly one CRASH event of type UIWDT if the name contains system_server_watchdog, otherwise
of type ANR if it contains anr, otherwise of type JAVACRASH if it contains crash, and no
event otherwise. -/
theorem dropbox_dispatch (w : World) (wds : Str → Int) (name : Str)
    (hw : ∀ e ∈ wd_array, e.filename ≠ DROPBOX_DIR → wds e.filename ≠ wds DROPBOX_DIR)
    (hl : contains name ".lost".toList = false)
    (hf : (w.file (snp (DROPBOX_DIR ++ '/' :: name))).isSome = true) :
    record_types (dispatch w (watch_table wds) (wds DROPBOX_DIR) name) =
      match dropbox_type name with
      | some type => [(CRASHEVENT, some type)]
      | none => [] := by
  have h0 := hw ⟨0, IN_CLOSE_WRITE, CURRENT_UPTIME, "/data/logs/uptime".toList, []⟩
    (by simp [wd_array]) (by decide)
  have h1 := hw ⟨0, IN_CLOSE_WRITE ||| IN_DELETE_SELF ||| IN_MOVE_SELF, MODEM_CRASH,
    "/data/logs/modemcrash".toList, "mpanic.txt".toList⟩ (by simp [wd_array]) (by decide)
  have h6 := hw ⟨0, IN_CLOSE_WRITE ||| IN_DELETE_SELF ||| IN_MOVE_SELF, TOMB_CRASH,
    "/data/tombstones".toList, "tombstone".toList⟩ (by simp [wd_array]) (by decide)
  have h8 := hw ⟨0, IN_CLOSE_WRITE ||| IN_DELETE_SELF ||| IN_MOVE_SELF, AP_COREDUMP,
    "/data/logs/core".toList, ".core".toList⟩ (by simp [wd_array]) (by decide)
  have h10 := hw ⟨0, IN_CLOSE_WRITE ||| IN_DELETE_SELF ||| IN_MOVE_SELF, STATSTRIGGER,
    "/data/logs/stats".toList, "_trigger".toList⟩ (by simp [wd_array]) (by decide)
  have h11 := hw ⟨0, IN_CLOSE_WRITE ||| IN_DELETE_SELF ||| IN_MOVE_SELF, APLOGTRIGGER,
    "/data/logs/aplogs".toList, "_trigger".toList⟩ (by simp [wd_array]) (by decide)
  have e4 := classify_entry w ⟨wds DROPBOX_DIR, IN_MOVED_TO ||| IN_DELETE_SELF ||| IN_MOVE_SELF,
    SYSSERVER_WDT, DROPBOX_DIR, "system_server_watchdog".toList⟩ name
    (show SYSSERVER_WDT ≠ APLOGTRIGGER by decide) (show SYSSERVER_WDT ≠ STATSTRIGGER by decide)
    hl hf
  have e5 := classify_entry w ⟨wds DROPBOX_DIR, IN_MOVED_TO ||| IN_DELETE_SELF ||| IN_MOVE_SELF,
    ANR_CRASH, DROPBOX_DIR, "anr".toList⟩ name
    (show ANR_CRASH ≠ APLOGTRIGGER by decide) (show ANR_CRASH ≠ STATSTRIGGER by decide) hl hf
  have e7 := classify_entry w ⟨wds DROPBOX_DIR, IN_MOVED_TO ||| IN_DELETE_SELF ||| IN_MOVE_SELF,
    JAVA_CRASH, DROPBOX_DIR, "crash".toList⟩ name
    (show JAVA_CRASH ≠ APLOGTRIGGER by decide) (show JAVA_CRASH ≠ STATSTRIGGER by decide) hl hf
  have e9 := classify_entry w ⟨wds DROPBOX_DIR,
    IN_MOVED_TO ||| IN_CLOSE_WRITE ||| IN_DELETE_SELF ||| IN_MOVE_SELF,
    LOST, DROPBOX_DIR, ".lost".toList⟩ name
    (show LOST ≠ APLOGTRIGGER by decide) (show LOST ≠ STATSTRIGGER by decide) hl hf
  simp only [] at e4 e5 e7 e9
  rw [watch_table_eq]
  rw [dispatch_skip _ _ _ _ _ h0, dispatch_skip _ _ _ _ _ h1, dispatch_skip _ _ _ _ _ h1,
    dispatch_skip _ _ _ _ _ h1]
  unfold dropbox_type
  cases c4 : contains name "system_server_watchdog".toList with
  | true =>
    rw [dispatch_break w _ _ (wds DROPBOX_DIR) name rfl (e4.1 c4).2]
    exact (e4.1 c4).1
  | false =>
    rw [dispatch_pass w _ _ (wds DROPBOX_DIR) name rfl (e4.2 c4)]
    cases c5 : contains name "anr".toList with
    | true =>
      rw [dispatch_break w _ _ (wds DROPBOX_DIR) name rfl (e5.1 c5).2]
      exact (e5.1 c5).1
    | false =>
      rw [dispatch_pass w _ _ (wds DROPBOX_DIR) name rfl (e5.2 c5), dispatch_skip _ _ _ _ _ h6]
      cases c7 : contains name "crash".toList with
      | true =>
        rw [dispatch_break w _ _ (wds DROPBOX_DIR) name rfl (e7.1 c7).2]
        exact (e7.1 c7).1
      | false =>
        rw [dispatch_pass w _ _ (wds DROPBOX_DIR) name rfl (e7.2 c7), dispatch_skip _ _ _ _ _ h8,
          dispatch_pass w _ _ (wds DROPBOX_DIR) name rfl (e9.2 hl), dispatch_skip _ _ _ _ _ h10,
          dispatch_skip _ _ _ _ _ h11]
        rfl

/-- Witness of C19: the report system_app_anr@1357.txt moved into the dropbox is recorded
as one CRASH event of type ANR. -/
theorem dropbox_dispatch_witness :
    record_types (dispatch anr_world (watch_table sample_wds) (sample_wds DROPBOX_DIR)
        "system_app_anr@1357.txt".toList) = [(CRASHEVENT, some ANR_CRASH)] :=
  dropbox_dispatch anr_world sample_wds "system_app_anr@1357.txt".toList (by decide)
    (by decide) (by decide)

theorem text_lines_head (cs : Str) : ∀ cur : Str, cur ≠ [] →
    ∃ l ∈ text_lines cs cur, cur.length ≤ l.length := by
  induction cs with
  | nil =>
    intro cur hc
    refine ⟨cur, ?_, le_refl _⟩
    simp [text_lines, hc]
  | cons c cs ih =>
    intro cur hc
    unfold text_lines
    split
    · exact ⟨cur ++ [c], by simp, by simp⟩
    · obtain ⟨l, hl, hlen⟩ := ih (cur ++ [c]) (by simp)
      exact ⟨l, hl, by simp at hlen; omega⟩

/-- On a text whose lines, newline included, are shorter than the buffer of `fgets` allows,
the results of `fgets` are the lines of the text. -/
theorem fgets_all_eq_text_lines (size : Nat) (cs : Str) : ∀ cur : Str,
    (∀ l ∈ text_lines cs cur, l.length < size - 1) →
    fgets_all size cs cur = text_lines cs cur := by
  induction cs with
  | nil => intro cur _; rfl
  | cons c cs ih =>
    intro cur h
    unfold fgets_all text_lines
    unfold text_lines at h
    by_cases hc : c = '\n'
    · simp only [hc, true_or, if_true] at h ⊢
      rw [ih [] (fun l hl => h l (List.mem_cons_of_mem _ hl))]
    · simp only [hc, if_false, false_or] at h ⊢
      obtain ⟨l, hl, hlen⟩ := text_lines_head cs (cur ++ [c]) (by simp)
      have := h l hl
      have hne : ¬ cur.length + 1 = size - 1 := by
        simp at hlen
        omega
      simp only [hne, if_false]
      exact ih (cur ++ [c]) h

theorem isPrefixOf_append_char (c : Char) : ∀ (kw l : Str), c ∉ kw →
    kw.isPrefixOf (l ++ [c]) = kw.isPrefixOf l
  | [], l, _ => by simp
  | a :: as, [], h => by
    have : a ≠ c := fun e => h (by simp [e])
    simp [List.isPrefixOf, this]
  | a :: as, x :: xs, h => by
    have ih := isPrefixOf_append_char c as xs (fun m => h (List.mem_cons_of_mem _ m))
    simp only [List.cons_append, List.append_eq, List.isPrefixOf, ih]

theorem contains_append_char (c : Char) (kw : Str) (hc : c ∉ kw) (hne : kw ≠ []) :
    ∀ l : Str, contains (l ++ [c]) kw = contains l kw := by
  intro l
  induction l with
  | nil =>
    cases kw with
    | nil => exact absurd rfl hne
    | cons a as =>
      have : a ≠ c := fun e => hc (by simp [e])
      simp [contains, strstr, List.isPrefixOf, this]
  | cons x xs ih =>
    have hp := isPrefixOf_append_char c kw (x :: xs) hc
    simp only [List.cons_append] at hp
    unfold contains at ih ⊢
    show (strstr (x :: (xs ++ [c])) kw).isSome = (strstr (x :: xs) kw).isSome
    simp only [strstr, hp]
    split
    · rfl
    · exact ih

theorem eq_dropLast_append (l : Str) (c : Char) (h : l.getLast? = some c) :
    l = l.dropLast ++ [c] := by
  exact (List.dropLast_append_getLast? c (by simp [h])).symm

theorem contains_strip_nl (kw : Str) (hc : '\n' ∉ kw) (hne : kw ≠ []) (l : Str) :
    contains (strip_nl l) kw = contains l kw := by
  unfold strip_nl
  split
  · rename_i h
    nth_rewrite 2 [eq_dropLast_append l '\n' h]
    rw [contains_append_char '\n' kw hc hne]
  · rfl

/-- The test of `find_str_in_file` on the tail: the tail stands right before the last
character of the line. -/
theorem tail_test_iff (b t : Str) (ht : t ≠ []) :
    (decide (b.length > t.length) &&
      decide ((b.drop (b.length - t.length - 1)).take t.length = t)) =
      decide (t <:+ b.dropLast) := by
  rw [Bool.eq_iff_iff]
  simp only [Bool.and_eq_true, decide_eq_true_eq]
  rw [List.dropLast_eq_take]
  constructor
  · rintro ⟨hlen, heq⟩
    refine ⟨b.take (b.length - t.length - 1), ?_⟩
    nth_rewrite 2 [← heq]
    rw [← List.take_add]
    congr 1
    omega
  · intro hs
    have hlen := hs.length_le
    have htl : 0 < t.length := List.length_pos.mpr ht
    simp only [List.length_take] at hlen
    have hb : t.length < b.length := by omega
    refine ⟨hb, ?_⟩
    obtain ⟨p, hp⟩ := hs
    have hpl : p.length = b.length - t.length - 1 := by
      have := congrArg List.length hp
      simp only [List.length_append, List.length_take] at this
      omega
    have h1 : (b.take (b.length - 1)).drop (b.length - t.length - 1) = t := by
      rw [← hp, ← hpl, List.drop_left]
    rw [List.drop_take] at h1
    have hk : b.length - 1 - (b.length - t.length - 1) = t.length := by omega
    rw [hk] at h1
    exact h1

/-- Two tests that agree on the entries of a table find the same entry. -/
theorem find_agree {β : Type} (table : List β) (f g : β → Bool)
    (hfg : ∀ b, b ∈ table → f b = g b) : List.find? f table = List.find? g table := by
  induction table with
  | nil => rfl
  | cons b rest ih =>
    have hb := hfg b (List.mem_cons_self b rest)
    have hrest := ih fun c hc => hfg c (List.mem_cons_of_mem b hc)
    rw [List.find?_cons, List.find?_cons, hb, hrest]

/-- Two tests that agree on the lines of a text hold of some line together. -/
theorem any_agree {β : Type} (lines : List β) (f g : β → Bool)
    (hfg : ∀ b, b ∈ lines → f b = g b) : List.any lines f = List.any lines g := by
  induction lines with
  | nil => rfl
  | cons b rest ih =>
    have hb := hfg b (List.mem_cons_self b rest)
    have hrest := ih fun c hc => hfg c (List.mem_cons_of_mem b hc)
    rw [List.any_cons, List.any_cons, hb, hrest]

/-- The result of `find_str_in_file` with a tail, on a file that can be read. -/
theorem find_str_in_file_tail (text kw t : Str) (ht : t ≠ []) :
    decide (find_str_in_file (some text) (some kw) (some t) = 0) =
      (fgets_all 4096 text []).any fun l => contains l kw && decide (t <:+ l.dropLast) := by
  have hany := any_agree (fgets_all 4096 text [])
    (fun l : Str => contains l kw &&
      (decide (l.length > t.length) &&
        decide ((l.drop (l.length - t.length - 1)).take t.length = t)))
    (fun l => contains l kw && decide (t <:+ l.dropLast))
    (fun l _ => by simp only [tail_test_iff l t ht])
  unfold find_str_in_file
  simp only []
  cases hq : (fgets_all 4096 text []).any fun l =>
      contains l kw && decide (t <:+ l.dropLast) with
  | false => simp [hany.trans hq]
  | true => simp [hany.trans hq]

/-- The result of `find_str_in_file` without tail, on a file that can be read. -/
theorem find_str_in_file_keyword (text kw : Str) :
    (find_str_in_file (some text) (some kw) none = 0) ↔
      ((fgets_all 4096 text []).any fun l => contains l kw) = true := by
  unfold find_str_in_file
  simp only [Bool.and_true]
  cases (fgets_all 4096 text []).any fun l => contains l kw <;> simp

/-- C16 as stated fails: a buffer whose only line, DW0: 0000f501, has no newline ends with
the tail of the first entry, yet the recorded type is FABRICERR and not MEMERR, because the
tail is compared with the four characters before the last one. -/
theorem fabric_type_counterexample :
    spec_fabric_type "DW0: 0000f501".toList = "MEMERR".toList ∧
      record_types (crashlog_check_fabric (fabric_world "DW0: 0000f501".toList)) =
        [(CRASHEVENT, some FABRIC_ERROR)] := by
  decide

/-- C16, amended: for every fabric-error buffer for which a bundle is allocated, the
recorded type is the name of the first entry, in table order, for which some line, as fgets
reads it into its buffer of 4096 bytes, contains DW0: and has the tail of the entry right
before its last character, and it is FABRICERR when no entry matches.  When every line of
the buffer ends with a newline and is shorter than 4095 bytes, that is the first entry for
which some line contains DW0: and ends with the tail, the line terminator aside. -/
theorem fabric_type (w : World) (buffer : Str)
    (htrig : (w.file PROC_FABRIC_ERROR_NAME).isSome = true ∨ w.test_flag = true)
    (hdir : w.find_dir 0 ≠ -1)
    (hcopy : w.bundle_file (snp (w.CRASH_DIR ++ fmt_d (w.find_dir 0) ++
      '/' :: FABRIC_ERROR_NAME ++ '_' :: w.date_tmp ++ ".txt".toList)) = some buffer) :
    record_types (crashlog_check_fabric w) =
        [(CRASHEVENT, some (fabric_type_of (fgets_all 4096 buffer [])))] ∧
      ((∀ l ∈ text_lines buffer [], l.length < 4095 ∧ l.getLast? = some '\n') →
        fabric_type_of (fgets_all 4096 buffer []) = spec_fabric_type buffer) := by
  constructor
  · have hfind : (ft_array.find? fun ft =>
          decide (find_str_in_file (some buffer) (some ft.1) (some ft.2.1) = 0)) =
        ft_array.find? fun ft =>
          (fgets_all 4096 buffer []).any fun l =>
            contains l ft.1 && decide (ft.2.1 <:+ l.dropLast) := by
      apply find_agree
      intro ft hft
      simp only [ft_array, List.mem_cons, List.mem_singleton, List.not_mem_nil, or_false] at hft
      rcases hft with h | h | h | h <;> subst h <;>
        exact find_str_in_file_tail buffer _ _ (by decide)
    unfold crashlog_check_fabric
    simp only [htrig, hdir, hcopy, if_true, if_false, hfind]
    unfold fabric_type_of
    simp [record_types]
  · intro h
    rw [fgets_all_eq_text_lines 4096 buffer [] (fun l hl => (h l hl).1)]
    unfold fabric_type_of spec_fabric_type
    congr 1
    apply find_agree
    intro ft hft
    apply any_agree
    intro l hl
    have hs : strip_nl l = l.dropLast := by
      unfold strip_nl
      rw [if_pos (h l hl).2]
    simp only [ft_array, List.mem_cons, List.mem_singleton, List.not_mem_nil, or_false] at hft
    rw [hs]
    rw [← hs, contains_strip_nl ft.1 (by rcases hft with h | h | h | h <;> subst h <;> decide)
      (by rcases hft with h | h | h | h <;> subst h <;> decide) l, hs]

/-- Witness of the amended C16: a buffer of two terminated lines, the second with the tail
of the second entry. -/
theorem fabric_type_witness :
    record_types (crashlog_check_fabric (fabric_world "header\nDW0: 0000f502\n".toList)) =
        [(CRASHEVENT, some "INSTERR".toList)] ∧
      spec_fabric_type "header\nDW0: 0000f502\n".toList = "INSTERR".toList :=
  ⟨(fabric_type (fabric_world "header\nDW0: 0000f502\n".toList)
      "header\nDW0: 0000f502\n".toList (by decide) (by decide) rfl).1,
    ((fabric_type (fabric_world "header\nDW0: 0000f502\n".toList)
      "header\nDW0: 0000f502\n".toList (by decide) (by decide) rfl).2 (by decide)).symm.trans
      (by decide)⟩

theorem fgets_all_append (size : Nat) (rest : Str) : ∀ (a cur : Str), '\n' ∉ a →
    cur.length + a.length < size - 1 →
    fgets_all size (a ++ rest) cur = fgets_all size rest (cur ++ a)
  | [], cur, _, _ => by simp
  | c :: a, cur, hnl, hlen => by
    have hc : c ≠ '\n' := fun e => hnl (by simp [e])
    have hl : ¬ cur.length + 1 = size - 1 := by
      simp only [List.length_cons] at hlen
      omega
    rw [List.cons_append, fgets_all]
    simp only [hc, hl, or_self, if_false]
    rw [fgets_all_append size rest a (cur ++ [c]) (fun m => hnl (List.mem_cons_of_mem _ m))
      (by simp only [List.length_append, List.length_cons, List.length_nil] at hlen ⊢; omega)]
    simp

theorem text_lines_append (rest : Str) : ∀ (a cur : Str), '\n' ∉ a →
    text_lines (a ++ rest) cur = text_lines rest (cur ++ a)
  | [], cur, _ => by simp
  | c :: a, cur, hnl => by
    have hc : c ≠ '\n' := fun e => hnl (by simp [e])
    rw [List.cons_append, text_lines]
    simp only [hc, if_false]
    rw [text_lines_append rest a (cur ++ [c]) (fun m => hnl (List.mem_cons_of_mem _ m))]
    simp

theorem contains_replicate (c a : Char) (as s : Str) (h : a ≠ c) : ∀ n : Nat,
    contains (List.replicate n c ++ s) (a :: as) = contains s (a :: as)
  | 0 => by simp
  | n + 1 => by
    have ih := contains_replicate c a as s h n
    unfold contains at ih ⊢
    rw [List.replicate_succ, List.cons_append, strstr]
    simp only [List.isPrefixOf, beq_iff_eq, h, false_and, Bool.false_eq_true, if_false,
      Bool.and_eq_true]
    exact ih

theorem not_mem_replicate_append (c x : Char) (n : Nat) (s : Str) (hx : c ≠ x) (hs : c ∉ s) :
    c ∉ List.replicate n x ++ s := by
  intro h
  rcases List.mem_append.mp h with h | h
  · exact hx (List.eq_of_mem_replicate h)
  · exact hs h

/-- The results of `fgets` on the long console: the first holds 4095 bytes. -/
theorem fgets_all_long_console :
    fgets_all 4096 long_console [] =
      [List.replicate 4090 'x' ++ "Kerne".toList,
        "l panic - not syncing: Kernel Watchdog\n".toList] := by
  have h : long_console = (List.replicate 4090 'x' ++ "Kern".toList) ++
      ('e' :: "l panic - not syncing: Kernel Watchdog\n".toList) := by
    unfold long_console
    rw [List.append_assoc]
    rfl
  rw [h, fgets_all_append 4096 _ _ []
    (not_mem_replicate_append _ _ _ _ (by decide) (by decide))
    (by rw [List.length_nil, List.length_append, List.length_replicate]; decide)]
  rw [List.nil_append, fgets_all]
  have hlen : (List.replicate 4090 'x' ++ "Kern".toList).length + 1 = 4096 - 1 := by
    rw [List.length_append, List.length_replicate]
    decide
  simp only [hlen, or_true, if_true]
  rw [List.append_assoc]
  refine congrArg₂ List.cons rfl ?_
  decide

/-- The record of `crashlog_check_panic` when a bundle is allocated: the type is chosen over
the results of `fgets` on the saved console. -/
theorem panic_record (w : World) (console : Str)
    (htrig : (w.file PANIC_CONSOLE_NAME).isSome = true ∨ w.test_flag = true)
    (hdir : w.find_dir 0 ≠ -1) (hfile : w.file SAVED_CONSOLE_NAME = some console) :
    record_types (crashlog_check_panic w) =
      [(CRASHEVENT, some (panic_type_of (fgets_all 4096 console [])))] := by
  unfold crashlog_check_panic panic_type_of
  simp only [htrig, hdir, hfile, find_str_in_file_keyword, if_true, if_false]
  simp [record_types]

/-- The long console is one line, which contains the watchdog message. -/
theorem long_console_line :
    text_lines long_console [] = [long_console] ∧
      contains (strip_nl long_console)
        "Kernel panic - not syncing: Kernel Watchdog".toList = true := by
  have h : long_console = (List.replicate 4090 'x' ++
      "Kernel panic - not syncing: Kernel Watchdog".toList) ++ ['\n'] := by
    unfold long_console
    rw [List.append_assoc]
    rfl
  have hc := contains_replicate 'x' 'K' "ernel panic - not syncing: Kernel Watchdog".toList
    "Kernel panic - not syncing: Kernel Watchdog".toList (by decide) 4090
  have hnl : '\n' ∉ List.replicate 4090 'x' ++
      "Kernel panic - not syncing: Kernel Watchdog".toList :=
    not_mem_replicate_append _ _ _ _ (by decide) (by decide)
  rw [h]
  generalize List.replicate 4090 'x' ++
    "Kernel panic - not syncing: Kernel Watchdog".toList = line at hc hnl ⊢
  constructor
  · rw [text_lines_append _ _ _ hnl]
    simp [text_lines]
  · have hs : strip_nl (line ++ ['\n']) = line := by simp [strip_nl]
    rw [hs]
    exact hc.trans (by decide)

/-- C17 as stated fails: in a console of one line of 4134 bytes the watchdog message starts
at byte 4090, so that fgets, which reads at most 4095 bytes at a time, cuts it; the line
contains the message, the spec gives the type IPANIC_FORCED, yet the recorded type is
IPANIC. -/
theorem panic_type_counterexample :
    text_lines long_console [] = [long_console] ∧
      contains (strip_nl long_console)
        "Kernel panic - not syncing: Kernel Watchdog".toList = true ∧
      spec_panic_type long_console = KERNEL_FORCE_CRASH ∧
      record_types (crashlog_check_panic (panic_world long_console)) =
        [(CRASHEVENT, some KERNEL_CRASH)] := by
  refine ⟨long_console_line.1, long_console_line.2, ?_, ?_⟩
  · unfold spec_panic_type
    rw [long_console_line.1]
    simp only [List.any_cons, List.any_nil, Bool.or_false, long_console_line.2, if_true]
  · rw [panic_record (panic_world long_console) long_console (Or.inl rfl)
      (show (7 : Int) ≠ -1 by decide) rfl, fgets_all_long_console]
    have h1 := contains_replicate 'x' 'K' "ernel panic - not syncing: Kernel Watchdog".toList
      "Kerne".toList (by decide) 4090
    have h2 := contains_replicate 'x' 'E' "IP is at panic_dbg_set".toList
      "Kerne".toList (by decide) 4090
    unfold panic_type_of
    simp only [List.any_cons, List.any_nil, Bool.or_false]
    rw [show "Kernel panic - not syncing: Kernel Watchdog".toList =
        'K' :: "ernel panic - not syncing: Kernel Watchdog".toList from rfl,
      show "EIP is at panic_dbg_set".toList = 'E' :: "IP is at panic_dbg_set".toList from rfl,
      h1, h2]
    decide

/-- C17, amended: for every saved panic console for which a bundle is allocated,
crashlog_check_panic records the type IPANIC_FORCED if some line, as fgets reads it into its
buffer of 4096 bytes, contains the watchdog message, otherwise IPANIC_FAKE if some such line
contains the debug message, otherwise IPANIC.  When every line of the console, its newline
included, is shorter than 4095 bytes, these are the lines of the console: the type is as
the spec gives it, IPANIC_FORCED also when both messages are present. -/
theorem panic_type (w : World) (console : Str)
    (htrig : (w.file PANIC_CONSOLE_NAME).isSome = true ∨ w.test_flag = true)
    (hdir : w.find_dir 0 ≠ -1) (hfile : w.file SAVED_CONSOLE_NAME = some console) :
    record_types (crashlog_check_panic w) =
        [(CRASHEVENT, some (panic_type_of (fgets_all 4096 console [])))] ∧
      ((∀ l ∈ text_lines console [], l.length < 4095) →
        panic_type_of (fgets_all 4096 console []) = spec_panic_type console) := by
  refine ⟨panic_record w console htrig hdir hfile, fun h => ?_⟩
  rw [fgets_all_eq_text_lines 4096 console [] h]
  unfold panic_type_of spec_panic_type
  rw [any_agree _
      (fun l => contains (strip_nl l) "Kernel panic - not syncing: Kernel Watchdog".toList)
      (fun l => contains l "Kernel panic - not syncing: Kernel Watchdog".toList)
      (fun l _ => contains_strip_nl _ (by decide) (by decide) l),
    any_agree _ (fun l => contains (strip_nl l) "EIP is at panic_dbg_set".toList)
      (fun l => contains l "EIP is at panic_dbg_set".toList)
      (fun l _ => contains_strip_nl _ (by decide) (by decide) l)]

/-- Witness of the amended C17: a console that holds both messages. -/
theorem panic_type_witness :
    record_types (crashlog_check_panic (panic_world
        "EIP is at panic_dbg_set\nKernel panic - not syncing: Kernel Watchdog\n".toList)) =
        [(CRASHEVENT, some KERNEL_FORCE_CRASH)] ∧
      spec_panic_type
        "EIP is at panic_dbg_set\nKernel panic - not syncing: Kernel Watchdog\n".toList =
        KERNEL_FORCE_CRASH :=
  ⟨(panic_type (panic_world
      "EIP is at panic_dbg_set\nKernel panic - not syncing: Kernel Watchdog\n".toList)
      "EIP is at panic_dbg_set\nKernel panic - not syncing: Kernel Watchdog\n".toList
      (by decide) (by decide) rfl).1.trans (by decide),
    ((panic_type (panic_world
      "EIP is at panic_dbg_set\nKernel panic - not syncing: Kernel Watchdog\n".toList)
      "EIP is at panic_dbg_set\nKernel panic - not syncing: Kernel Watchdog\n".toList
      (by decide) (by decide) rfl).2 (by decide)).symm.trans (by decide)⟩

theorem copy_reason_eq (indet : Int) (tail : Str)
    (hn : (atoi indet tail % 2 ^ 32).toNat ≠ 1) :
    copy_reason 16 indet tail "UNKNOWN".toList =
      some (startup_symbol (some (atoi indet tail % 2 ^ 32).toNat)) := by
  unfold copy_reason startup_symbol
  generalize (atoi indet tail % 2 ^ 32).toNat = n at hn
  have hlen : bootmode_reason.length = 10 := rfl
  simp only [hlen]
  by_cases h : n < 10
  · simp only [h, if_true]
    interval_cases n
    all_goals first | exact absurd rfl hn | decide
  · simp only [h, if_false]

/-- For the number 1 the copy of the table entry, 16 characters and the terminator, goes
past the end of the 16 bytes of the buffer in `main`. -/
theorem copy_reason_overflow (indet : Int) (tail current : Str)
    (hn : (atoi indet tail % 2 ^ 32).toNat = 1) :
    copy_reason 16 indet tail current = none := by
  unfold copy_reason
  simp only [hn]
  rw [if_pos (by decide)]
  decide

/-- The records of `crashlog_check_startupreason`: one WDT crash when the reason contains
`WDT_RESET`, nothing otherwise. -/
theorem startupreason_records (w : World) (reason : Str) :
    record_types (crashlog_check_startupreason w reason) =
      if contains reason "WDT_RESET".toList = true then [(CRASHEVENT, some "WDT".toList)]
      else [] := by
  unfold crashlog_check_startupreason
  simp only []
  repeat' split
  all_goals simp [record_types]

/-- The entries 8 and 9 of the table are the entries that contain `WDT_RESET`. -/
theorem symbol_wdt (number : Option Nat) :
    contains (startup_symbol number) "WDT_RESET".toList = true ↔
      number = some 8 ∨ number = some 9 := by
  cases number with
  | none => decide
  | some n =>
    by_cases h : n < 10
    · interval_cases n <;> decide
    · have hs : startup_symbol (some n) = "UNKNOWN".toList := by
        unfold startup_symbol
        simp only [h, if_false]
      rw [hs]
      constructor
      · intro hc
        exact absurd hc (by decide)
      · intro hc
        simp only [Option.some.injEq] at hc
        omega

set_option maxRecDepth 100000 in
/-- C18 as stated fails: on a command line in which androidboot.wakesrc=8 follows 511
blanks the key lies outside the 511 bytes that are read, so the startup reason is UNKNOWN,
not SWWDT_RESET, and no WDT crash is recorded although n is 8. -/
theorem read_startupreason_counterexample :
    spec_startupreason long_cmdline = "SWWDT_RESET".toList ∧
      read_startupreason 16 ⟨some long_cmdline, false, 0⟩ = some "UNKNOWN".toList ∧
      crashlog_check_startupreason anr_world "UNKNOWN".toList = [] := by
  decide

/-- C18, amended: for every kernel command line that can be read, with n the number atoi
gives for the text after the first androidboot.wakesrc= within the first 511 bytes (or, only
when that key is not there, after the first androidboot.mode=), converted to unsigned, and
n other than 1, read_startupreason yields the entry n of the table when n is below 10 and
UNKNOWN when neither key is there or n is 10 or more; crashlog_check_startupreason then
records a WDT crash if and only if n is 8 or 9, and nothing otherwise. -/
theorem read_startupreason_table (sys : CmdlineSys) (text : Str) (w : World)
    (hcmd : sys.cmdline = some text) (hopen : sys.fopen_fails = false)
    (hn : startup_number sys.indet text ≠ some 1) :
    read_startupreason 16 sys = some (startup_symbol (startup_number sys.indet text)) ∧
      record_types
          (crashlog_check_startupreason w (startup_symbol (startup_number sys.indet text))) =
        if startup_number sys.indet text = some 8 ∨ startup_number sys.indet text = some 9
        then [(CRASHEVENT, some "WDT".toList)] else [] := by
  constructor
  · unfold read_startupreason
    unfold startup_number at hn ⊢
    have h7 : strcpy_into 16 (bootmode_reason.getD 7 []) = some "UNKNOWN".toList := by decide
    simp only [h7, hcmd, hopen, Bool.false_eq_true, if_false]
    cases h1 : strstr (text.take 511) STARTUP_STR with
    | some p =>
      simp only [h1] at hn ⊢
      exact copy_reason_eq _ _ (fun h => hn (by rw [h]))
    | none =>
      simp only [h1] at hn ⊢
      cases h2 : strstr (text.take 511) STARTUP_STR_OLD with
      | some p =>
        simp only [h2] at hn ⊢
        exact copy_reason_eq _ _ (fun h => hn (by rw [h]))
      | none => rfl
  · rw [startupreason_records]
    by_cases h : startup_number sys.indet text = some 8 ∨ startup_number sys.indet text = some 9
    · rw [if_pos ((symbol_wdt _).mpr h), if_pos h]
    · rw [if_neg (fun hc => h ((symbol_wdt _).mp hc)), if_neg h]

/-- Witness of the amended C18: a command line with the wake source 8. -/
theorem read_startupreason_table_witness :
    read_startupreason 16
        ⟨some "console=ttyS0 androidboot.wakesrc=8 quiet\n".toList, false, 0⟩ =
        some "SWWDT_RESET".toList ∧
      record_types (crashlog_check_startupreason anr_world "SWWDT_RESET".toList) =
        [(CRASHEVENT, some "WDT".toList)] :=
  ⟨(read_startupreason_table
      ⟨some "console=ttyS0 androidboot.wakesrc=8 quiet\n".toList, false, 0⟩
      "console=ttyS0 androidboot.wakesrc=8 quiet\n".toList anr_world rfl rfl (by decide)).1,
    (read_startupreason_table
      ⟨some "console=ttyS0 androidboot.wakesrc=8 quiet\n".toList, false, 0⟩
      "console=ttyS0 androidboot.wakesrc=8 quiet\n".toList anr_world rfl rfl (by decide)).2⟩

/-! ## The command line and the attachments -/

/-- The allocation holds the base64 text and its terminator exactly when the size of the
attachment is not 1 more than a multiple of 3. -/
theorem b64_alloc_enough_iff (n : Nat) : spec_b64_size n ≤ b64_alloc n ↔ n % 3 ≠ 1 := by
  unfold spec_b64_size b64_alloc
  omega

/-- C30: for an attachment of 1 byte the buffer has (1 + 2) * 4 / 3 = 4 bytes, one less than
the 4 characters of the base64 text and the terminating NUL; the buffer is one byte short
for every size that is 1 more than a multiple of 3 and large enough for every other size. -/
theorem b64_alloc_short :
    b64_alloc 1 = 4 ∧ spec_b64_size 1 = 5 ∧ ¬ spec_b64_size 1 ≤ b64_alloc 1 ∧
      ∀ n, spec_b64_size n ≤ b64_alloc n ↔ n % 3 ≠ 1 :=
  ⟨rfl, rfl, by decide, b64_alloc_enough_iff⟩

/-- With the modulus 0 every call of `find_dir` that finds its cursor file and can open it
divides by zero. -/
theorem find_dir_zero_modulus (sys : Sys) (mode : Nat) (fs : FS) (content : Str)
    (h1 : sys.stat_err = false) (h2 : sys.fopen_r_fails = false)
    (h3 : sys.fopen_w_fails = false) (hfile : fs.files (cursor_path mode) = some content) :
    (find_dir sys 0 mode fs).isNone = true := by
  unfold find_dir
  simp [h1, h2, h3, hfile]

/-- C27: the argument 0 is accepted, `strtoul` setting no error, and makes the rotation
modulus 0; with it `find_dir` divides by zero on every present cursor file, so the second
allocation of a run that starts without cursor file never returns. -/
theorem main_files_zero :
    main_files 32 (some "0".toList) = some 0 ∧
      (find_dir Sys.ok 0 CRASH_MODE (cursorOnly (some "5".toList))).isNone = true ∧
      (find_dir_seq 0 CRASH_MODE 2 (cursorOnly none)).isNone = true := by
  decide

/-- The file `dump_data_in_file` writes holds a line for every attachment of the types
`DATA0` to `DATA5`, in the order of the attachments. -/
theorem dump_data_in_file_lines (atts : List ct_attchmt) :
    dump_data_in_file false atts = (0, some (atts.flatMap data_line)) := rfl

/-- C25: for an event with the attachments DATA0, DATA3, BINARY and DATA5 the trigger file
holds the lines of DATA0, DATA3 and DATA5, not only the line of DATA0. -/
theorem dump_data_in_file_writes_data3 :
    dump_data_in_file false
        [⟨ct_attchmt_type.CT_ATTCHMT_DATA0, "a".toList⟩,
          ⟨ct_attchmt_type.CT_ATTCHMT_DATA3, "b".toList⟩,
          ⟨ct_attchmt_type.CT_ATTCHMT_BINARY, "c".toList⟩,
          ⟨ct_attchmt_type.CT_ATTCHMT_DATA5, "d".toList⟩] =
        (0, some "DATA0=a\nDATA3=b\nDATA5=d\n".toList) ∧
      spec_data_file
        [⟨ct_attchmt_type.CT_ATTCHMT_DATA0, "a".toList⟩,
          ⟨ct_attchmt_type.CT_ATTCHMT_DATA3, "b".toList⟩,
          ⟨ct_attchmt_type.CT_ATTCHMT_BINARY, "c".toList⟩,
          ⟨ct_attchmt_type.CT_ATTCHMT_DATA5, "d".toList⟩] = "DATA0=a\n".toList := by
  decide

/-- Some values of `strtoul` and of the modulus for sample arguments. -/
theorem strtoul_samples :
    strtoul 32 "0x1F".toList = (31, false) ∧ strtoul 32 "017".toList = (15, false) ∧
      strtoul 32 " 42abc".toList = (42, false) ∧ strtoul 32 "abc".toList = (0, false) ∧
      strtoul 32 "4294967296".toList = (4294967295, true) ∧
      strtoul 32 "-1".toList = (4294967295, false) ∧
      main_files 64 (some "4294967296".toList) = some 0 ∧
      main_files 32 (some "-modem".toList) = some DEFAULT_FILES := by
  decide

/-! ## The build identifier and the start of `main` -/

theorem dropWhile_eq_self_of_head (p : Char → Bool) (c : Char) (cs : Str) (h : p c = false) :
    (c :: cs).dropWhile p = c :: cs := by
  simp [List.dropWhile, h]

/-- The conversion `%s` reads a text without white space whole. -/
theorem scanf_s_word (b : Str) (n : Nat) (hne : b ≠ []) (hsp : ∀ c ∈ b, isspace c = false)
    (hn : b.length ≤ n) : scanf_s n b = some (b, []) := by
  cases b with
  | nil => exact absurd rfl hne
  | cons c cs =>
    have h1 : (c :: cs).dropWhile isspace = c :: cs :=
      dropWhile_eq_self_of_head _ _ _ (hsp c (List.mem_cons_self _ _))
    have h2 : (c :: cs).takeWhile (fun x => !isspace x) = c :: cs :=
      takeWhile_eq_self_of_all _ _ (fun x hx => by simp [hsp x hx])
    unfold scanf_s
    simp only [h1, h2, List.take_of_length_le hn]
    simp

/-- For a build name without white space that fits the buffer, a call of `swupdated` on the
file that holds the name returns 0 and leaves the file as it is. -/
theorem swupdated_same (sys : BuildSys) (b : Str) (hne : b ≠ [])
    (hsp : ∀ c ∈ b, isspace c = false) (hlen : b.length < PROPERTY_VALUE_MAX) :
    swupdated sys b (some b) = some (0, some b) := by
  unfold swupdated
  by_cases hr : sys.fopen_r_fails = true
  · simp [hr]
  · have hn : ¬ PROPERTY_VALUE_MAX ≤ b.length := by omega
    simp only [hr, scanf_s_word b b.length hne hsp (le_refl _), hn, swupdated_compare,
      Bool.false_eq_true, if_false, ne_eq, not_true_eq_false]

/-- C29: for the build name `4.2 test` the first call of swupdated, on a device without
build-id file, returns 1 and stores the name; the second call reads back the word `4.2`
only, finds it different from the name, stores the name again and returns 1 as well.  For
the empty build name the second call reads no word from the empty file and compares the
name with what the buffer currentbuild happens to hold: it returns 1 again whenever that is
not the empty string. -/
theorem swupdated_twice_reports :
    swupdated BuildSys.ok "4.2 test".toList none = some (1, some "4.2 test".toList) ∧
      swupdated BuildSys.ok "4.2 test".toList (some "4.2 test".toList) =
        some (1, some "4.2 test".toList) ∧
      swupdated ⟨false, false, "x".toList⟩ [] none = some (1, some []) ∧
      swupdated ⟨false, false, "x".toList⟩ [] (some []) = some (1, some []) := by
  decide

/-- C28: for the property values unsupported, empty and empty (ro.crypto.state neither
unencrypted nor encrypted, no encryption in progress, vold.decrypt not
trigger_post_fs_data) none of the four tests of main holds: the REBOOT record is reached
with the empty startup reason of the initialisation and with the buffer lastuptime as it
was, no call having assigned it.  On a normal start without software update and without
ledger file uptime_history returns at once, and lastuptime is not assigned either. -/
theorem main_startup_falls_through (updated : Bool) (csys : CmdlineSys) (usys : UptimeSys)
    (lastuptime : Str) (ledger : Option Str) :
    main_startup "unsupported".toList [] [] updated csys usys lastuptime ledger =
        Startup.next (some []) lastuptime "DECRYPTED".toList ledger ∧
      main_startup "unencrypted".toList [] [] false csys usys lastuptime none =
        Startup.next (read_startupreason 16 csys) lastuptime "DECRYPTED".toList none := by
  constructor
  · unfold main_startup
    rw [if_neg (by decide), if_neg (by decide), if_neg (by decide), if_neg (by decide)]
  · unfold main_startup
    rw [if_pos (by decide)]
    rfl

/-! ## The reports lost by a full dropbox -/

/-- The body of the loop for an entry that is neither for the STATS nor for the aplog
triggers and a file name with `.lost` and without the names of the modem files: the branch
for a full dropbox and `break` when the name contains the pattern of the entry, nothing
otherwise. -/
theorem classify_lost (w : World) (e : wd_name) (name : Str)
    (hA : e.eventname ≠ APLOGTRIGGER) (hS : e.eventname ≠ STATSTRIGGER)
    (hl : contains name ".lost".toList = true)
    (h1 : contains name "apimr.txt".toList = false)
    (h2 : contains name "mreset.txt".toList = false)
    (h3 : contains name "mpanic.txt".toList = false) :
    (contains name e.cmp = true → classify w e name = (branch_lost w name, true)) ∧
    (contains name e.cmp = false → classify w e name = ([], false)) := by
  constructor
  · intro hc
    unfold classify
    simp only [hc, hl, h1, h2, h3, Bool.false_eq_true, or_self, and_false, and_true, if_false,
      if_true, and_self]
  · intro hc
    unfold classify
    simp [hc, hA, hS]

theorem record_subtypes_lost_event (w : World) (name : Str) :
    record_subtypes (branch_lost w name) =
      match lost_event name with
      | none => []
      | some ev => [(CRASHEVENT, some ev, some ((LOST ++ '_' :: ev).take 31))] := by
  unfold branch_lost
  cases lost_event name with
  | none => rfl
  | some ev =>
    simp only []
    split <;> simp [record_subtypes, no_dir_record]

/-- The records of the branch for a full dropbox. -/
theorem record_subtypes_lost (w : World) (name : Str) :
    record_subtypes (branch_lost w name) =
      if contains name "anr".toList = true then
        [(CRASHEVENT, some ANR_CRASH, some "LOST_DROPBOX_ANR".toList)]
      else if contains name "crash".toList = true then
        [(CRASHEVENT, some JAVA_CRASH, some "LOST_DROPBOX_JAVACRASH".toList)]
      else [] := by
  rw [record_subtypes_lost_event]
  unfold lost_event
  by_cases ha : contains name "anr".toList = true
  · simp only [ha, if_true]
    decide
  · by_cases hc : contains name "crash".toList = true
    · simp only [ha, hc, if_true, if_false]
      decide
    · simp only [ha, hc, if_false]
      rfl

/-- C22 as stated fails: for the lost report system_app_anr@1357.txt.lost the recorded CRASH
event has the type ANR, not LOST_DROPBOX, and the subtype LOST_DROPBOX_ANR, not LOST_ANR. -/
theorem lost_dispatch_counterexample :
    record_subtypes (dispatch anr_world (watch_table sample_wds) (sample_wds DROPBOX_DIR)
        "system_app_anr@1357.txt.lost".toList) =
        [(CRASHEVENT, some "ANR".toList, some "LOST_DROPBOX_ANR".toList)] ∧
      "ANR".toList ≠ LOST ∧ "LOST_DROPBOX_ANR".toList ≠ "LOST_ANR".toList := by
  decide

/-- C22, amended: for every file notified in the dropbox directory whose name contains .lost
and none of apimr.txt, mreset.txt and mpanic.txt, the loop over the watch table runs the
branch for a full dropbox once: the recorded CRASH event has the type ANR and the subtype
LOST_DROPBOX_ANR when the name contains anr, the type JAVACRASH and the subtype
LOST_DROPBOX_JAVACRASH when it contains crash but not anr, and nothing is recorded when it
contains neither; the subtype of the call is the one history_file_write hands to the
analyzer when the record has a bundle path. -/
theorem lost_dispatch (w : World) (wds : Str → Int) (name : Str)
    (hw : ∀ e ∈ wd_array, e.filename ≠ DROPBOX_DIR → wds e.filename ≠ wds DROPBOX_DIR)
    (hl : contains name ".lost".toList = true)
    (h1 : contains name "apimr.txt".toList = false)
    (h2 : contains name "mreset.txt".toList = false)
    (h3 : contains name "mpanic.txt".toList = false) :
    dispatch w (watch_table wds) (wds DROPBOX_DIR) name = branch_lost w name ∧
      record_subtypes (dispatch w (watch_table wds) (wds DROPBOX_DIR) name) =
        (if contains name "anr".toList = true then
          [(CRASHEVENT, some ANR_CRASH, some "LOST_DROPBOX_ANR".toList)]
        else if contains name "crash".toList = true then
          [(CRASHEVENT, some JAVA_CRASH, some "LOST_DROPBOX_JAVACRASH".toList)]
        else []) ∧
      ∀ (sys : HistSys) (ledger : Option Str) (type subtype log key date : Str),
        sys.creat_fails = false → sys.append_fails = false →
        (history_file_write sys ledger CRASHEVENT (some type) (some subtype) (some log) none
          key date).2 = some (some subtype, history_path log, key, fmt_uptime sys.tm, date) := by
  have hd : dispatch w (watch_table wds) (wds DROPBOX_DIR) name = branch_lost w name := by
    have h0 := hw ⟨0, IN_CLOSE_WRITE, CURRENT_UPTIME, "/data/logs/uptime".toList, []⟩
      (by simp [wd_array]) (by decide)
    have hm := hw ⟨0, IN_CLOSE_WRITE ||| IN_DELETE_SELF ||| IN_MOVE_SELF, MODEM_CRASH,
      "/data/logs/modemcrash".toList, "mpanic.txt".toList⟩ (by simp [wd_array]) (by decide)
    have h6 := hw ⟨0, IN_CLOSE_WRITE ||| IN_DELETE_SELF ||| IN_MOVE_SELF, TOMB_CRASH,
      "/data/tombstones".toList, "tombstone".toList⟩ (by simp [wd_array]) (by decide)
    have h8 := hw ⟨0, IN_CLOSE_WRITE ||| IN_DELETE_SELF ||| IN_MOVE_SELF, AP_COREDUMP,
      "/data/logs/core".toList, ".core".toList⟩ (by simp [wd_array]) (by decide)
    have e4 := classify_lost w ⟨wds DROPBOX_DIR, IN_MOVED_TO ||| IN_DELETE_SELF ||| IN_MOVE_SELF,
      SYSSERVER_WDT, DROPBOX_DIR, "system_server_watchdog".toList⟩ name
      (show SYSSERVER_WDT ≠ APLOGTRIGGER by decide)
      (show SYSSERVER_WDT ≠ STATSTRIGGER by decide) hl h1 h2 h3
    have e5 := classify_lost w ⟨wds DROPBOX_DIR, IN_MOVED_TO ||| IN_DELETE_SELF ||| IN_MOVE_SELF,
      ANR_CRASH, DROPBOX_DIR, "anr".toList⟩ name
      (show ANR_CRASH ≠ APLOGTRIGGER by decide) (show ANR_CRASH ≠ STATSTRIGGER by decide)
      hl h1 h2 h3
    have e7 := classify_lost w ⟨wds DROPBOX_DIR, IN_MOVED_TO ||| IN_DELETE_SELF ||| IN_MOVE_SELF,
      JAVA_CRASH, DROPBOX_DIR, "crash".toList⟩ name
      (show JAVA_CRASH ≠ APLOGTRIGGER by decide) (show JAVA_CRASH ≠ STATSTRIGGER by decide)
      hl h1 h2 h3
    have e9 := classify_lost w ⟨wds DROPBOX_DIR,
      IN_MOVED_TO ||| IN_CLOSE_WRITE ||| IN_DELETE_SELF ||| IN_MOVE_SELF,
      LOST, DROPBOX_DIR, ".lost".toList⟩ name
      (show LOST ≠ APLOGTRIGGER by decide) (show LOST ≠ STATSTRIGGER by decide) hl h1 h2 h3
    simp only [] at e4 e5 e7 e9
    have hb : ∀ (e : wd_name) (es : List wd_name), e.wd = wds DROPBOX_DIR →
        classify w e name = (branch_lost w name, true) →
        dispatch w (e :: es) (wds DROPBOX_DIR) name = branch_lost w name := by
      intro e es hwd hc
      rw [dispatch_break w e es (wds DROPBOX_DIR) name hwd (by rw [hc]), hc]
    rw [watch_table_eq, dispatch_skip _ _ _ _ _ h0, dispatch_skip _ _ _ _ _ hm,
      dispatch_skip _ _ _ _ _ hm, dispatch_skip _ _ _ _ _ hm]
    cases c4 : contains name "system_server_watchdog".toList with
    | true => exact hb _ _ rfl (e4.1 c4)
    | false =>
      rw [dispatch_pass w _ _ (wds DROPBOX_DIR) name rfl (e4.2 c4)]
      cases c5 : contains name "anr".toList with
      | true => exact hb _ _ rfl (e5.1 c5)
      | false =>
        rw [dispatch_pass w _ _ (wds DROPBOX_DIR) name rfl (e5.2 c5),
          dispatch_skip _ _ _ _ _ h6]
        cases c7 : contains name "crash".toList with
        | true => exact hb _ _ rfl (e7.1 c7)
        | false =>
          rw [dispatch_pass w _ _ (wds DROPBOX_DIR) name rfl (e7.2 c7),
            dispatch_skip _ _ _ _ _ h8]
          exact hb _ _ rfl (e9.1 hl)
  refine ⟨hd, ?_, ?_⟩
  · rw [hd]
    exact record_subtypes_lost w name
  · intro sys ledger type subtype log key date hc ha
    unfold history_file_write
    cases ledger <;> simp [hc, ha]

/-- Witness of the amended C22: a lost crash report with a bundle in slot 7. -/
theorem lost_dispatch_witness :
    record_subtypes (dispatch anr_world (watch_table sample_wds) (sample_wds DROPBOX_DIR)
        "data_app_crash@1357.txt.lost".toList) =
      [(CRASHEVENT, some JAVA_CRASH, some "LOST_DROPBOX_JAVACRASH".toList)] :=
  (lost_dispatch anr_world sample_wds "data_app_crash@1357.txt.lost".toList (by decide)
    (by decide) (by decide) (by decide) (by decide)).2.1

/-! ## The uptime text and the header line -/

theorem fmt_u_fuel_length (fuel : Nat) : ∀ (n k : Nat), n < 10 ^ (k + 1) →
    (fmt_u_fuel fuel n).length ≤ k + 1 := by
  induction fuel with
  | zero => intro n k _; simp [fmt_u_fuel]
  | succ fuel ih =>
    intro n k h
    unfold fmt_u_fuel
    by_cases hn : n < 10
    · simp [hn]
    · simp only [hn, if_false, List.length_append, List.length_singleton]
      cases k with
      | zero => simp at h; omega
      | succ k =>
        have : n / 10 < 10 ^ (k + 1) := by
          rw [Nat.div_lt_iff_lt_mul (by decide)]
          calc n < 10 ^ (k + 1 + 1) := h
            _ = 10 ^ (k + 1) * 10 := by ring
        have := ih (n / 10) k this
        omega

theorem fmt_u_length (n k : Nat) (h : n < 10 ^ (k + 1)) : (fmt_u n).length ≤ k + 1 :=
  fmt_u_fuel_length (n + 1) n k h

theorem fmt_u_isdigit (n : Nat) : ∀ c ∈ fmt_u n, isdigit c = true :=
  (fmt_u_fuel_spec (n + 1) n (Nat.lt_succ_self n)).1

theorem fmt_u_ne_nil (n : Nat) : fmt_u n ≠ [] := by
  obtain ⟨d, cs, _, h⟩ := (fmt_u_fuel_spec (n + 1) n (Nat.lt_succ_self n)).2.1
  unfold fmt_u
  rw [h]
  simp

theorem isspace_of_isdigit (c : Char) (h : isdigit c = true) : isspace c = false := by
  unfold isdigit at h
  simp only [Bool.and_eq_true, decide_eq_true_eq] at h
  unfold isspace
  have hne : ∀ d : Char, d.toNat < 48 → c ≠ d := fun d hd e => by
    subst e
    omega
  simp [hne ' ' (by decide), hne '\t' (by decide), hne '\n' (by decide),
    hne '\x0b' (by decide), hne '\x0c' (by decide), hne '\r' (by decide)]

theorem fmt_0d_length (w k : Nat) (v : Int) (h : (fmt_u v.natAbs).length ≤ k) :
    (fmt_0d w v).length ≤ max w (k + 1) := by
  unfold fmt_0d
  simp only []
  split
  · simp only [List.length_cons, List.length_append, List.length_replicate]
    omega
  · simp only [List.length_append, List.length_replicate]
    omega

theorem fmt_0d_ne_nil (w : Nat) (v : Int) : fmt_0d w v ≠ [] := by
  unfold fmt_0d
  simp only []
  split
  · simp
  · simp [fmt_u_ne_nil]

theorem fmt_0d_nospace (w : Nat) (v : Int) : ∀ c ∈ fmt_0d w v, isspace c = false := by
  intro c hc
  unfold fmt_0d at hc
  simp only [] at hc
  have hz : isspace '0' = false := by decide
  have hm : isspace '-' = false := by decide
  split at hc
  · simp only [List.mem_cons, List.mem_append, List.mem_replicate] at hc
    rcases hc with h | ⟨_, h⟩ | h
    · rw [h]; exact hm
    · rw [h]; exact hz
    · exact isspace_of_isdigit c (fmt_u_isdigit _ c h)
  · simp only [List.mem_append, List.mem_replicate] at hc
    rcases hc with ⟨_, h⟩ | h
    · rw [h]; exact hz
    · exact isspace_of_isdigit c (fmt_u_isdigit _ c h)

theorem tdiv_sixty (x : Int) :
    Int.tdiv x 60 = if 0 ≤ x then x / 60 else -((-x) / 60) := by
  split
  · exact Int.tdiv_eq_ediv (by assumption) (by decide)
  · have h : Int.tdiv (-(-x)) 60 = -(Int.tdiv (-x) 60) := Int.neg_tdiv _ _
    rw [neg_neg] at h
    rw [h, Int.tdiv_eq_ediv (by omega) (by decide)]

theorem tmod_sixty (x : Int) :
    Int.tmod x 60 = if 0 ≤ x then x % 60 else -((-x) % 60) := by
  split
  · exact Int.tmod_eq_emod (by assumption) (by decide)
  · rw [Int.tmod_def, tdiv_sixty]
    simp only [*, if_false]
    omega

theorem int32_range (v : Int) : -2147483648 ≤ int32 v ∧ int32 v < 2147483648 := by
  unfold int32
  omega

/-- The uptime text of every nanosecond count is not empty, holds no white space and has at
most 15 characters. -/
theorem fmt_uptime_shape (tm : Int) :
    fmt_uptime tm ≠ [] ∧ (∀ c ∈ fmt_uptime tm, isspace c = false) ∧
      (fmt_uptime tm).length ≤ 15 := by
  unfold fmt_uptime
  simp only []
  obtain ⟨hlo, hhi⟩ := int32_range (Int.tdiv tm 1000000000)
  generalize int32 (Int.tdiv tm 1000000000) = s at hlo hhi
  have hh : (Int.tdiv (Int.tdiv s 60) 60).natAbs < 10 ^ (5 + 1) := by
    rw [tdiv_sixty, tdiv_sixty]
    split_ifs <;> omega
  have hm : (Int.tmod (Int.tdiv s 60) 60).natAbs < 10 ^ (1 + 1) := by
    rw [tmod_sixty]
    split_ifs <;> omega
  have hs : (Int.tmod s 60).natAbs < 10 ^ (1 + 1) := by
    rw [tmod_sixty]
    split_ifs <;> omega
  have l1 := fmt_0d_length 4 6 _ (fmt_u_length _ 5 hh)
  have l2 := fmt_0d_length 2 2 _ (fmt_u_length _ 1 hm)
  have l3 := fmt_0d_length 2 2 _ (fmt_u_length _ 1 hs)
  refine ⟨?_, ?_, ?_⟩
  · simp [fmt_0d_ne_nil]
  · intro c hc
    simp only [List.mem_append, List.mem_cons] at hc
    rcases hc with (h | h | h) | h | h
    · exact fmt_0d_nospace _ _ c h
    · rw [h]; decide
    · exact fmt_0d_nospace _ _ c h
    · rw [h]; decide
    · exact fmt_0d_nospace _ _ c h
  · simp only [List.length_append, List.length_cons]
    simp only [Nat.max_def] at l1 l2 l3
    split_ifs at l1 l2 l3 <;> omega

theorem overwrite_append (a b rest : Str) (h : a.length = b.length) :
    overwrite (a ++ rest) b = b ++ rest := by
  unfold overwrite
  rw [← h, List.drop_left]

theorem header_line_length (u : Str) (h : u.length ≤ 24) : (header_line u).length = 47 := by
  unfold header_line
  simp only [List.length_append, List.length_singleton, pad_right_length 24 u h,
    pad_right_length 16 CURRENT_UPTIME (by decide)]
  rfl

theorem uptime_tick_header_length (tm : Int) :
    (uptime_tick_header CURRENT_UPTIME tm).length = 46 := by
  unfold uptime_tick_header
  simp only [List.length_append, pad_right_length 24 _
    (le_trans (fmt_uptime_shape tm).2.2 (by decide)),
    pad_right_length 16 CURRENT_UPTIME (by decide)]
  rfl

/-- The write of the tick on a ledger that starts with a header line for an uptime text of
at most 24 characters replaces that line by the header line of the new uptime. -/
theorem uptime_tick_write_header (tm : Int) (u rest : Str) (h : u.length ≤ 24) :
    uptime_tick_write false tm (some (header_line u ++ rest)) =
      some (header_line (fmt_uptime tm) ++ rest) := by
  have h24 := le_trans (fmt_uptime_shape tm).2.2 (show 15 ≤ 24 by decide)
  have ha : ("#V1.0 ".toList ++ pad_right 16 CURRENT_UPTIME ++ pad_right 24 u).length =
      (uptime_tick_header CURRENT_UPTIME tm).length := by
    unfold uptime_tick_header
    simp only [List.length_append, pad_right_length 24 _ h, pad_right_length 24 _ h24]
  have hc : header_line u ++ rest =
      ("#V1.0 ".toList ++ pad_right 16 CURRENT_UPTIME ++ pad_right 24 u) ++ ('\n' :: rest) := by
    unfold header_line
    simp only [List.append_assoc, List.singleton_append]
  unfold uptime_tick_write
  simp only [Bool.false_eq_true, if_false]
  rw [hc, overwrite_append _ _ _ ha]
  unfold uptime_tick_header header_line
  simp only [List.append_assoc, List.singleton_append]

/-- C24: for every uptime value the text the uptime tick writes at offset 0 of the ledger
has exactly 46 bytes, one less than the 47 bytes of the first header line with its newline
as history_file_write and reset_history create it; written over a ledger that starts with
such a line it yields the header line of the new uptime followed by every later byte of the
ledger as it was. -/
theorem uptime_tick_in_place (tm tm0 : Int) (rest : Str) :
    (uptime_tick_header CURRENT_UPTIME tm).length = 46 ∧
      (header_line (fmt_uptime tm0)).length = 47 ∧
      uptime_tick_write false tm (some (header_line (fmt_uptime tm0) ++ rest)) =
        some (header_line (fmt_uptime tm) ++ rest) ∧
      uptime_tick_write false tm (some (reset_history ++ rest)) =
        some (header_line (fmt_uptime tm) ++ (column_header ++ rest)) := by
  have h24 := le_trans (fmt_uptime_shape tm0).2.2 (show 15 ≤ 24 by decide)
  refine ⟨uptime_tick_header_length tm, header_line_length _ h24,
    uptime_tick_write_header tm _ rest h24, ?_⟩
  have := uptime_tick_write_header tm "0000:00:00".toList (column_header ++ rest) (by decide)
  rw [← List.append_assoc] at this
  exact this

theorem dropWhile_append_of_all (p : Char → Bool) (l : Str) : ∀ sp : Str,
    (∀ c ∈ sp, p c = true) → (sp ++ l).dropWhile p = l.dropWhile p
  | [], _ => rfl
  | c :: sp, h => by
    rw [List.cons_append, List.dropWhile_cons, if_pos (h c (List.mem_cons_self _ _))]
    exact dropWhile_append_of_all p l sp (fun x hx => h x (List.mem_cons_of_mem _ hx))

theorem takeWhile_append_stop (p : Char → Bool) (tail : Str)
    (ht : tail = [] ∨ ∃ c r, tail = c :: r ∧ p c = false) : ∀ word : Str,
    (∀ c ∈ word, p c = true) → (word ++ tail).takeWhile p = word
  | [], _ => by
    rcases ht with h | ⟨c, r, h, hc⟩
    · rw [h]; rfl
    · rw [h, List.nil_append, List.takeWhile_cons, hc]; rfl
  | c :: word, h => by
    rw [List.cons_append, List.takeWhile_cons, if_pos (h c (List.mem_cons_self _ _)),
      takeWhile_append_stop p tail ht word (fun x hx => h x (List.mem_cons_of_mem _ hx))]

/-- The conversion `%Ns` on white space, a word of at most `n` characters and a tail that is
empty or starts with white space stores the word and leaves the tail. -/
theorem scanf_s_spec (n : Nat) (sp word tail : Str) (hsp : ∀ c ∈ sp, isspace c = true)
    (hne : word ≠ []) (hw : ∀ c ∈ word, isspace c = false) (hlen : word.length ≤ n)
    (ht : tail = [] ∨ ∃ c r, tail = c :: r ∧ isspace c = true) :
    scanf_s n (sp ++ (word ++ tail)) = some (word, tail) := by
  have h1 : (sp ++ (word ++ tail)).dropWhile isspace = word ++ tail := by
    rw [dropWhile_append_of_all isspace _ sp hsp]
    cases word with
    | nil => exact absurd rfl hne
    | cons c cs =>
      rw [List.cons_append]
      exact dropWhile_eq_self_of_head _ _ _ (hw c (List.mem_cons_self _ _))
  have h2 : (word ++ tail).takeWhile (fun c => !isspace c) = word := by
    apply takeWhile_append_stop
    · rcases ht with h | ⟨c, r, h, hc⟩
      · exact Or.inl h
      · exact Or.inr ⟨c, r, h, by simp [hc]⟩
    · intro c hc
      simp [hw c hc]
  unfold scanf_s
  simp only [h1, h2, List.take_of_length_le hlen]
  cases word with
  | nil => exact absurd rfl hne
  | cons c cs => simp

/-- On a ledger that starts with a header line for an uptime text without white space, the
`fscanf` of `uptime_history` stores `CURRENTUPTIME` and the uptime text. -/
theorem scan_header_header_line (u rest name last : Str) (hne : u ≠ [])
    (hsp : ∀ c ∈ u, isspace c = false) (hlen : u.length ≤ 24) :
    scan_header (header_line u ++ rest) name last = (CURRENT_UPTIME, u) := by
  have hc : header_line u ++ rest = "#V1.0".toList ++ (" ".toList ++ (CURRENT_UPTIME ++
      ("   ".toList ++ (u ++ (List.replicate (24 - u.length) ' ' ++ '\n' :: rest))))) := by
    unfold header_line pad_right
    rw [show "#V1.0 ".toList = "#V1.0".toList ++ " ".toList from by decide,
      show List.replicate (16 - CURRENT_UPTIME.length) ' ' = "   ".toList from by decide]
    simp only [List.append_assoc, List.singleton_append]
  have htail : List.replicate (24 - u.length) ' ' ++ '\n' :: rest = [] ∨
      ∃ c r, List.replicate (24 - u.length) ' ' ++ '\n' :: rest = c :: r ∧
        isspace c = true := by
    right
    cases 24 - u.length with
    | zero => exact ⟨'\n', rest, rfl, by decide⟩
    | succ k => exact ⟨' ', List.replicate k ' ' ++ '\n' :: rest, rfl, by decide⟩
  have h1 := scanf_s_spec 16 " ".toList CURRENT_UPTIME
    ("   ".toList ++ (u ++ (List.replicate (24 - u.length) ' ' ++ '\n' :: rest)))
    (by decide) (by decide) (by decide) (by decide) (Or.inr ⟨' ', _, rfl, by decide⟩)
  have h2 := scanf_s_spec 24 "   ".toList u
    (List.replicate (24 - u.length) ' ' ++ '\n' :: rest) (by decide) hne hsp hlen htail
  unfold scan_header
  rw [hc, if_pos (List.isPrefixOf_iff_prefix.mpr (List.prefix_append _ _)),
    show (5 : Nat) = "#V1.0".toList.length from rfl, List.drop_left, h1]
  simp only [h2]

/-- C23: on a normal start without software update, with a ledger that starts with the
header line the daemon writes for the uptime text u of a nanosecond count, uptime_history
recovers exactly u, replaces the header line by the one for 0000:00:00, every other byte of
the ledger staying as it was, and appends one UPTIME record that ends with u; main reaches
the REBOOT record with u in lastuptime, and the REBOOT record, appended to whatever the
ledger holds then, ends with a blank, u and the newline. -/
theorem uptime_history_recovers (usys : UptimeSys) (csys : CmdlineSys) (hsys : HistSys)
    (tm : Int) (rest lastuptime decrypt ledger reason key date : Str)
    (hr : usys.fopen_r_fails = false) (hrw : usys.fopen_rw_fails = false)
    (hc : hsys.creat_fails = false) (ha : hsys.append_fails = false) :
    uptime_history usys lastuptime (some (header_line (fmt_uptime tm) ++ rest)) =
        (some (header_line "0000:00:00".toList ++ rest ++
          uptime_record usys.date_tmp (fmt_uptime tm)), fmt_uptime tm) ∧
      (fmt_uptime tm ++ ['\n']) <:+ uptime_record usys.date_tmp (fmt_uptime tm) ∧
      main_startup "unencrypted".toList [] decrypt false csys usys lastuptime
          (some (header_line (fmt_uptime tm) ++ rest)) =
        Startup.next (read_startupreason 16 csys) (fmt_uptime tm) "DECRYPTED".toList
          (some (header_line "0000:00:00".toList ++ rest ++
            uptime_record usys.date_tmp (fmt_uptime tm))) ∧
      main_reboot hsys (some ledger) reason (fmt_uptime tm) key date =
        some (ledger ++ record_head SYS_REBOOT key date ++ pad_right 16 reason ++
          ' ' :: fmt_uptime tm ++ ['\n']) := by
  obtain ⟨hne, hsp, hlen⟩ := fmt_uptime_shape tm
  have h24 : (fmt_uptime tm).length ≤ 24 := le_trans hlen (by decide)
  have hu : uptime_history usys lastuptime (some (header_line (fmt_uptime tm) ++ rest)) =
      (some (header_line "0000:00:00".toList ++ rest ++
        uptime_record usys.date_tmp (fmt_uptime tm)), fmt_uptime tm) := by
    unfold uptime_history
    simp only [hr, hrw, scan_header_header_line _ rest usys.name lastuptime hne hsp h24,
      Bool.false_eq_true, if_false, if_true]
    rw [overwrite_append _ _ _ ((header_line_length _ h24).trans
      (header_line_length "0000:00:00".toList (by decide)).symm)]
  refine ⟨hu, ?_, ?_, ?_⟩
  · unfold uptime_record
    exact ⟨pad_right 8 PER_UPTIME ++ "00000000000000000000  ".toList ++
      pad_right 20 usys.date_tmp, by simp only [List.append_assoc]⟩
  · unfold main_startup seed_start
    rw [if_pos ⟨rfl, rfl⟩, hu]
    rfl
  · unfold main_reboot history_file_write
    simp [hc, ha]

/-- Witness of C23: a ledger with the header line for 12 hours of uptime and with the column
header. -/
theorem uptime_history_recovers_witness :
    uptime_history ⟨false, false, [], "2013-01-01/00:00:00  ".toList⟩ []
        (some (header_line (fmt_uptime 43200000000000) ++ column_header)) =
      (some (header_line "0000:00:00".toList ++ column_header ++
        uptime_record "2013-01-01/00:00:00  ".toList (fmt_uptime 43200000000000)),
        fmt_uptime 43200000000000) :=
  (uptime_history_recovers ⟨false, false, [], "2013-01-01/00:00:00  ".toList⟩ ⟨none, false, 0⟩
    (HistSys.ok 0) 43200000000000 column_header [] [] [] "COLD_BOOT".toList
    "0123456789abcdef0123".toList "2013-01-01/00:00:00  ".toList rfl rfl rfl rfl).1

/-! ## The copy inside the truncation of the ledger -/

/-- The truncation leaves a ledger below the threshold as it is, and a file it has produced
is below the threshold: applied to its own result it changes nothing. -/
theorem del_file_more_lines_idem (data out : Str) :
    (count_newlines data < MAX_RECORDS + SAVEDLINES → del_file_more_lines data = some data) ∧
      (del_file_more_lines data = some out → del_file_more_lines out = some out) := by
  refine ⟨del_file_more_lines_below data, fun hout => ?_⟩
  by_cases h : MAX_RECORDS + SAVEDLINES ≤ count_newlines data
  · have hm := del_file_more_lines_memcpy_eq data h
    have ho := del_file_more_lines_of_memcpy data _ _ _ hm
    cases hov : regions_overlap (take_lines SAVEDLINES data).length
        (data.length - (drop_lines (count_newlines data - MAX_RECORDS / 2) data).length)
        (drop_lines (count_newlines data - MAX_RECORDS / 2) data).length with
    | true =>
      rw [hov, if_pos rfl, hout] at ho
      exact absurd ho (by simp)
    | false =>
      have he := del_file_more_lines_eq data _ _ _ h hm hov
      rw [hout, Option.some.injEq] at he
      apply del_file_more_lines_below
      rw [he, count_newlines_kept data h]
      decide
  · have hb := del_file_more_lines_below data (not_le.mp h)
    rw [hout, Option.some.injEq] at hb
    rw [hb]
    exact del_file_more_lines_below data (not_le.mp h)

theorem del_file_more_lines_none (data : Str) (dst src n : Nat)
    (hm : del_file_more_lines_memcpy data = some (dst, src, n))
    (ho : regions_overlap dst src n = true) : del_file_more_lines data = none := by
  rw [del_file_more_lines_of_memcpy data dst src n hm]
  simp only [ho, if_true]

/-- C26: on the ledger of two header lines and 4999 records, which has reached the
threshold, del_file_more_lines calls memcpy to move the 170000 bytes of the newest 2500
records from index 170035 down to index 47, only 169988 bytes lower: the two regions
overlap, so the behaviour of the call is undefined and the content the claim describes is
not what the C standard guarantees. -/
theorem del_file_more_lines_overlap :
    MAX_RECORDS + SAVEDLINES ≤ count_newlines (sample_ledger 4999) ∧
      del_file_more_lines_memcpy (sample_ledger 4999) = some (47, 170035, 170000) ∧
      regions_overlap 47 170035 170000 = true ∧
      del_file_more_lines (sample_ledger 4999) = none := by
  have hth : MAX_RECORDS + SAVEDLINES ≤ count_newlines (sample_ledger 4999) := by
    rw [count_newlines_sample_ledger]; decide
  have hm : del_file_more_lines_memcpy (sample_ledger 4999) = some (47, 170035, 170000) :=
    sample_ledger_memcpy 2499 (le_refl _)
  have ho : regions_overlap 47 170035 170000 = true := by decide
  exact ⟨hth, hm, ho, del_file_more_lines_none _ _ _ _ hm ho⟩

/-! ## The bundles of an aplog trigger -/

theorem aplog_paths_eq (w : World) (j k D : Nat) (dir : Int) (hD : 1 ≤ D) :
    aplog_paths w j k D dir = (aplog_src (j * D + k), aplog_dst w dir (j * D + k)) := by
  unfold aplog_paths aplog_src aplog_dst
  by_cases h : j = 0 ∧ k = 0
  · obtain ⟨hj, hk⟩ := h
    subst hj hk
    simp
  · have hne : j * D + k ≠ 0 := by
      intro h0
      apply h
      have hk : k = 0 := by omega
      have hj : j * D = 0 := by omega
      rcases Nat.mul_eq_zero.mp hj with h1 | h1
      · exact ⟨h1, hk⟩
      · omega
    simp only [h, hne, if_false]

/-- The inner loop from a turn `k ≥ 1` on, the files before number `j * D + k` being there:
it copies the files up to the first missing one. -/
theorem aplog_files_from (w : World) (j D m : Nat) (hD : 1 ≤ D)
    (hfiles : ∀ n, n < j * D + D → ((w.file (aplog_src n)).isSome = true ↔ n < m)) :
    ∀ (fuel k : Nat) (dir : Int) (present : Bool) (calls : Nat), k + fuel = D → 1 ≤ k →
      j * D + k ≤ m →
      aplog_files w j D fuel k dir present calls =
        (((List.range' (j * D + k) (min fuel (m - (j * D + k)))).map fun n =>
            Effect.do_copy (aplog_src n) (aplog_dst w dir n) 0),
          k + min fuel (m - (j * D + k)), dir,
          (if fuel = 0 then present else decide (j * D + D ≤ m)), calls) := by
  intro fuel
  induction fuel with
  | zero =>
    intro k dir present calls _ _ _
    simp [aplog_files]
  | succ fuel ih =>
    intro k dir present calls hk h1 hprev
    have hlt : j * D + k < j * D + D := by omega
    have hex := hfiles (j * D + k) hlt
    unfold aplog_files
    rw [aplog_paths_eq w j k D dir hD]
    simp only []
    by_cases hm : j * D + k < m
    · have hk0 : k ≠ 0 := by omega
      rw [if_pos (hex.mpr hm), if_neg hk0, ih (k + 1) dir true calls (by omega) (by omega)
        (by omega)]
      have hmin : min (fuel + 1) (m - (j * D + k)) = min fuel (m - (j * D + (k + 1))) + 1 := by
        omega
      rw [hmin, List.range'_succ, List.map_cons]
      simp only [Nat.add_assoc, Nat.succ_ne_zero, if_false]
      refine Prod.ext rfl (Prod.ext (by simp only; omega) (Prod.ext rfl (Prod.ext ?_ rfl)))
      simp only []
      by_cases hf : fuel = 0
      · subst hf
        simp only [if_true]
        have : j * D + D ≤ m := by omega
        simp [this]
      · simp only [hf, if_false]
    · have hmm : m - (j * D + k) = 0 := by omega
      rw [if_neg (fun h => hm (hex.mp h)), hmm]
      simp only [Nat.min_zero, List.range'_zero, List.map_nil, Nat.add_zero,
        Nat.succ_ne_zero, if_false]
      have : ¬ j * D + D ≤ m := by omega
      simp [this]

/-- One packet whose allocation succeeds: a bundle when its first file exists, nothing
otherwise; the loop goes on exactly when all its files exist. -/
theorem aplog_packet_eq (w : World) (j D m : Nat) (present : Bool) (calls : Nat) (hD : 1 ≤ D)
    (hfiles : ∀ n, n < j * D + D → ((w.file (aplog_src n)).isSome = true ↔ n < m))
    (halloc : w.find_dir calls ≠ -1) :
    aplog_packet w j D present calls =
      if j * D < m then (aplog_bundle w D m j (w.find_dir calls), decide (j * D + D ≤ m), calls + 1)
      else ([], false, calls) := by
  obtain ⟨fuel, rfl⟩ : ∃ fuel, D = fuel + 1 := ⟨D - 1, by omega⟩
  have hex := hfiles (j * (fuel + 1)) (by omega)
  unfold aplog_packet
  simp only []
  unfold aplog_files
  rw [aplog_paths_eq w j 0 (fuel + 1) (-1) hD, aplog_paths_eq w j 0 (fuel + 1) _ hD]
  simp only [Nat.add_zero]
  by_cases hm : j * (fuel + 1) < m
  · rw [if_pos (hex.mpr hm), if_pos hm]
    simp only [if_true, halloc, if_false]
    rw [aplog_files_from w j (fuel + 1) m hD hfiles fuel 1 (w.find_dir calls) true (calls + 1)
      (by omega) (le_refl 1) (by omega)]
    simp only []
    have hk : ¬ (1 + min fuel (m - (j * (fuel + 1) + 1)) = 0) := by omega
    have hmin : min (fuel + 1) (m - j * (fuel + 1)) =
        min fuel (m - (j * (fuel + 1) + 1)) + 1 := by omega
    simp only [ne_eq, hk, not_false_eq_true, halloc, and_self, if_true]
    unfold aplog_bundle
    rw [hmin, List.range'_succ, List.map_cons]
    refine Prod.ext ?_ (Prod.ext ?_ rfl)
    · simp only [List.cons_append, List.append_assoc]
    · simp only []
      by_cases hf : fuel = 0
      · subst hf
        have : j * (0 + 1) + (0 + 1) ≤ m := by omega
        simp only [if_true, this, decide_True]
      · simp only [hf, if_false]
  · rw [if_neg (fun h => hm (hex.mp h)), if_neg hm]
    simp

/-- The outer loop from packet `j` on, the packets before it being complete and allocated
by the calls before number `j`. -/
theorem aplog_packets_eq (w : World) (D m P : Nat) (hD : 1 ≤ D)
    (hfiles : ∀ n, n < P * D → ((w.file (aplog_src n)).isSome = true ↔ n < m))
    (halloc : ∀ c, c < P → w.find_dir c ≠ -1) :
    ∀ (fuel j : Nat) (present : Bool), j + fuel = P →
      aplog_packets w D fuel j present j = aplog_bundles w D m fuel j := by
  intro fuel
  induction fuel with
  | zero => intro j present _; rfl
  | succ fuel ih =>
    intro j present hj
    have hjP : j < P := by omega
    have hfj : ∀ n, n < j * D + D → ((w.file (aplog_src n)).isSome = true ↔ n < m) := by
      intro n hn
      apply hfiles
      calc n < j * D + D := hn
        _ = (j + 1) * D := by ring
        _ ≤ P * D := Nat.mul_le_mul_right D (by omega)
    unfold aplog_packets aplog_bundles
    simp only []
    rw [aplog_packet_eq w j D m present j hD hfj (halloc j hjP)]
    by_cases hm : j * D < m
    · simp only [hm, if_true]
      by_cases hfull : j * D + D ≤ m
      · simp only [hfull, decide_True, Bool.true_eq_false, if_false]
        rw [ih (j + 1) true (by omega)]
      · simp only [hfull, decide_False, if_true]
        have hnext : aplog_bundles w D m fuel (j + 1) = [] := by
          cases fuel with
          | zero => rfl
          | succ f =>
            unfold aplog_bundles
            have : ¬ (j + 1) * D < m := by
              rw [Nat.add_mul, Nat.one_mul]
              omega
            simp only [this, if_false]
        rw [hnext, List.append_nil]
    · simp only [hm, if_false, if_true]

theorem ceil_div_le_iff (x D j : Nat) (hD : 1 ≤ D) : (x + D - 1) / D ≤ j ↔ x ≤ j * D := by
  rw [Nat.div_le_iff_le_mul_add_pred (by omega), Nat.mul_comm D j]
  omega

/-- The number of calls of one kind among the bundles, when every bundle holds one. -/
theorem aplog_bundles_count (w : World) (D m : Nat) (hD : 1 ≤ D) (p : Effect → Bool)
    (hp : ∀ j dir, ((aplog_bundle w D m j dir).filter p).length = 1) :
    ∀ (fuel j : Nat), ((aplog_bundles w D m fuel j).filter p).length =
      (min m ((j + fuel) * D) + D - 1) / D - j := by
  intro fuel
  induction fuel with
  | zero =>
    intro j
    have : (min m ((j + 0) * D) + D - 1) / D ≤ j := by
      rw [ceil_div_le_iff _ _ _ hD, Nat.add_zero]
      exact Nat.min_le_right _ _
    simp only [aplog_bundles, List.filter_nil, List.length_nil]
    omega
  | succ fuel ih =>
    intro j
    unfold aplog_bundles
    by_cases hm : j * D < m
    · simp only [hm, if_true, List.filter_append, List.length_append, hp, ih (j + 1)]
      have hge : ¬ (min m ((j + 1 + fuel) * D) + D - 1) / D ≤ j := by
        rw [ceil_div_le_iff _ _ _ hD]
        have : j * D < (j + 1 + fuel) * D := by
          apply Nat.mul_lt_mul_of_pos_right <;> omega
        omega
      rw [show j + (fuel + 1) = j + 1 + fuel from by omega]
      omega
    · simp only [hm, if_false, List.filter_nil, List.length_nil]
      have : (min m ((j + (fuel + 1)) * D) + D - 1) / D ≤ j := by
        rw [ceil_div_le_iff _ _ _ hD]
        exact le_trans (Nat.min_le_left _ _) (by omega)
      omega

theorem aplog_bundle_alloc (w : World) (D m j : Nat) (dir : Int) :
    ((aplog_bundle w D m j dir).filter Effect.is_alloc).length = 1 := by
  unfold aplog_bundle
  rw [List.filter_append, List.filter_cons_of_pos (by rfl), List.filter_eq_nil_iff.mpr]
  · rfl
  · intro x hx
    obtain ⟨n, _, rfl⟩ := List.mem_map.mp hx
    simp [Effect.is_alloc]

theorem aplog_bundle_record (w : World) (D m j : Nat) (dir : Int) :
    ((aplog_bundle w D m j dir).filter Effect.is_record).length = 1 := by
  unfold aplog_bundle
  rw [List.filter_append, List.filter_cons_of_neg (by simp [Effect.is_record]),
    List.filter_eq_nil_iff.mpr]
  · rfl
  · intro x hx
    obtain ⟨n, _, rfl⟩ := List.mem_map.mp hx
    simp [Effect.is_record]

/-- C21: for every packet count P and depth D ≥ 1, when among the log files of the series
the first m exist and every allocation succeeds, the branch for an aplog trigger makes, for
every packet j below P whose first file exists, one bundle with the existing files among the
numbers j * D, ..., j * D + D - 1 under their own names and one APLOG record, and in the end
removes the trigger file; the bundles, and the records, are ceil(min(m, P * D) / D) in
number, and P when all P * D files exist. -/
theorem aplog_trigger_bundles (w : World) (e : wd_name) (name : Str) (P D m : Nat)
    (hD : 1 ≤ D) (hP : w.nb_packet = (P : Int)) (hDepth : w.aplog_depth = (D : Int))
    (hfiles : ∀ n, n < P * D → ((w.file (aplog_src n)).isSome = true ↔ n < m))
    (halloc : ∀ c, c < P → w.find_dir c ≠ -1) :
    branch_aplog w e name =
        aplog_bundles w D m P 0 ++ [Effect.remove (snp (e.filename ++ '/' :: name))] ∧
      ((branch_aplog w e name).filter Effect.is_alloc).length = (min m (P * D) + D - 1) / D ∧
      ((branch_aplog w e name).filter Effect.is_record).length = (min m (P * D) + D - 1) / D ∧
      (P * D ≤ m → ((branch_aplog w e name).filter Effect.is_alloc).length = P) := by
  have hb : branch_aplog w e name =
      aplog_bundles w D m P 0 ++ [Effect.remove (snp (e.filename ++ '/' :: name))] := by
    unfold branch_aplog
    rw [hP, hDepth, Int.toNat_ofNat, Int.toNat_ofNat,
      aplog_packets_eq w D m P hD hfiles halloc P 0 false (by omega)]
  have ha : ((branch_aplog w e name).filter Effect.is_alloc).length =
      (min m (P * D) + D - 1) / D := by
    rw [hb, List.filter_append, List.length_append,
      aplog_bundles_count w D m hD _ (aplog_bundle_alloc w D m) P 0]
    simp [Effect.is_alloc]
  have hr : ((branch_aplog w e name).filter Effect.is_record).length =
      (min m (P * D) + D - 1) / D := by
    rw [hb, List.filter_append, List.length_append,
      aplog_bundles_count w D m hD _ (aplog_bundle_record w D m) P 0]
    simp [Effect.is_record]
  refine ⟨hb, ha, hr, fun hall => ?_⟩
  rw [ha, Nat.min_eq_right hall]
  apply Nat.le_antisymm
  · rw [ceil_div_le_iff _ _ _ hD]
  · rw [Nat.le_div_iff_mul_le (by omega)]
    omega

/-- Witness of C21: depth 2, 2 packets and the files aplog, aplog.1 and aplog.2: a bundle
with aplog and aplog.1 and a bundle with aplog.2. -/
theorem aplog_trigger_bundles_witness :
    (branch_aplog aplog_world ⟨0, 0, APLOGTRIGGER, "/data/logs/aplogs".toList,
        "_trigger".toList⟩ "aplog_trigger".toList).filter Effect.is_copy =
        [Effect.do_copy "/data/logs/aplog".toList "/data/logs/aplogs7/aplog".toList 0,
          Effect.do_copy "/data/logs/aplog.1".toList "/data/logs/aplogs7/aplog.1".toList 0,
          Effect.do_copy "/data/logs/aplog.2".toList "/data/logs/aplogs7/aplog.2".toList 0] ∧
      ((branch_aplog aplog_world ⟨0, 0, APLOGTRIGGER, "/data/logs/aplogs".toList,
        "_trigger".toList⟩ "aplog_trigger".toList).filter Effect.is_record).length = 2 :=
  ⟨by decide,
    (aplog_trigger_bundles aplog_world ⟨0, 0, APLOGTRIGGER, "/data/logs/aplogs".toList,
      "_trigger".toList⟩ "aplog_trigger".toList 2 2 3 (by decide) rfl rfl (by decide)
      (fun _ _ => show (7 : Int) ≠ -1 by decide)).2.2.1⟩

end Crashlogd
